import Mathlib

/-!
# AMCL: angle arithmetic, odometry motion model and scan-step publication

A shallow embedding of parts of the AMCL localisation node over the real numbers:

* `normalize` / `angleDiff`            (sensors/odom.cpp, sensors/amcl_odom.cpp, node/node.cpp)
* `updateAction`                       (sensors/odom.cpp, sensors/amcl_odom.cpp)
* point cloud subsampling, hypothesis read-out and map->odom correction
                                        (node/amcl_node_3d.cpp, node/node.cpp)

`double` values are modelled by real numbers, so rounding, NaN and signed zeros are outside
the model.
-/

namespace Amcl

/-! ## Angles -/

/-- C library `atan2(y, x)` on real arguments: the angle of the point `(x, y)`, in `(-pi, pi]`,
and `0` at the origin. -/
noncomputable def atan2 (y x : ℝ) : ℝ := Complex.arg ⟨x, y⟩

/-- Source: `Odom::normalize`, `Node::normalize` and the static `normalize` of amcl_odom.cpp:
`return atan2(sin(z),cos(z));` -/
noncomputable def normalize (z : ℝ) : ℝ := atan2 (Real.sin z) (Real.cos z)

/-- Source: `Odom::angleDiff`, `Node::angleDiff` and `angle_diff` of amcl_odom.cpp (the three
bodies are the same text). -/
noncomputable def angleDiff (a b : ℝ) : ℝ :=
  let a := normalize a
  let b := normalize b
  let d1 := a - b
  let d2 := 2 * Real.pi - |d1|
  let d2 := if d1 > 0 then d2 * (-1) else d2
  if |d1| < |d2| then d1 else d2

/-! ## Particle filter data -/

/-- A pose `(x, y, yaw)`: the array `double v[3]` of `PFVector`. -/
structure PFVector where
  v0 : ℝ
  v1 : ℝ
  v2 : ℝ

/-- The 3x3 matrix `double m[3][3]` of `PFMatrix`. -/
structure PFMatrix where
  m : Fin 3 → Fin 3 → ℝ

/-- One particle. -/
structure PFSample where
  pose : PFVector
  weight : ℝ

/-- Statistics of one cluster of a sample set, as handed out by `get_cluster_stats`. -/
structure PFCluster where
  weight : ℝ
  mean : PFVector
  cov : PFMatrix

/-- The fields of a sample set read by the code below; `sample_count` and `cluster_count` are
the lengths of the two lists. -/
structure PFSampleSet where
  samples : List PFSample
  clusters : List PFCluster
  cov : PFMatrix

/-- Modelled from the spec: `PFVector::pfVectorSub` (`pf_vector_sub` in amcl_odom.cpp), whose
body is in pf/pf_vector.cpp, is element-wise subtraction with the yaw passed through
`normalize`.  `updateAction` reads only the yaw of the result, and only as the second argument
of `angleDiff`, which normalizes it again (`angleDiff_normalize_right`). -/
noncomputable def pfVectorSub (a b : PFVector) : PFVector :=
  { v0 := a.v0 - b.v0, v1 := a.v1 - b.v1, v2 := normalize (a.v2 - b.v2) }

/-! ## Odometry motion model (sensors/odom.cpp, sensors/amcl_odom.cpp) -/

inductive OdomModelType where
  | ODOM_MODEL_DIFF
  | ODOM_MODEL_OMNI
  | ODOM_MODEL_DIFF_CORRECTED
  | ODOM_MODEL_OMNI_CORRECTED
  | ODOM_MODEL_GAUSSIAN
  deriving DecidableEq, Repr

/-- The members of `Odom` that `updateAction` reads. -/
structure Odom where
  model_type_ : OdomModelType
  alpha1_ : ℝ
  alpha2_ : ℝ
  alpha3_ : ℝ
  alpha4_ : ℝ
  alpha5_ : ℝ

structure OdomData where
  pose : PFVector
  delta : PFVector
  absolute_motion : PFVector

/-- The random source `PDFGaussian::draw` (pf/pdf_gaussian.h) is a parameter of the model:
`draw n sigma` is the value returned by call number `n` of one `updateAction`, made with
argument `sigma`.  Every variant makes three calls per sample, so sample `i` uses the calls
`3 * i`, `3 * i + 1` and `3 * i + 2`, in the order of the statements of the source. -/
abbrev Draw := ℕ → ℝ → ℝ

/-- The loop `for (int i = 0; i < set->sample_count; i++)` with
`PFSample* sample = set->samples + i;`: `body i` rewrites sample `i`; the first sample of the
list has the index given. -/
def forEachSample (body : ℕ → PFSample → PFSample) : ℕ → List PFSample → List PFSample
  | _, [] => []
  | i, sample :: rest => body i sample :: forEachSample body (i + 1) rest

/-- Source: `case ODOM_MODEL_OMNI` of `Odom::updateAction`. -/
noncomputable def updateActionOmni (o : Odom) (draw : Draw) (ndata : OdomData)
    (old_pose : PFVector) (samples : List PFSample) : List PFSample :=
  let delta_trans := Real.sqrt (ndata.delta.v0 * ndata.delta.v0 +
                                ndata.delta.v1 * ndata.delta.v1)
  let delta_rot := ndata.delta.v2
  let trans_hat_stddev := o.alpha3_ * (delta_trans * delta_trans) +
                          o.alpha1_ * (delta_rot * delta_rot)
  let rot_hat_stddev := o.alpha4_ * (delta_rot * delta_rot) +
                        o.alpha2_ * (delta_trans * delta_trans)
  let strafe_hat_stddev := o.alpha1_ * (delta_rot * delta_rot) +
                           o.alpha5_ * (delta_trans * delta_trans)
  forEachSample (fun i sample =>
    let delta_bearing := angleDiff (atan2 ndata.delta.v1 ndata.delta.v0) old_pose.v2 +
                         sample.pose.v2
    let cs_bearing := Real.cos delta_bearing
    let sn_bearing := Real.sin delta_bearing
    let delta_trans_hat := delta_trans + draw (3 * i) trans_hat_stddev
    let delta_rot_hat := delta_rot + draw (3 * i + 1) rot_hat_stddev
    let delta_strafe_hat := 0 + draw (3 * i + 2) strafe_hat_stddev
    { sample with pose :=
      { v0 := sample.pose.v0 + (delta_trans_hat * cs_bearing + delta_strafe_hat * sn_bearing)
        v1 := sample.pose.v1 + (delta_trans_hat * sn_bearing - delta_strafe_hat * cs_bearing)
        v2 := sample.pose.v2 + delta_rot_hat } }) 0 samples

/-- Source: `case ODOM_MODEL_OMNI_CORRECTED` of `Odom::updateAction`. -/
noncomputable def updateActionOmniCorrected (o : Odom) (draw : Draw) (ndata : OdomData)
    (old_pose : PFVector) (samples : List PFSample) : List PFSample :=
  let delta_trans := Real.sqrt (ndata.delta.v0 * ndata.delta.v0 +
                                ndata.delta.v1 * ndata.delta.v1)
  let delta_rot := ndata.delta.v2
  let trans_hat_stddev := Real.sqrt (o.alpha3_ * (delta_trans * delta_trans) +
                                     o.alpha1_ * (delta_rot * delta_rot))
  let rot_hat_stddev := Real.sqrt (o.alpha4_ * (delta_rot * delta_rot) +
                                   o.alpha2_ * (delta_trans * delta_trans))
  let strafe_hat_stddev := Real.sqrt (o.alpha1_ * (delta_rot * delta_rot) +
                                      o.alpha5_ * (delta_trans * delta_trans))
  forEachSample (fun i sample =>
    let delta_bearing := angleDiff (atan2 ndata.delta.v1 ndata.delta.v0) old_pose.v2 +
                         sample.pose.v2
    let cs_bearing := Real.cos delta_bearing
    let sn_bearing := Real.sin delta_bearing
    let delta_trans_hat := delta_trans + draw (3 * i) trans_hat_stddev
    let delta_rot_hat := delta_rot + draw (3 * i + 1) rot_hat_stddev
    let delta_strafe_hat := 0 + draw (3 * i + 2) strafe_hat_stddev
    { sample with pose :=
      { v0 := sample.pose.v0 + (delta_trans_hat * cs_bearing + delta_strafe_hat * sn_bearing)
        v1 := sample.pose.v1 + (delta_trans_hat * sn_bearing - delta_strafe_hat * cs_bearing)
        v2 := sample.pose.v2 + delta_rot_hat } }) 0 samples

/-- The locals `delta_rot1`, `delta_trans`, `delta_rot2`, `delta_rot1_noise` and
`delta_rot2_noise` that the two diff cases compute before their sample loop. -/
structure DiffLocals where
  delta_rot1 : ℝ
  delta_trans : ℝ
  delta_rot2 : ℝ
  delta_rot1_noise : ℝ
  delta_rot2_noise : ℝ

/-- Source: the statements before the sample loop in `case ODOM_MODEL_DIFF` and in
`case ODOM_MODEL_DIFF_CORRECTED` of `Odom::updateAction` (the same text in both). -/
noncomputable def diffLocals (ndata : OdomData) (old_pose : PFVector) : DiffLocals :=
  let delta_rot1 :=
    if Real.sqrt (ndata.delta.v1 * ndata.delta.v1 + ndata.delta.v0 * ndata.delta.v0) < 0.01 then
      0
    else
      angleDiff (atan2 ndata.delta.v1 ndata.delta.v0) old_pose.v2
  let delta_trans := Real.sqrt (ndata.delta.v0 * ndata.delta.v0 +
                                ndata.delta.v1 * ndata.delta.v1)
  let delta_rot2 := angleDiff ndata.delta.v2 delta_rot1
  let delta_rot1_noise := min |angleDiff delta_rot1 0| |angleDiff delta_rot1 Real.pi|
  let delta_rot2_noise := min |angleDiff delta_rot2 0| |angleDiff delta_rot2 Real.pi|
  { delta_rot1 := delta_rot1, delta_trans := delta_trans, delta_rot2 := delta_rot2,
    delta_rot1_noise := delta_rot1_noise, delta_rot2_noise := delta_rot2_noise }

/-- The arguments of the three `PDFGaussian::draw` calls of `case ODOM_MODEL_DIFF`, in the
order of the calls (for `delta_rot1_hat`, `delta_trans_hat`, `delta_rot2_hat`). -/
def diffDrawArgs (o : Odom) (l : DiffLocals) : ℝ × ℝ × ℝ :=
  (o.alpha1_ * l.delta_rot1_noise * l.delta_rot1_noise +
     o.alpha2_ * l.delta_trans * l.delta_trans,
   o.alpha3_ * l.delta_trans * l.delta_trans +
     o.alpha4_ * l.delta_rot1_noise * l.delta_rot1_noise +
     o.alpha4_ * l.delta_rot2_noise * l.delta_rot2_noise,
   o.alpha1_ * l.delta_rot2_noise * l.delta_rot2_noise +
     o.alpha2_ * l.delta_trans * l.delta_trans)

/-- The arguments of the three `PDFGaussian::draw` calls of `case ODOM_MODEL_DIFF_CORRECTED`,
in the order of the calls. -/
noncomputable def diffCorrectedDrawArgs (o : Odom) (l : DiffLocals) : ℝ × ℝ × ℝ :=
  (Real.sqrt (o.alpha1_ * l.delta_rot1_noise * l.delta_rot1_noise +
     o.alpha2_ * l.delta_trans * l.delta_trans),
   Real.sqrt (o.alpha3_ * l.delta_trans * l.delta_trans +
     o.alpha4_ * l.delta_rot1_noise * l.delta_rot1_noise +
     o.alpha4_ * l.delta_rot2_noise * l.delta_rot2_noise),
   Real.sqrt (o.alpha1_ * l.delta_rot2_noise * l.delta_rot2_noise +
     o.alpha2_ * l.delta_trans * l.delta_trans))

/-- Source: `case ODOM_MODEL_DIFF` of `Odom::updateAction`. -/
noncomputable def updateActionDiff (o : Odom) (draw : Draw) (ndata : OdomData)
    (old_pose : PFVector) (samples : List PFSample) : List PFSample :=
  let l := diffLocals ndata old_pose
  forEachSample (fun i sample =>
    let delta_rot1_hat := angleDiff l.delta_rot1 (draw (3 * i) (diffDrawArgs o l).1)
    let delta_trans_hat := l.delta_trans - draw (3 * i + 1) (diffDrawArgs o l).2.1
    let delta_rot2_hat := angleDiff l.delta_rot2 (draw (3 * i + 2) (diffDrawArgs o l).2.2)
    { sample with pose :=
      { v0 := sample.pose.v0 + delta_trans_hat * Real.cos (sample.pose.v2 + delta_rot1_hat)
        v1 := sample.pose.v1 + delta_trans_hat * Real.sin (sample.pose.v2 + delta_rot1_hat)
        v2 := sample.pose.v2 + (delta_rot1_hat + delta_rot2_hat) } }) 0 samples

/-- Source: `case ODOM_MODEL_DIFF_CORRECTED` of `Odom::updateAction`. -/
noncomputable def updateActionDiffCorrected (o : Odom) (draw : Draw) (ndata : OdomData)
    (old_pose : PFVector) (samples : List PFSample) : List PFSample :=
  let l := diffLocals ndata old_pose
  forEachSample (fun i sample =>
    let delta_rot1_hat := angleDiff l.delta_rot1 (draw (3 * i) (diffCorrectedDrawArgs o l).1)
    let delta_trans_hat := l.delta_trans - draw (3 * i + 1) (diffCorrectedDrawArgs o l).2.1
    let delta_rot2_hat :=
      angleDiff l.delta_rot2 (draw (3 * i + 2) (diffCorrectedDrawArgs o l).2.2)
    { sample with pose :=
      { v0 := sample.pose.v0 + delta_trans_hat * Real.cos (sample.pose.v2 + delta_rot1_hat)
        v1 := sample.pose.v1 + delta_trans_hat * Real.sin (sample.pose.v2 + delta_rot1_hat)
        v2 := sample.pose.v2 + (delta_rot1_hat + delta_rot2_hat) } }) 0 samples

/-- The arguments `trans_hat_stddev`, `strafe_hat_stddev`, `rot_hat_stddev` of the three
`PDFGaussian::draw` calls of `case ODOM_MODEL_GAUSSIAN`, in the order of the calls. -/
noncomputable def gaussianDrawArgs (o : Odom) (ndata : OdomData) : ℝ × ℝ × ℝ :=
  let abs_delta_trans := ndata.absolute_motion.v0
  let abs_delta_strafe := ndata.absolute_motion.v1
  let abs_delta_rot := ndata.absolute_motion.v2
  let abs_delta_trans2 := abs_delta_trans * abs_delta_trans
  let abs_delta_strafe2 := abs_delta_strafe * abs_delta_strafe
  let abs_delta_rot2 := abs_delta_rot * abs_delta_rot
  let rot_hat_stddev := Real.sqrt (o.alpha1_ * abs_delta_rot2 + o.alpha2_ * abs_delta_trans2)
  let trans_hat_stddev := Real.sqrt (o.alpha3_ * abs_delta_trans2 + o.alpha4_ * abs_delta_rot2)
  let strafe_hat_stddev :=
    Real.sqrt (o.alpha4_ * abs_delta_rot2 + o.alpha5_ * abs_delta_strafe2)
  (trans_hat_stddev, strafe_hat_stddev, rot_hat_stddev)

/-- Source: `case ODOM_MODEL_GAUSSIAN` of `Odom::updateAction`.  The source adds to each pose
component twice (nominal motion, then noise); the two additions are kept apart here. -/
noncomputable def updateActionGaussian (o : Odom) (draw : Draw) (ndata : OdomData)
    (old_pose : PFVector) (samples : List PFSample) : List PFSample :=
  let delta_trans := Real.sqrt (ndata.delta.v0 * ndata.delta.v0 +
                                ndata.delta.v1 * ndata.delta.v1)
  let delta_rot := ndata.delta.v2
  forEachSample (fun i sample =>
    let heading := sample.pose.v2 + ndata.delta.v2 / 2
    let cs_heading := Real.cos heading
    let sn_heading := Real.sin heading
    let delta_bearing := angleDiff (atan2 ndata.delta.v1 ndata.delta.v0) old_pose.v2 +
                         sample.pose.v2
    let cs_bearing := Real.cos delta_bearing
    let sn_bearing := Real.sin delta_bearing
    let delta_trans_hat := draw (3 * i) (gaussianDrawArgs o ndata).1
    let delta_strafe_hat := draw (3 * i + 1) (gaussianDrawArgs o ndata).2.1
    let delta_rot_hat := draw (3 * i + 2) (gaussianDrawArgs o ndata).2.2
    { sample with pose :=
      { v0 := sample.pose.v0 + delta_trans * cs_bearing +
              (delta_trans_hat * cs_heading + delta_strafe_hat * sn_heading)
        v1 := sample.pose.v1 + delta_trans * sn_bearing +
              (delta_trans_hat * sn_heading - delta_strafe_hat * cs_heading)
        v2 := sample.pose.v2 + delta_rot + delta_rot_hat } }) 0 samples

/-- Source: `Odom::updateAction` (and `AMCLOdom::UpdateAction`, the same text): the current
sample set after the call.  The call always returns `true`. -/
noncomputable def updateAction (o : Odom) (draw : Draw) (set : PFSampleSet) (ndata : OdomData) :
    PFSampleSet :=
  let old_pose := pfVectorSub ndata.pose ndata.delta
  match o.model_type_ with
  | .ODOM_MODEL_OMNI =>
      { set with samples := updateActionOmni o draw ndata old_pose set.samples }
  | .ODOM_MODEL_DIFF =>
      { set with samples := updateActionDiff o draw ndata old_pose set.samples }
  | .ODOM_MODEL_OMNI_CORRECTED =>
      { set with samples := updateActionOmniCorrected o draw ndata old_pose set.samples }
  | .ODOM_MODEL_DIFF_CORRECTED =>
      { set with samples := updateActionDiffCorrected o draw ndata old_pose set.samples }
  | .ODOM_MODEL_GAUSSIAN =>
      { set with samples := updateActionGaussian o draw ndata old_pose set.samples }

/-! ## Scan step: point cloud subsampling (node/amcl_node_3d.cpp, `AmclNode::lidarReceived`) -/

/-- Source: `int step = (data_count - 1) / (max_beams - 1); step = std::max(step, 1);`
with the truncating division of C `int`s. -/
def lidarStep (data_count max_beams : Int) : Int :=
  max (Int.tdiv (data_count - 1) (max_beams - 1)) 1

/-- Source: `for(int i=0; i<data_count; i+=step)`: the indices visited from `i` on, at most
`fuel` of them. -/
def sampleLoop (data_count step : Int) : ℕ → Int → List Int
  | 0, _ => []
  | fuel + 1, i =>
    if i < data_count then i :: sampleLoop data_count step fuel (i + step) else []

/-- The indices `i` at which `lidarReceived` reads `point_cloud->at(i)`.  The step is at least
`1`, so `data_count + 1` rounds of the loop are enough to reach `i >= data_count`. -/
def sampledIndices (data_count max_beams : Int) : List Int :=
  sampleLoop data_count (lidarStep data_count max_beams) (data_count.toNat + 1) 0

/-- Source: the point cloud sampling of `lidarReceived`: `ldata.points` after the loop, or
`none` when `point_cloud->at(i)` is out of range. -/
def samplePointCloud {Point : Type} (point_cloud : List Point) (max_beams : Int) :
    Option (List Point) :=
  (sampledIndices point_cloud.length max_beams).mapM (fun i => point_cloud[i.toNat]?)

/-! ## Scan step: hypotheses, published pose and map->odom correction -/

/-- The planar part of a `tf::Transform` (tf is an external library): the upper left 2x2 block
of the basis, by rows, and the x and y of the origin. -/
structure Transform where
  xx : ℝ
  xy : ℝ
  yx : ℝ
  yy : ℝ
  ox : ℝ
  oy : ℝ

/-- `tf::Transform::operator*`: basis `m_basis * t.m_basis`, origin
`m_basis * t.m_origin + m_origin`. -/
def Transform.mul (a t : Transform) : Transform :=
  { xx := a.xx * t.xx + a.xy * t.yx
    xy := a.xx * t.xy + a.xy * t.yy
    yx := a.yx * t.xx + a.yy * t.yx
    yy := a.yx * t.xy + a.yy * t.yy
    ox := a.xx * t.ox + a.xy * t.oy + a.ox
    oy := a.yx * t.ox + a.yy * t.oy + a.oy }

/-- `tf::Transform::inverse`: `inv = m_basis.transpose()`, origin `inv * -m_origin`. -/
def Transform.inverse (a : Transform) : Transform :=
  { xx := a.xx
    xy := a.yx
    yx := a.xy
    yy := a.yy
    ox := a.xx * (-a.ox) + a.yx * (-a.oy)
    oy := a.xy * (-a.ox) + a.yy * (-a.oy) }

/-- Source: `tf::Transform tmp_tf(tf::createQuaternionFromYaw(mean.v[2]),
tf::Vector3(mean.v[0], mean.v[1], 0.0))`, a rotation by the yaw about z and a translation. -/
noncomputable def poseToTransform (p : PFVector) : Transform :=
  { xx := Real.cos p.v2
    xy := -Real.sin p.v2
    yx := Real.sin p.v2
    yy := Real.cos p.v2
    ox := p.v0
    oy := p.v1 }

/-- Source: lines 529-545 of `lidarReceived`: `tmp_tf.inverse()` stamped in the base frame and
carried into the odom frame by `transformPose`, that is multiplied on the left by the
transform `base_to_odom` that tf holds for the scan stamp (the pose of the base in the odom
frame). -/
noncomputable def odomToMap (pf_pose_mean : PFVector) (base_to_odom : Transform) : Transform :=
  base_to_odom.mul (poseToTransform pf_pose_mean).inverse

/-- Source: `Node::publishTransform`: the transform sent on tf, if one is sent. -/
def publishTransform (tf_broadcast_ latest_tf_valid_ tf_reverse_ : Bool)
    (latest_tf_ : Transform) : Option Transform :=
  if tf_broadcast_ && latest_tf_valid_ then
    if tf_reverse_ then some latest_tf_ else some latest_tf_.inverse
  else none

/-- Modelled from the spec: `get_cluster_stats` of the particle filter (pf/pf.cpp) hands out
the weight, mean and covariance of cluster `clabel` of the current set, and fails when the set
has no such cluster. -/
def get_cluster_stats (set : PFSampleSet) (clabel : ℕ) : Option PFCluster :=
  set.clusters[clabel]?

/-- Source: `amcl_hyp_t`. -/
structure AmclHyp where
  weight : ℝ
  pf_pose_mean : PFVector
  pf_pose_cov : PFMatrix

/-- The locals of the hypothesis loop of `lidarReceived`; `hyps` holds the entries written so
far, in index order. -/
structure HypScan where
  max_weight : ℝ
  max_weight_hyp : Int
  hyps : List AmclHyp

/-- Source: the loop `for(int hyp_count = 0; hyp_count < cluster_count; hyp_count++)` of
`lidarReceived`, run over the given values of `hyp_count`; a failing `get_cluster_stats`
leaves the loop. -/
noncomputable def hypLoop (set : PFSampleSet) : List ℕ → HypScan → HypScan
  | [], acc => acc
  | hyp_count :: rest, acc =>
    match get_cluster_stats set hyp_count with
    | none => acc
    | some c =>
      let hyp : AmclHyp := { weight := c.weight, pf_pose_mean := c.mean, pf_pose_cov := c.cov }
      if hyp.weight > acc.max_weight then
        hypLoop set rest
          { max_weight := hyp.weight, max_weight_hyp := hyp_count, hyps := acc.hyps ++ [hyp] }
      else
        hypLoop set rest { acc with hyps := acc.hyps ++ [hyp] }

/-- Source: "Read out the current hypotheses" of `lidarReceived`, starting from
`max_weight = 0.0` and `max_weight_hyp = -1`. -/
noncomputable def readHypotheses (set : PFSampleSet) : HypScan :=
  hypLoop set (List.range set.clusters.length) { max_weight := 0, max_weight_hyp := -1, hyps := [] }

/-- The fields of the `geometry_msgs::PoseWithCovarianceStamped` that `lidarReceived` fills:
position, the yaw handed to `createQuaternionFromYaw` for the orientation, and the 36 entries
of the covariance. -/
structure PoseMsg where
  position_x : ℝ
  position_y : ℝ
  yaw : ℝ
  covariance : Fin 36 → ℝ

/-- Source: "Copy in the covariance, converting from 3-D to 6-D": the loops over `i, j < 2`
writing `covariance[6*i+j] = set->cov.m[i][j]` and the assignment
`covariance[6*5+5] = set->cov.m[2][2]`, on the zeros of a fresh message. -/
def poseCovariance (cov : PFMatrix) : Fin 36 → ℝ :=
  let c : Fin 36 → ℝ := fun _ => 0
  let c := Function.update c (6 * 0 + 0) (cov.m 0 0)
  let c := Function.update c (6 * 0 + 1) (cov.m 0 1)
  let c := Function.update c (6 * 1 + 0) (cov.m 1 0)
  let c := Function.update c (6 * 1 + 1) (cov.m 1 1)
  Function.update c (6 * 5 + 5) (cov.m 2 2)

/-- The members of the node that the publication part of `lidarReceived` writes. -/
structure PublishState where
  latest_tf_ : Transform
  latest_tf_valid_ : Bool
  last_published_pose : Option PoseMsg

/-- Source: lines 464-569 of `lidarReceived`, from `if(resampled || force_publication)` to the
end of its `if(max_weight > 0.0) ... else` (the pose saving of the last branch does not touch
the state modelled here).  `base_to_odom` is the transform that `transformPose` finds for the
scan stamp, `none` when it throws.  Returns the new state and the pose given to `pose_pub_`,
if any. -/
noncomputable def publishStep (st : PublishState) (set : PFSampleSet)
    (resampled force_publication : Bool) (base_to_odom : Option Transform) :
    PublishState × Option PoseMsg :=
  if resampled || force_publication then
    let scan := readHypotheses set
    if scan.max_weight > 0 then
      match scan.hyps[scan.max_weight_hyp.toNat]? with
      | none => (st, none)
      | some hyp =>
        let p : PoseMsg :=
          { position_x := hyp.pf_pose_mean.v0
            position_y := hyp.pf_pose_mean.v1
            yaw := hyp.pf_pose_mean.v2
            covariance := poseCovariance set.cov }
        match base_to_odom with
        | none => ({ st with last_published_pose := some p }, some p)
        | some tr =>
          ({ latest_tf_ := odomToMap hyp.pf_pose_mean tr
             latest_tf_valid_ := true
             last_published_pose := some p }, some p)
    else (st, none)
  else (st, none)

/-! ## The node: members, scan step and services (node/node.cpp, node/amcl_node_3d.cpp) -/

/-- A `pcl::PointXYZ`. -/
structure PointXYZ where
  x : ℝ
  y : ℝ
  z : ℝ

/-- Modelled from the spec: a default-constructed `PFVector` (pf/pf_vector.h), as assigned by
`resetOdomIntegrator`, is the zero vector ("zeroes the accumulator"). -/
def PFVector.zero : PFVector := { v0 := 0, v1 := 0, v2 := 0 }

/-- The members of the particle filter that the node reads and writes: the decay rates, the
convergence flag and the current sample set `sets[current_set]`. -/
structure ParticleFilter where
  alpha_slow : ℝ
  alpha_fast : ℝ
  converged : Bool
  set : PFSampleSet

/-- Modelled from the spec: `ParticleFilter::setDecayRates(alpha_slow, alpha_fast)` (pf/pf.cpp)
"sets recovery constants". -/
def ParticleFilter.setDecayRates (pf : ParticleFilter) (alpha_slow alpha_fast : ℝ) :
    ParticleFilter :=
  { pf with alpha_slow := alpha_slow, alpha_fast := alpha_fast }

/-- Operations whose bodies are outside the sources at hand (pf/pf.cpp and the lidar sensor
model); they are parameters of the node model: `update_resample`, the sensor update
`UpdateSensor(pf, ldata)` on the sampled points, `init(mean, cov)` and `initModel` with the
uniform pose generator. -/
structure External where
  update_resample : ParticleFilter → ParticleFilter
  UpdateSensor : ParticleFilter → List PointXYZ → ParticleFilter
  init : ParticleFilter → PFVector → PFMatrix → ParticleFilter
  initModel : ParticleFilter → ParticleFilter

/-- The members of the node used by the scan step and the services.  `map_` tells whether the
map pointer is non-null; `frame_to_lidar_` lists the frame ids in the order of their
registration, the index stored by the source for a frame being its position in the list;
`pub` holds `latest_tf_`, `latest_tf_valid_` and the last published pose.  The defaults are
those of the constructor. -/
structure Node where
  d_thresh_ : ℝ := 0.2
  a_thresh_ : ℝ := Real.pi / 6
  resample_interval_ : Int := 2
  odom_integrator_topic_ : String := ""
  alpha_slow_ : ℝ := 0.001
  alpha_fast_ : ℝ := 0.1
  global_localization_alpha_slow_ : ℝ := 0.001
  global_localization_alpha_fast_ : ℝ := 0.1
  max_beams_ : Int := 256
  global_frame_id_ : String := "map"
  global_alt_frame_id_ : String := ""
  odom_ : Odom := ⟨.ODOM_MODEL_DIFF, 0.2, 0.2, 0.2, 0.2, 0.2⟩
  map_ : Bool := false
  pf_ : ParticleFilter := ⟨0.001, 0.1, false, ⟨[], [], ⟨fun _ _ => 0⟩⟩⟩
  pf_init_ : Bool := false
  pf_odom_pose_ : PFVector := PFVector.zero
  frame_to_lidar_ : List String := []
  lidars_update_ : List Bool := []
  resample_count_ : Int := 0
  m_force_update : Bool := false
  global_localization_active_ : Bool := false
  odom_integrator_ready_ : Bool := false
  odom_integrator_absolute_motion_ : PFVector := PFVector.zero
  odom_integrator_last_pose_ : PFVector := PFVector.zero
  initial_pose_hyp_ : Option AmclHyp := none
  pub : PublishState :=
    { latest_tf_ := ⟨1, 0, 0, 1, 0, 0⟩, latest_tf_valid_ := false, last_published_pose := none }

/-- What one call of `lidarReceived` gets from outside the node: the frame id of the scan,
whether `transformPose` into the base frame succeeds (asked for a new scanner only), the
odometry pose found by `getOdomPose` (`none` when the lookup fails), the point cloud, the
random draws of the motion model and the base-to-odom transform used for the published
correction (`none` when `transformPose` throws). -/
structure ScanInput where
  frame_id : String
  lidar_pose_ok : Bool
  odom_pose : Option PFVector
  point_cloud : List PointXYZ
  draw : Draw
  base_to_odom : Option Transform

/-- What a call of `lidarReceived` did: whether it returned before the update decision, the
value of the local `update`, whether `UpdateAction` and `UpdateSensor` were called, the locals
`resampled` and `force_publication`, and the pose given to `pose_pub_`. -/
structure ScanReport where
  dropped : Bool
  update : Bool
  action_update : Bool
  sensor_update : Bool
  resampled : Bool
  force_publication : Bool
  published : Option PoseMsg

/-- The report of a call that returned early. -/
def ScanReport.drop : ScanReport :=
  { dropped := true, update := false, action_update := false, sensor_update := false,
    resampled := false, force_publication := false, published := none }

/-- Source: lines 257-269 of `lidarReceived`: `if(!global_localization_active_)` the decay
rates of the filter are set to `alpha_slow_`, `alpha_fast_` (the map factors of the lidar
models, set in the same branch, are not modelled). -/
def resetDecayRates (st : Node) : Node :=
  if !st.global_localization_active_ then
    { st with pf_ := { st.pf_ with alpha_slow := st.alpha_slow_, alpha_fast := st.alpha_fast_ } }
  else st

/-- Source: lines 271-311 of `lidarReceived`: the index of the scanner of this frame.  For an
unknown frame a flag `true` is pushed on `lidars_update_`, the index is
`frame_to_lidar_.size()`, and the frame is registered only if `transformPose` succeeds;
otherwise the call returns (`none`). -/
def lookupLidar (st : Node) (frame_id : String) (lidar_pose_ok : Bool) : Node × Option ℕ :=
  if frame_id ∈ st.frame_to_lidar_ then
    (st, some (st.frame_to_lidar_.indexOf frame_id))
  else
    let st := { st with lidars_update_ := st.lidars_update_ ++ [true] }
    let lidar_index := st.frame_to_lidar_.length
    if lidar_pose_ok then
      ({ st with frame_to_lidar_ := st.frame_to_lidar_ ++ [frame_id] }, some lidar_index)
    else (st, none)

/-- Source: lines 325-328 of `lidarReceived`, "Compute change in pose". -/
noncomputable def poseDelta (pose pf_odom_pose_ : PFVector) : PFVector :=
  { v0 := pose.v0 - pf_odom_pose_.v0
    v1 := pose.v1 - pf_odom_pose_.v1
    v2 := angleDiff pose.v2 pf_odom_pose_.v2 }

/-- Source: lines 330-342 of `lidarReceived`, "See if we should update the filter": the value
of the local `update` after `update = update || m_force_update`. -/
noncomputable def updateDecision (st : Node) (delta : PFVector) : Bool :=
  let update : Bool :=
    if st.odom_integrator_topic_.length ≠ 0 then
      let abs_trans := Real.sqrt
        (st.odom_integrator_absolute_motion_.v0 * st.odom_integrator_absolute_motion_.v0 +
         st.odom_integrator_absolute_motion_.v1 * st.odom_integrator_absolute_motion_.v1)
      let abs_rot := st.odom_integrator_absolute_motion_.v2
      decide (abs_trans ≥ st.d_thresh_) || decide (abs_rot ≥ st.a_thresh_)
    else
      decide (|delta.v0| > st.d_thresh_) || decide (|delta.v1| > st.d_thresh_) ||
        decide (|delta.v2| > st.a_thresh_)
  update || st.m_force_update

/-- Source: lines 322-351 of `lidarReceived`, the block `if(pf_init_)`: the update decision,
the reset of `m_force_update` and the setting of every scanner flag when `update` holds.
Returns the new state, `delta` and `update`. -/
noncomputable def decideUpdate (st : Node) (pose : PFVector) : Node × PFVector × Bool :=
  if st.pf_init_ then
    let delta := poseDelta pose st.pf_odom_pose_
    let update := updateDecision st delta
    let st := { st with m_force_update := false }
    if update then
      ({ st with lidars_update_ := st.lidars_update_.map (fun _ => true) }, delta, update)
    else (st, delta, update)
  else (st, PFVector.zero, false)

/-- Source: lines 353-394 of `lidarReceived`: the first scan after (re)initialisation, or the
motion update when the flag of the scanner is set.  Returns the new state,
`force_publication` and whether `UpdateAction` was called. -/
noncomputable def motionUpdate (st : Node) (pose delta : PFVector) (lidar_index : ℕ)
    (draw : Draw) : Node × Bool × Bool :=
  if !st.pf_init_ then
    ({ st with
        pf_odom_pose_ := pose
        pf_init_ := true
        lidars_update_ := st.lidars_update_.map (fun _ => true)
        resample_count_ := 0
        odom_integrator_ready_ := false }, true, false)
  else if st.pf_init_ && st.lidars_update_.getD lidar_index false then
    let odata : OdomData :=
      { pose := pose, delta := delta, absolute_motion := st.odom_integrator_absolute_motion_ }
    ({ st with
        pf_ := { st.pf_ with set := updateAction st.odom_ draw st.pf_.set odata }
        odom_integrator_absolute_motion_ := PFVector.zero }, false, true)
  else (st, false, false)

/-- Source: lines 396-437 of `lidarReceived`, the block `if(lidars_update_[lidar_index])`
without the publication of the particle cloud: the sensor update on the sampled points, the
clearing of the flag, `pf_odom_pose_ = pose` and the resampling every `resample_interval_`
updates.  Returns the new state, whether `UpdateSensor` was called, and `resampled`.  The
counter is a C `int`; its overflow is outside the model. -/
def sensorUpdate (ext : External) (st : Node) (pose : PFVector) (lidar_index : ℕ)
    (point_cloud : List PointXYZ) : Node × Bool × Bool :=
  if st.lidars_update_.getD lidar_index false then
    match samplePointCloud point_cloud st.max_beams_ with
    | none => (st, false, false)
    | some points =>
      let st := { st with
        pf_ := ext.UpdateSensor st.pf_ points
        lidars_update_ := st.lidars_update_.set lidar_index false
        pf_odom_pose_ := pose
        resample_count_ := st.resample_count_ + 1 }
      if Int.tmod st.resample_count_ st.resample_interval_ = 0 then
        let st := { st with pf_ := ext.update_resample st.pf_ }
        if st.pf_.converged && st.global_localization_active_ then
          ({ st with global_localization_active_ := false }, true, true)
        else (st, true, true)
      else (st, true, false)
  else (st, false, false)

/-- Source: lines 322-569 of `lidarReceived`, the part after the scanner index and the odometry
pose of the scan are known: update decision, motion update, sensor update with resampling, and
publication. -/
noncomputable def scanUpdate (ext : External) (st : Node) (sc : ScanInput) (lidar_index : ℕ)
    (pose : PFVector) : Node × ScanReport :=
  let (st, delta, update) := decideUpdate st pose
  let (st, force_publication, action_update) :=
    motionUpdate st pose delta lidar_index sc.draw
  let (st, sensor_update, resampled) :=
    sensorUpdate ext st pose lidar_index sc.point_cloud
  let (pub, published) :=
    publishStep st.pub st.pf_.set resampled force_publication sc.base_to_odom
  ({ st with pub := pub },
    { dropped := false, update := update, action_update := action_update,
      sensor_update := sensor_update, resampled := resampled,
      force_publication := force_publication, published := published })

/-- Source: `AmclNode::lidarReceived`. -/
noncomputable def lidarReceived (ext : External) (st : Node) (sc : ScanInput) :
    Node × ScanReport :=
  if !st.map_ then (st, ScanReport.drop)
  else
    let st := resetDecayRates st
    match lookupLidar st sc.frame_id sc.lidar_pose_ok with
    | (st, none) => (st, ScanReport.drop)
    | (st, some lidar_index) =>
      match sc.odom_pose with
      | none => (st, ScanReport.drop)
      | some pose => scanUpdate ext st sc lidar_index pose

/-- Source: `Node::globalLocalizationCallback`. -/
def globalLocalizationCallback (ext : External) (st : Node) : Node :=
  if !st.map_ then st
  else
    { st with
      global_localization_active_ := true
      pf_ := ext.initModel (st.pf_.setDecayRates st.global_localization_alpha_slow_
        st.global_localization_alpha_fast_)
      pf_init_ := false }

/-! ## Initial pose messages (node/node.cpp) -/

/-- A `double` that may be NaN: `none` stands for NaN. -/
abbrev Dbl := Option ℝ

/-- `std::isnan`. -/
def isnan (x : Dbl) : Bool := x.isNone

/-- The fields of a received `geometry_msgs::PoseWithCovarianceStamped` that
`handleInitialPoseMessage` reads. -/
structure InitialPoseMsg where
  frame_id : String
  position_x : Dbl
  position_y : Dbl
  position_z : Dbl
  orientation_x : Dbl
  orientation_y : Dbl
  orientation_z : Dbl
  orientation_w : Dbl
  covariance : Fin 36 → Dbl

/-- Functions of the tf library used by `handleInitialPoseMessage` (an external library; they
are parameters of the model): `resolve` of a frame name, `poseMsgToTF` from a position and a
quaternion, and `getYaw`. -/
structure TfLib where
  resolve : String → String
  poseMsgToTF : ℝ × ℝ × ℝ → ℝ × ℝ × ℝ × ℝ → Transform
  getYaw : Transform → ℝ

/-- The covariance indices `INDEX_XX_`, `INDEX_YY_`, `INDEX_AA_` used by node.cpp; their
declaration is not in the sources at hand, the values are those of `COVARIANCE_XX`,
`COVARIANCE_YY`, `COVARIANCE_AA` of node.h. -/
def INDEX_XX_ : Fin 36 := 6 * 0 + 0

def INDEX_YY_ : Fin 36 := 6 * 1 + 1

def INDEX_AA_ : Fin 36 := 6 * 5 + 5

/-- Source: `default_cov_vals` of `handleInitialPoseMessage`. -/
noncomputable def default_cov_vals : Fin 36 → ℝ :=
  let c : Fin 36 → ℝ := fun _ => 0
  let c := Function.update c INDEX_XX_ (0.5 * 0.5)
  let c := Function.update c INDEX_YY_ (0.5 * 0.5)
  Function.update c INDEX_AA_ ((Real.pi / 12) * (Real.pi / 12))

/-- Source: `Node::applyInitialPose`. -/
def applyInitialPose (ext : External) (st : Node) : Node :=
  match st.initial_pose_hyp_ with
  | none => st
  | some hyp =>
    if st.map_ then
      { st with
        pf_ := ext.init st.pf_ hyp.pf_pose_mean hyp.pf_pose_cov
        pf_init_ := false
        initial_pose_hyp_ := none }
    else st

/-- Source: lines 983-999 of `handleInitialPoseMessage`: the frame id after the rewrite of the
alt-global frame, and whether the message passes the frame test. -/
def initialPoseFrameAccepted (tf : TfLib) (st : Node) (frame_id : String) : Bool :=
  let frame_id :=
    if tf.resolve frame_id = tf.resolve st.global_alt_frame_id_ then st.global_frame_id_
    else frame_id
  if frame_id = "" then true
  else if tf.resolve frame_id ≠ tf.resolve st.global_frame_id_ then false
  else true

/-- Source: lines 1016-1027 of `handleInitialPoseMessage`: the covariance of the message with
every NaN entry replaced by the entry of `default_cov_vals`. -/
noncomputable def initialPoseCovariance (msg : InitialPoseMsg) : Fin 36 → ℝ :=
  fun i => (msg.covariance i).getD (default_cov_vals i)

/-- Source: lines 1029-1069 of `handleInitialPoseMessage`: `pf_init_pose_mean`.  `tx_odom` is
the transform found by `lookupTransform`, `none` when it throws (the identity is used then).
The position and the orientation are read after the NaN tests. -/
noncomputable def initialPoseMean (tf : TfLib) (msg : InitialPoseMsg)
    (tx_odom : Option Transform) : PFVector :=
  let tx_odom : Transform := tx_odom.getD ⟨1, 0, 0, 1, 0, 0⟩
  let pose_old := tf.poseMsgToTF
    (msg.position_x.getD 0, msg.position_y.getD 0, msg.position_z.getD 0)
    (msg.orientation_x.getD 0, msg.orientation_y.getD 0, msg.orientation_z.getD 0,
      msg.orientation_w.getD 0)
  let pose_new := pose_old.mul tx_odom
  { v0 := pose_new.ox, v1 := pose_new.oy, v2 := tf.getYaw pose_new }

/-- Source: lines 1070-1079 of `handleInitialPoseMessage`: `pf_init_pose_cov`, "converting
from 6-D to 3-D".  The entries of the 3x3 covariance that the source does not write are taken
to be `0`. -/
noncomputable def initialPoseCov (msg : InitialPoseMsg) : PFMatrix :=
  { m := fun i j =>
      if i.val < 2 ∧ j.val < 2 then initialPoseCovariance msg ⟨6 * i.val + j.val, by omega⟩
      else if i.val = 2 ∧ j.val = 2 then initialPoseCovariance msg (6 * 5 + 5)
      else 0 }

/-- Source: `Node::handleInitialPoseMessage`. -/
noncomputable def handleInitialPoseMessage (ext : External) (tf : TfLib) (st : Node)
    (msg : InitialPoseMsg) (tx_odom : Option Transform) : Node :=
  if !initialPoseFrameAccepted tf st msg.frame_id then st
  else if isnan msg.position_x || isnan msg.position_y || isnan msg.position_z then st
  else if isnan msg.orientation_x || isnan msg.orientation_y || isnan msg.orientation_z ||
      isnan msg.orientation_w then st
  else
    let hyp : AmclHyp :=
      { weight := 0, pf_pose_mean := initialPoseMean tf msg tx_odom,
        pf_pose_cov := initialPoseCov msg }
    let st := { st with initial_pose_hyp_ := some hyp }
    let st := applyInitialPose ext st
    { st with global_localization_active_ := false }

/-! ## Initial pose at start-up (node/node.cpp, `Node::loadPose`) -/

/-- The members `init_pose_[3]` and `init_cov_[3]`. -/
structure InitPose where
  init_pose_0 : Dbl
  init_pose_1 : Dbl
  init_pose_2 : Dbl
  init_cov_0 : Dbl
  init_cov_1 : Dbl
  init_cov_2 : Dbl

/-- The six parameters read by `loadPoseFromServer`: `none` when `getParam` fails, otherwise
the value, which may be NaN. -/
structure ServerParams where
  initial_pose_x : Option Dbl
  initial_pose_y : Option Dbl
  initial_pose_a : Option Dbl
  initial_cov_xx : Option Dbl
  initial_cov_yy : Option Dbl
  initial_cov_aa : Option Dbl

/-- The values read from the saved-pose file by `loadPoseFromFile`. -/
structure SavedPose where
  x : Dbl
  y : Dbl
  z : Dbl
  w : Dbl
  xx : Dbl
  yy : Dbl
  aa : Dbl

/-- One `getParam` of `loadPoseFromServer` with its test
`(not success) or std::isnan(tmp_pos)`: the value to store, or `none` for `return false`. -/
def getParamChecked (param : Option Dbl) : Option Dbl :=
  match param with
  | none => none
  | some tmp_pos => if isnan tmp_pos then none else some tmp_pos

/-- Source: `Node::loadPoseFromServer`: the members after the call and the returned flag.
Each value is stored as soon as it is read. -/
def loadPoseFromServer (st : InitPose) (srv : ServerParams) : InitPose × Bool :=
  match getParamChecked srv.initial_pose_x with
  | none => (st, false)
  | some tmp_pos =>
    let st := { st with init_pose_0 := tmp_pos }
    match getParamChecked srv.initial_pose_y with
    | none => (st, false)
    | some tmp_pos =>
      let st := { st with init_pose_1 := tmp_pos }
      match getParamChecked srv.initial_pose_a with
      | none => (st, false)
      | some tmp_pos =>
        let st := { st with init_pose_2 := tmp_pos }
        match getParamChecked srv.initial_cov_xx with
        | none => (st, false)
        | some tmp_pos =>
          let st := { st with init_cov_0 := tmp_pos }
          match getParamChecked srv.initial_cov_yy with
          | none => (st, false)
          | some tmp_pos =>
            let st := { st with init_cov_1 := tmp_pos }
            match getParamChecked srv.initial_cov_aa with
            | none => (st, false)
            | some tmp_pos => ({ st with init_cov_2 := tmp_pos }, true)

/-- Source: `Node::loadPoseFromFile`.  `file` is `none` when the `try` block throws;
`quaternionYaw z w` is the yaw that tf's `getRPY` gives for the quaternion `(0, 0, z, w)`
(an external library, a parameter of the model). -/
def loadPoseFromFile (quaternionYaw : Dbl → Dbl → Dbl) (st : InitPose)
    (file : Option SavedPose) : InitPose × Bool :=
  match file with
  | none => (st, false)
  | some f =>
    let yaw := quaternionYaw f.z f.w
    if isnan f.x || isnan f.y || isnan yaw || isnan f.xx || isnan f.yy || isnan f.aa then
      (st, false)
    else
      ({ init_pose_0 := f.x, init_pose_1 := f.y, init_pose_2 := yaw,
         init_cov_0 := f.xx, init_cov_1 := f.yy, init_cov_2 := f.aa }, true)

/-- Source: `Node::loadPose`. -/
noncomputable def loadPose (quaternionYaw : Dbl → Dbl → Dbl) (st : InitPose)
    (srv : ServerParams) (file : Option SavedPose) : InitPose :=
  let (st, ok) := loadPoseFromServer st srv
  if ok then st
  else
    let (st, ok) := loadPoseFromFile quaternionYaw st file
    if ok then st
    else
      { init_pose_0 := some 0, init_pose_1 := some 0, init_pose_2 := some 0,
        init_cov_0 := some (0.5 * 0.5), init_cov_1 := some (0.5 * 0.5),
        init_cov_2 := some ((Real.pi / 12) * (Real.pi / 12)) }

/-! ## Configuration (node/node.cpp, constructor and `reconfigureCB`) -/

/-- Source: lines 99-116 of the constructor: `odom_model_type_` from the parameter
`odom_model_type` (default `"diff"`). -/
def constructorOdomModelType (param : Option String) : OdomModelType :=
  let tmp_model_type := param.getD "diff"
  if tmp_model_type = "diff" then .ODOM_MODEL_DIFF
  else if tmp_model_type = "omni" then .ODOM_MODEL_OMNI
  else if tmp_model_type = "diff-corrected" then .ODOM_MODEL_DIFF_CORRECTED
  else if tmp_model_type = "omni-corrected" then .ODOM_MODEL_OMNI_CORRECTED
  else if tmp_model_type = "gaussian" then .ODOM_MODEL_GAUSSIAN
  else .ODOM_MODEL_DIFF

/-- Source: lines 250-259 of `reconfigureCB` (reached on every call but the first):
`odom_model_type_` after the `if ... else if` chain.  The last `else if` ends in `;`, an empty
statement, so the assignment of `ODOM_MODEL_GAUSSIAN` that follows it is not part of the chain
and runs in every case. -/
def reconfigureOdomModelType (odom_model_type_ : OdomModelType) (config_odom_model_type : String) :
    OdomModelType :=
  let odom_model_type_ :=
    if config_odom_model_type = "diff" then OdomModelType.ODOM_MODEL_DIFF
    else if config_odom_model_type = "omni" then .ODOM_MODEL_OMNI
    else if config_odom_model_type = "diff-corrected" then .ODOM_MODEL_DIFF_CORRECTED
    else if config_odom_model_type = "omni-corrected" then .ODOM_MODEL_OMNI_CORRECTED
    else if config_odom_model_type = "gaussian" then odom_model_type_
    else odom_model_type_
  let _unused := odom_model_type_
  .ODOM_MODEL_GAUSSIAN

/-- Source: lines 78-79 of the constructor: `(min_particles_, max_particles_)` as read from
the parameters, with the defaults 100 and 5000. -/
def constructorParticleLimits (min_particles max_particles : Option Int) : Int × Int :=
  (min_particles.getD 100, max_particles.getD 5000)

/-- Source: lines 261-268 of `reconfigureCB`: `(min_particles_, max_particles_)` from the
configuration. -/
def reconfigureParticleLimits (config_min_particles config_max_particles : Int) : Int × Int :=
  let config_max_particles :=
    if config_min_particles > config_max_particles then config_min_particles
    else config_max_particles
  (config_min_particles, config_max_particles)

/-- Source: the creation of the filter in `Node::initFromNewMap`,
`new ParticleFilter(min_particles_, max_particles_, ...)`: the limits the filter is created
with are the stored ones. -/
def initFromNewMapLimits (limits : Int × Int) : Int × Int := (limits.1, limits.2)

/-! ## Eigen decomposition (pf/eig3.cpp) -/

abbrev Vec3 := Fin 3 → ℝ

abbrev Mat3 := Fin 3 → Fin 3 → ℝ

/-- Source: `EIG3::eigenDecomposition(std::vector<std::vector<double>> A,
std::vector<std::vector<double>> V, std::vector<double> d)`.  The three parameters are passed
by value, and so are those of `tred2` and `tql2` (`tred2 V d e` and `tql2 V d e` stand for what
these calls make of their own copies).  The function returns nothing; the result here is the
caller's `V` and `d` after the call. -/
def eigenDecomposition (tred2 tql2 : Mat3 → Vec3 → Vec3 → Mat3 × Vec3 × Vec3)
    (A V : Mat3) (d : Vec3) : Mat3 × Vec3 :=
  let e : Vec3 := fun _ => 0
  let V_copy : Mat3 := fun i j => A i j
  let d_copy : Vec3 := d
  let _tred2_copies := tred2 V_copy d_copy e
  let _tql2_copies := tql2 V_copy d_copy e
  (V, d)

/-! ## Specification helpers and scenario inputs -/

/-- The hypothesis entry written for a cluster. -/
def toHyp (c : PFCluster) : AmclHyp :=
  { weight := c.weight, pf_pose_mean := c.mean, pf_pose_cov := c.cov }

/-- The message built from the chosen cluster and the covariance of the set. -/
def poseMsgOf (c : PFCluster) (set : PFSampleSet) : PoseMsg :=
  { position_x := c.mean.v0
    position_y := c.mean.v1
    yaw := c.mean.v2
    covariance := poseCovariance set.cov }

/-- Scenario "pure forward translation": 100 samples at `(0, 0, 0)`. -/
noncomputable def forwardSet : PFSampleSet :=
  { samples := List.replicate 100 ⟨⟨0, 0, 0⟩, 1 / 100⟩, clusters := [], cov := ⟨fun _ _ => 0⟩ }

/-- Scenario "pure forward translation": odometry pose `(1, 0, 0)` reached by the delta
`(1, 0, 0)`. -/
def forwardData : OdomData :=
  { pose := ⟨1, 0, 0⟩, delta := ⟨1, 0, 0⟩, absolute_motion := ⟨0, 0, 0⟩ }

/-- Scenario "turn in place": one sample with yaw `3`. -/
def turnSet : PFSampleSet :=
  { samples := [⟨⟨0, 0, 3⟩, 1⟩], clusters := [], cov := ⟨fun _ _ => 0⟩ }

/-- Scenario "turn in place": the odometry turned by `1` rad without translation. -/
def turnData : OdomData :=
  { pose := ⟨0, 0, 1⟩, delta := ⟨0, 0, 1⟩, absolute_motion := ⟨0, 0, 0⟩ }

/-- Scenario "turn in place" run without noise in the model `m`. -/
noncomputable def turnResult (m : OdomModelType) : PFSampleSet :=
  updateAction ⟨m, 0, 0, 0, 0, 0⟩ (fun _ _ => 0) turnSet turnData

/-- Scenario "in-place rotation tolerance": one sample at the origin. -/
def originSet : PFSampleSet :=
  { samples := [⟨⟨0, 0, 0⟩, 1⟩], clusters := [], cov := ⟨fun _ _ => 0⟩ }

/-- Scenario "in-place rotation tolerance": a translation of norm `0.005` (`(0.003, 0.004)`)
with a yaw change of `1.0`. -/
noncomputable def smallData : OdomData :=
  { pose := ⟨0.003, 0.004, 1.0⟩, delta := ⟨0.003, 0.004, 1.0⟩, absolute_motion := ⟨0, 0, 0⟩ }

/-- Scenario "map->odom math": one cluster of weight `1` with mean `(1, 2, pi / 2)`. -/
noncomputable def mathSet : PFSampleSet :=
  { samples := []
    clusters := [{ weight := 1, mean := ⟨1, 2, Real.pi / 2⟩, cov := ⟨fun _ _ => 0⟩ }]
    cov := ⟨fun _ _ => 0⟩ }

/-- A node state with no transform stored yet. -/
def noTfState : PublishState :=
  { latest_tf_ := ⟨1, 0, 0, 1, 0, 0⟩, latest_tf_valid_ := false, last_published_pose := none }

/-- External operations used in the scenarios: a resampling that reports convergence, a sensor
update that leaves the filter as it is, and an `init` that puts one sample at the mean. -/
def plainExternal : External :=
  { update_resample := fun pf => { pf with converged := true }
    UpdateSensor := fun pf _ => pf
    init := fun pf mean _ =>
      { pf with converged := false, set := { pf.set with samples := [⟨mean, 1⟩] } }
    initModel := fun pf => pf }

/-- Scenario "correlated x and y": one cluster of weight `1` and a set covariance with
`cov(x, y) = 0.5`. -/
noncomputable def corrSet : PFSampleSet :=
  { samples := []
    clusters := [{ weight := 1, mean := ⟨0, 0, 0⟩, cov := ⟨fun _ _ => 0⟩ }]
    cov := ⟨fun i j => if i = j then 1 else if i.val + j.val = 1 then 0.5 else 0⟩ }

/-- Scenario "correlated x and y": a node with a map whose filter holds `corrSet` and is not
initialised yet. -/
noncomputable def corrNode : Node := { map_ := true, pf_ := ⟨0.001, 0.1, false, corrSet⟩ }

/-- A first scan of a new scanner: empty cloud, odometry pose `(0, 0, 0)`. -/
def firstScan : ScanInput :=
  { frame_id := "top_laser", lidar_pose_ok := true, odom_pose := some ⟨0, 0, 0⟩,
    point_cloud := [], draw := fun _ _ => 0, base_to_odom := none }

/-- The defaults that `loadPose` falls back to. -/
noncomputable def defaultInitPose : InitPose :=
  { init_pose_0 := some 0, init_pose_1 := some 0, init_pose_2 := some 0,
    init_cov_0 := some (0.5 * 0.5), init_cov_1 := some (0.5 * 0.5),
    init_cov_2 := some ((Real.pi / 12) * (Real.pi / 12)) }

/-- Six values taken together, if none of them is NaN. -/
def sixValues (x y a xx yy aa : Dbl) : Option InitPose :=
  match x, y, a, xx, yy, aa with
  | some x, some y, some a, some xx, some yy, some aa =>
    some { init_pose_0 := some x, init_pose_1 := some y, init_pose_2 := some a,
           init_cov_0 := some xx, init_cov_1 := some yy, init_cov_2 := some aa }
  | _, _, _, _, _, _ => none

/-- The six values of the parameter server, if all six are present and none is NaN. -/
def serverValues (srv : ServerParams) : Option InitPose :=
  sixValues srv.initial_pose_x.join srv.initial_pose_y.join srv.initial_pose_a.join
    srv.initial_cov_xx.join srv.initial_cov_yy.join srv.initial_cov_aa.join

/-- The six values of the saved-pose file, if it parses and none of them is NaN. -/
def fileValues (quaternionYaw : Dbl → Dbl → Dbl) (file : Option SavedPose) : Option InitPose :=
  match file with
  | some f => sixValues f.x f.y (quaternionYaw f.z f.w) f.xx f.yy f.aa
  | none => none

/-- Specification of `loadPose`, in the words of the spec: the server values if complete,
otherwise the file values if complete, otherwise the defaults. -/
noncomputable def loadPoseSpec (quaternionYaw : Dbl → Dbl → Dbl) (srv : ServerParams)
    (file : Option SavedPose) : InitPose :=
  match serverValues srv with
  | some p => p
  | none =>
    match fileValues quaternionYaw file with
    | some p => p
    | none => defaultInitPose

/-- Scenario "server lost a parameter": `initial_pose_x = 1` is on the server,
`initial_pose_y` is not. -/
def partialServer : ServerParams :=
  { initial_pose_x := some (some 1), initial_pose_y := none, initial_pose_a := some (some 0),
    initial_cov_xx := some (some 1), initial_cov_yy := some (some 1),
    initial_cov_aa := some (some 1) }

/-- Scenario "server lost a parameter": a saved pose at `(2, 3)`. -/
def goodFile : SavedPose :=
  { x := some 2, y := some 3, z := some 0, w := some 1, xx := some 4, yy := some 5,
    aa := some 6 }

/-- Max-norm error matrix of `V^T V - I`. -/
def orthogonalityError (V : Mat3) : Mat3 :=
  fun i j => (∑ k : Fin 3, V k i * V k j) - (if i = j then 1 else 0)

/-- Max-norm error matrix of `V diag(d) V^T - A`. -/
def reconstructionError (A V : Mat3) (d : Vec3) : Mat3 :=
  fun i j => (∑ k : Fin 3, V i k * d k * V j k) - A i j

/-- Scenario "robot at rest": an initialised filter, the scanner known, its flag clear. -/
noncomputable def restNode : Node :=
  { map_ := true, pf_init_ := true, frame_to_lidar_ := ["top_laser"], lidars_update_ := [false] }

/-- A first scan of a second scanner: empty cloud, odometry pose `(0, 0, 0)`. -/
def bottomScan : ScanInput :=
  { frame_id := "bottom_laser", lidar_pose_ok := true, odom_pose := some ⟨0, 0, 0⟩,
    point_cloud := [], draw := fun _ _ => 0, base_to_odom := none }

/-- The messages that `handleInitialPoseMessage` drops, in the words of the spec: a NaN
component in the position or the orientation, or a non-empty frame id that resolves to neither
the global frame nor the alt-global frame. -/
def initialPoseDropped (tf : TfLib) (st : Node) (msg : InitialPoseMsg) : Bool :=
  (isnan msg.position_x || isnan msg.position_y || isnan msg.position_z ||
    isnan msg.orientation_x || isnan msg.orientation_y || isnan msg.orientation_z ||
    isnan msg.orientation_w) ||
  (decide (msg.frame_id ≠ "") &&
    decide (tf.resolve msg.frame_id ≠ tf.resolve st.global_frame_id_) &&
    decide (tf.resolve msg.frame_id ≠ tf.resolve st.global_alt_frame_id_))

/-- A tf library for the scenarios: frame names resolve to themselves, the planar pose of a
message is a translation, the yaw is `0`. -/
def plainTf : TfLib :=
  { resolve := fun s => s
    poseMsgToTF := fun p _ => ⟨1, 0, 0, 1, p.1, p.2.1⟩
    getYaw := fun _ => 0 }

/-- An initial pose message in the global frame at `(1, 2)`, without NaN in the pose and with
a covariance of NaNs. -/
def mapPoseMsg : InitialPoseMsg :=
  { frame_id := "map", position_x := some 1, position_y := some 2, position_z := some 0,
    orientation_x := some 0, orientation_y := some 0, orientation_z := some 0,
    orientation_w := some 1, covariance := fun _ => none }

/-- Scenario "global localization": the service `global_localization` has been called on a node
with a map, the global-localization decay rates `0.5`, `0.9`, the normal decay rates `0.001`,
`0.1` and `resample_interval_ = 1`. -/
noncomputable def glNode : Node :=
  globalLocalizationCallback plainExternal
    { corrNode with
      resample_interval_ := 1
      global_localization_alpha_slow_ := 0.5
      global_localization_alpha_fast_ := 0.9 }

/-- A node before the first map: the constructor defaults. -/
noncomputable def noMapNode : Node := {}

/-! ## Rotation noise, uniform poses and the odometry integrator (sensors/odom.cpp, node/node.cpp) -/

/-- Source: the expression of `delta_rot1_noise` and `delta_rot2_noise` in the two diff cases
of `Odom::updateAction`: `std::min(fabs(angleDiff(r, 0.0)), fabs(angleDiff(r, M_PI)))`. -/
noncomputable def rotNoise (r : ℝ) : ℝ := min |angleDiff r 0| |angleDiff r Real.pi|

/-- Source: `Node::randomFreeSpacePose`.  `u1` and `u2` are the values of the two `drand48()`
calls, in `[0, 1)`; `convertMapToWorld` (the map class is outside the sources at hand) gives
the world coordinates of a cell.  The conversion of `drand48() * size` to `unsigned int`
truncates.  The result is `none` when the read `free_space_indices_[rand_index]` is out of
range. -/
noncomputable def randomFreeSpacePose (free_space_indices_ : List (Int × Int))
    (convertMapToWorld : Int × Int → ℝ × ℝ) (u1 u2 : ℝ) : Option PFVector :=
  if free_space_indices_.length = 0 then some PFVector.zero
  else
    let rand_index : ℕ := ⌊u1 * free_space_indices_.length⌋₊
    match free_space_indices_[rand_index]? with
    | none => none
    | some free_point =>
      let p_vec := convertMapToWorld free_point
      some { v0 := p_vec.1, v1 := p_vec.2, v2 := u2 * 2 * Real.pi - Real.pi }

/-- Source: `Node::initOdomIntegrator`. -/
def initOdomIntegrator (st : Node) : Node := { st with odom_integrator_ready_ := false }

/-- Source: `Node::resetOdomIntegrator`. -/
def resetOdomIntegrator (st : Node) : Node :=
  { st with odom_integrator_absolute_motion_ := PFVector.zero }

/-- The locals `delta_trans`, `delta_rot` and `delta_bearing` of `integrateOdom` for a message
with the pose `pose`, after the last pose `last`. -/
structure IntegratorLocals where
  delta_trans : ℝ
  delta_rot : ℝ
  delta_bearing : ℝ

/-- Source: the `else` branch of `Node::integrateOdom` up to `delta_bearing`. -/
noncomputable def integratorLocals (pose last : PFVector) : IntegratorLocals :=
  let delta : PFVector :=
    { v0 := pose.v0 - last.v0, v1 := pose.v1 - last.v1, v2 := angleDiff pose.v2 last.v2 }
  let delta_trans := Real.sqrt (delta.v0 * delta.v0 + delta.v1 * delta.v1)
  let delta_rot := delta.v2
  let delta_bearing :=
    if delta_trans < 0.000001 then 0
    else angleDiff (atan2 delta.v1 delta.v0) (last.v2 + delta_rot / 2)
  { delta_trans := delta_trans, delta_rot := delta_rot, delta_bearing := delta_bearing }

/-- Source: `Node::integrateOdom`.  `pose` is the planar pose `(x, y, yaw)` that the function
reads from the odometry message through tf. -/
noncomputable def integrateOdom (st : Node) (pose : PFVector) : Node :=
  let st :=
    if !st.odom_integrator_ready_ then
      { resetOdomIntegrator st with odom_integrator_ready_ := true }
    else
      let l := integratorLocals pose st.odom_integrator_last_pose_
      let cs_bearing := Real.cos l.delta_bearing
      let sn_bearing := Real.sin l.delta_bearing
      { st with odom_integrator_absolute_motion_ :=
        { v0 := st.odom_integrator_absolute_motion_.v0 + |l.delta_trans * cs_bearing|
          v1 := st.odom_integrator_absolute_motion_.v1 + |l.delta_trans * sn_bearing|
          v2 := st.odom_integrator_absolute_motion_.v2 + |l.delta_rot| } }
  { st with odom_integrator_last_pose_ := pose }

/-- Scenario "integrator running": the integrator is ready, the last pose and the accumulator
are zero. -/
noncomputable def runningNode : Node := { odom_integrator_ready_ := true }

/-- The odometry messages of a list, integrated in order. -/
noncomputable def integrateAll (st : Node) (poses : List PFVector) : Node :=
  poses.foldl integrateOdom st

/-! ## Scan step: the subsampling step with the division checked -/

/-- A `std::vector<double>`: its elements by index.  The vectors of eig3.cpp have `N`
elements; only the indices below `N` exist. -/
abbrev DVec := ℕ → ℝ

/-- A `std::vector<std::vector<double>>`: `V i j` is `V[i][j]`. -/
abbrev DMat := ℕ → ℕ → ℝ

/-- The assignment `V[i][j] = x`. -/
def DMat.set (V : DMat) (i j : ℕ) (x : ℝ) : DMat :=
  Function.update V i (Function.update (V i) j x)

/-- `EIG3::N`. -/
def EIG3_N : ℕ := 3

/-- The local `eps = pow(2.0,-52.0)` of `tql2`. -/
noncomputable def EIG3_eps : ℝ := 2 ^ (-52 : ℤ)

/-- Source: `EIG3::hypot2`. -/
noncomputable def hypot2 (x y : ℝ) : ℝ := Real.sqrt (x * x + y * y)

/-- The loop `for (k = lo; ...; k++)` run for `count` rounds from `k` on. -/
def forUpFrom {σ : Type} (body : ℕ → σ → σ) : ℕ → ℕ → σ → σ
  | 0, _, s => s
  | count + 1, k, s => forUpFrom body count (k + 1) (body k s)

/-- The C loop `for (k = lo; k < hi; k++) body`. -/
def forUp {σ : Type} (lo hi : ℕ) (body : ℕ → σ → σ) (s : σ) : σ :=
  forUpFrom body (hi - lo) lo s

/-- The loop `for (i = ...; ...; i--)` run for `count` rounds, the last of them at `lo`. -/
def forDownFrom {σ : Type} (body : ℕ → σ → σ) (lo : ℕ) : ℕ → σ → σ
  | 0, s => s
  | count + 1, s => forDownFrom body lo count (body (lo + count) s)

/-- The C loop `for (i = hi - 1; i >= lo; i--) body` on an `int i`. -/
def forDown {σ : Type} (hi lo : ℕ) (body : ℕ → σ → σ) (s : σ) : σ :=
  forDownFrom body lo (hi - lo) s

/-- The `std::vector` arguments of `tred2`: the function's own copies. -/
structure EigArrays where
  V : DMat
  d : DVec
  e : DVec

/-- Source: the `else` branch of the Householder loop of `tred2` for the row `i`
("Generate Householder vector" and "Apply similarity transformation to remaining columns").
Returns the arrays and the local `h`.  The divisions are those of real numbers. -/
noncomputable def tred2Householder (i : ℕ) (scale : ℝ) (a : EigArrays) : EigArrays × ℝ :=
  let V := a.V
  let d := a.d
  let e := a.e
  let h : ℝ := 0
  let (d, h) := forUp 0 i (fun k (dh : DVec × ℝ) =>
    let d := Function.update dh.1 k (dh.1 k / scale)
    (d, dh.2 + d k * d k)) (d, h)
  let f := d (i - 1)
  let g := Real.sqrt h
  let g := if f > 0 then -g else g
  let e := Function.update e i (scale * g)
  let h := h - f * g
  let d := Function.update d (i - 1) (f - g)
  let e := forUp 0 i (fun j (e : DVec) => Function.update e j 0) e
  let (V, e) := forUp 0 i (fun j (Ve : DMat × DVec) =>
    let f := d j
    let V := Ve.1.set j i f
    let g := Ve.2 j + V j j * f
    let (g, e) := forUp (j + 1) i (fun k (ge : ℝ × DVec) =>
      (ge.1 + V k j * d k, Function.update ge.2 k (ge.2 k + V k j * f))) (g, Ve.2)
    (V, Function.update e j g)) (V, e)
  let f : ℝ := 0
  let (e, f) := forUp 0 i (fun j (ef : DVec × ℝ) =>
    let e := Function.update ef.1 j (ef.1 j / h)
    (e, ef.2 + e j * d j)) (e, f)
  let hh := f / (h + h)
  let e := forUp 0 i (fun j (e : DVec) => Function.update e j (e j - hh * d j)) e
  let (V, d) := forUp 0 i (fun j (Vd : DMat × DVec) =>
    let f := Vd.2 j
    let g := e j
    let V := forUp j i (fun k (V : DMat) =>
      V.set k j (V k j - (f * e k + g * Vd.2 k))) Vd.1
    let d := Function.update Vd.2 j (V (i - 1) j)
    (V.set i j 0, d)) (V, d)
  ({ V := V, d := d, e := e }, h)

/-- Source: one round of the loop `for (i = N-1; i > 0; i--)` of `tred2`
("Householder reduction to tridiagonal form"). -/
noncomputable def tred2Reduce (i : ℕ) (a : EigArrays) : EigArrays :=
  let scale : ℝ := 0
  let h : ℝ := 0
  let scale := forUp 0 i (fun k (scale : ℝ) => scale + |a.d k|) scale
  let (a, h) :=
    if scale = 0 then
      let e := Function.update a.e i (a.d (i - 1))
      let (V, d) := forUp 0 i (fun j (Vd : DMat × DVec) =>
        let d := Function.update Vd.2 j (Vd.1 (i - 1) j)
        let V := Vd.1.set i j 0
        (V.set j i 0, d)) (a.V, a.d)
      (({ V := V, d := d, e := e } : EigArrays), h)
    else tred2Householder i scale a
  { a with d := Function.update a.d i h }

/-- Source: one round of the loop `for (i = 0; i < N-1; i++)` of `tred2`
("Accumulate transformations"). -/
noncomputable def tred2Accumulate (i : ℕ) (a : EigArrays) : EigArrays :=
  let V := a.V.set (EIG3_N - 1) i (a.V i i)
  let V := V.set i i 1
  let h := a.d (i + 1)
  let (V, d) :=
    if h ≠ 0 then
      let d := forUp 0 (i + 1) (fun k (d : DVec) => Function.update d k (V k (i + 1) / h)) a.d
      let V := forUp 0 (i + 1) (fun j (V : DMat) =>
        let g : ℝ := 0
        let g := forUp 0 (i + 1) (fun k (g : ℝ) => g + V k (i + 1) * V k j) g
        forUp 0 (i + 1) (fun k (V : DMat) => V.set k j (V k j - g * d k)) V) V
      (V, d)
    else (V, a.d)
  let V := forUp 0 (i + 1) (fun k (V : DMat) => V.set k (i + 1) 0) V
  { a with V := V, d := d }

/-- Source: `EIG3::tred2`: the final values of the function's own copies of `V`, `d`, `e`
(the parameters are passed by value). -/
noncomputable def tred2 (V : DMat) (d e : DVec) : DMat × DVec × DVec :=
  let d := forUp 0 EIG3_N (fun j (d : DVec) => Function.update d j (V (EIG3_N - 1) j)) d
  let a : EigArrays := { V := V, d := d, e := e }
  let a := forDown EIG3_N 1 tred2Reduce a
  let a := forUp 0 (EIG3_N - 1) tred2Accumulate a
  let (V, d) := forUp 0 EIG3_N (fun j (Vd : DMat × DVec) =>
    let d := Function.update Vd.2 j (Vd.1 (EIG3_N - 1) j)
    (Vd.1.set (EIG3_N - 1) j 0, d)) (a.V, a.d)
  let V := V.set (EIG3_N - 1) (EIG3_N - 1) 1
  let e := Function.update a.e 0 0
  (V, d, e)


/-- What can stop the model of `tql2` short of a result: an index outside `0 .. N-1`, a zero
divisor in the computation of the implicit shift (`2.0 * e[l]`, `p + r`, `dl1`), a zero
divisor `r` in the QL transformation, or the end of the fuel given to the do-while loop (the
loop is still running). -/
inductive EigFault where
  | outOfBounds
  | shiftDivByZero
  | rotationDivByZero
  | fuel
  deriving DecidableEq

/-- The arrays and the locals of `tql2` that live across the rounds of the loop over `l`.
`ql_iterations` is not in the source: it counts the executions of the body of the do-while
loop. -/
structure Tql2State where
  V : DMat
  d : DVec
  e : DVec
  f : ℝ
  tst1 : ℝ
  ql_iterations : ℕ

/-- The arrays and the locals of the loop `for (i = m-1; i >= l; i--)` of `tql2`. -/
structure QlLocals where
  V : DMat
  d : DVec
  e : DVec
  p : ℝ
  c : ℝ
  c2 : ℝ
  c3 : ℝ
  s : ℝ
  s2 : ℝ

/-- Source: the body of the loop `for (i = m-1; i >= l; i--)` of `tql2`
("Implicit QL transformation" and "Accumulate transformation"). -/
noncomputable def qlRotate (i : ℕ) (q : QlLocals) : Except EigFault QlLocals :=
  let c3 := q.c2
  let c2 := q.c
  let s2 := q.s
  let g := q.c * q.e i
  let h := q.c * q.p
  let r := hypot2 q.p (q.e i)
  if ¬ (i + 1 < EIG3_N) then .error .outOfBounds
  else
    let e := Function.update q.e (i + 1) (q.s * r)
    if r = 0 then .error .rotationDivByZero
    else
      let s := e i / r
      let c := q.p / r
      let p := c * q.d i - s * g
      let d := Function.update q.d (i + 1) (h + s * (c * g + s * q.d i))
      let V := forUp 0 EIG3_N (fun k (V : DMat) =>
        let h := V k (i + 1)
        let V := V.set k (i + 1) (s * V k i + c * h)
        V.set k i (c * V k i - s * h)) q.V
      .ok { V := V, d := d, e := e, p := p, c := c, c2 := c2, c3 := c3, s := s, s2 := s2 }

/-- The loop `for (i = m-1; i >= l; i--)` of `tql2`, run for `count` rounds, the last of them
at `l`. -/
noncomputable def qlRotations (l : ℕ) : ℕ → QlLocals → Except EigFault QlLocals
  | 0, q => .ok q
  | count + 1, q =>
    match qlRotate (l + count) q with
    | .error x => .error x
    | .ok q => qlRotations l count q

/-- Source: the body of the do-while loop of `tql2` ("Compute implicit shift", "Implicit QL
transformation"), for the indices `l < m`. -/
noncomputable def qlIteration (l m : ℕ) (st : Tql2State) : Except EigFault Tql2State :=
  let g := st.d l
  if ¬ (l + 1 < EIG3_N) then .error .outOfBounds
  else if 2 * st.e l = 0 then .error .shiftDivByZero
  else
    let p := (st.d (l + 1) - g) / (2 * st.e l)
    let r := hypot2 p 1
    let r := if p < 0 then -r else r
    if p + r = 0 then .error .shiftDivByZero
    else
      let d := Function.update st.d l (st.e l / (p + r))
      let d := Function.update d (l + 1) (st.e l * (p + r))
      let dl1 := d (l + 1)
      let h := g - d l
      let d := forUp (l + 2) EIG3_N (fun i (d : DVec) => Function.update d i (d i - h)) d
      let f := st.f + h
      if ¬ (m < EIG3_N) then .error .outOfBounds
      else
        let p := d m
        let el1 := st.e (l + 1)
        match qlRotations l (m - l)
            { V := st.V, d := d, e := st.e, p := p, c := 1, c2 := 1, c3 := 1, s := 0,
              s2 := 0 } with
        | .error x => .error x
        | .ok q =>
          if dl1 = 0 then .error .shiftDivByZero
          else
            let p := -q.s * q.s2 * q.c3 * el1 * q.e l / dl1
            let e := Function.update q.e l (q.s * p)
            let d := Function.update q.d l (q.c * p)
            .ok { V := q.V, d := d, e := e, f := f, tst1 := st.tst1,
                  ql_iterations := st.ql_iterations + 1 }

/-- Source: the do-while loop of `tql2`, `do { ... } while (fabs(e[l]) > eps*tst1);`, with
fuel for `fuel` rounds: the source has no bound on the number of rounds. -/
noncomputable def qlLoop (l m : ℕ) : ℕ → Tql2State → Except EigFault Tql2State
  | 0, _ => .error .fuel
  | fuel + 1, st =>
    match qlIteration l m st with
    | .error x => .error x
    | .ok st => if |st.e l| > EIG3_eps * st.tst1 then qlLoop l m fuel st else .ok st

/-- Source: the search `while (m < N) { if (fabs(e[m]) <= eps*tst1) break; m++; }` of `tql2`,
from `m` on, in at most `count` rounds (`N - m` rounds are enough). -/
noncomputable def findSmall (e : DVec) (tst1 : ℝ) : ℕ → ℕ → ℕ
  | 0, m => m
  | count + 1, m =>
    if m < EIG3_N then
      if |e m| ≤ EIG3_eps * tst1 then m else findSmall e tst1 count (m + 1)
    else m

/-- Source: one round of the loop `for (l = 0; l < N; l++)` of `tql2`. -/
noncomputable def tql2Step (fuel : ℕ) (l : ℕ) (st : Tql2State) : Except EigFault Tql2State :=
  let tst1 := max (|st.d l| + |st.e l|) st.tst1
  let st := { st with tst1 := tst1 }
  let m := findSmall st.e tst1 (EIG3_N - l) l
  match (if m > l then qlLoop l m fuel st else .ok st) with
  | .error x => .error x
  | .ok st =>
    let d := Function.update st.d l (st.d l + st.f)
    .ok { st with d := d, e := Function.update st.e l 0 }

/-- The loop `for (l = 0; l < N; l++)` of `tql2`, run for `count` rounds from `l` on. -/
noncomputable def tql2Steps (fuel : ℕ) : ℕ → ℕ → Tql2State → Except EigFault Tql2State
  | 0, _, st => .ok st
  | count + 1, l, st =>
    match tql2Step fuel l st with
    | .error x => .error x
    | .ok st => tql2Steps fuel count (l + 1) st

/-- Source: one round of the last loop of `tql2`, "Sort eigenvalues and corresponding
vectors": the selection of the smallest of `d[i], ..., d[N-1]` and the exchange. -/
noncomputable def sortPass (i : ℕ) (Vd : DMat × DVec) : DMat × DVec :=
  let k := i
  let p := Vd.2 i
  let (k, p) := forUp (i + 1) EIG3_N (fun j (kp : ℕ × ℝ) =>
    if Vd.2 j < kp.2 then (j, Vd.2 j) else kp) (k, p)
  if k ≠ i then
    let d := Function.update Vd.2 k (Vd.2 i)
    let d := Function.update d i p
    let V := forUp 0 EIG3_N (fun j (V : DMat) =>
      let p := V j i
      let V := V.set j i (V j k)
      V.set j k p) Vd.1
    (V, d)
  else Vd

/-- Source: the last loop of `tql2`, `for (i = 0; i < N-1; i++)`. -/
noncomputable def sortEigen (V : DMat) (d : DVec) : DMat × DVec :=
  forUp 0 (EIG3_N - 1) sortPass (V, d)

/-- Source: `EIG3::tql2`: the final values of the function's own copies of `V`, `d`, `e` (the
parameters are passed by value) and the number of rounds of the do-while loop, or what stopped
the model. -/
noncomputable def tql2 (fuel : ℕ) (V : DMat) (d e : DVec) :
    Except EigFault (DMat × DVec × DVec × ℕ) :=
  let e := forUp 1 EIG3_N (fun i (e : DVec) => Function.update e (i - 1) (e i)) e
  let e := Function.update e (EIG3_N - 1) 0
  match tql2Steps fuel EIG3_N 0
      { V := V, d := d, e := e, f := 0, tst1 := 0, ql_iterations := 0 } with
  | .error x => .error x
  | .ok st =>
    let (V, d) := sortEigen st.V st.d
    .ok (V, d, st.e, st.ql_iterations)

/-! ## The call `eigenDecomposition` and inputs of the eigen solver -/

/-- The matrix `diag(a, b, c)`. -/
def diag3 (a b c : ℝ) : DMat :=
  fun i j => if i = j then (if i = 0 then a else if i = 1 then b else if i = 2 then c else 0) else 0

/-- Source: `EIG3::eigenDecomposition` with the functions `tred2` and `tql2` of eig3.cpp.
All parameters are passed by value: `tred2` and `tql2` both receive the copy `V` filled from
`A`, the caller's `d` and the zero vector `e`, and what `tred2` makes of its copies does not
reach `tql2`.  The result is what `tql2` ends with in its own copies (with the number of
rounds of its do-while loop), and the caller's `V` and `d` after the call. -/
noncomputable def eigenDecompositionCall (fuel : ℕ) (A V : DMat) (d : DVec) :
    Except EigFault ((DMat × DVec × DVec × ℕ) × (DMat × DVec)) :=
  let e : DVec := fun _ => 0
  let V_copy := forUp 0 EIG3_N (fun i (W : DMat) =>
    forUp 0 EIG3_N (fun j (W : DMat) => W.set i j (A i j)) W) V
  let d_copy := d
  let _tred2_copies := tred2 V_copy d_copy e
  match tql2 fuel V_copy d_copy e with
  | .error x => .error x
  | .ok r => .ok (r, (V, d))

theorem normalize_mem (z : ℝ) : -Real.pi < normalize z ∧ normalize z ≤ Real.pi := by
  unfold normalize atan2
  exact ⟨Complex.neg_pi_lt_arg _, Complex.arg_le_pi _⟩

theorem normalize_eq_arg (z : ℝ) :
    normalize z = Complex.arg (Complex.cos z + Complex.sin z * Complex.I) := by
  unfold normalize atan2
  congr 1
  apply Complex.ext <;> simp [Complex.cos_ofReal_re, Complex.sin_ofReal_re]

theorem normalize_sub_self (z : ℝ) :
    normalize z - z = 2 * Real.pi * ⌊(Real.pi - z) / (2 * Real.pi)⌋ := by
  rw [normalize_eq_arg]
  exact Complex.arg_cos_add_sin_mul_I_sub z

theorem normalize_of_mem {z : ℝ} (h1 : -Real.pi < z) (h2 : z ≤ Real.pi) : normalize z = z := by
  rw [normalize_eq_arg]
  exact Complex.arg_cos_add_sin_mul_I ⟨h1, h2⟩

theorem angleDiff_cases (a b : ℝ) :
    (|normalize a - normalize b| < Real.pi ∧ angleDiff a b = normalize a - normalize b) ∨
    (Real.pi ≤ normalize a - normalize b ∧
      angleDiff a b = normalize a - normalize b - 2 * Real.pi) ∨
    (normalize a - normalize b ≤ -Real.pi ∧
      angleDiff a b = normalize a - normalize b + 2 * Real.pi) := by
  have ha := normalize_mem a
  have hb := normalize_mem b
  have hpi := Real.pi_pos
  unfold angleDiff
  simp only []
  generalize normalize a = x at *
  generalize normalize b = y at *
  by_cases hd : x - y > 0
  · rw [if_pos hd, abs_of_pos hd]
    have e : (2 * Real.pi - (x - y)) * (-1) = x - y - 2 * Real.pi := by ring
    rw [e, abs_of_neg (by linarith : x - y - 2 * Real.pi < 0)]
    by_cases h : x - y < Real.pi
    · left
      refine ⟨h, ?_⟩
      rw [if_pos (by linarith)]
    · right; left
      refine ⟨by linarith, ?_⟩
      rw [if_neg (by linarith)]
  · rw [if_neg hd]
    have hd' : x - y ≤ 0 := not_lt.mp hd
    rw [abs_of_nonpos hd']
    have e : 2 * Real.pi - -(x - y) = x - y + 2 * Real.pi := by ring
    rw [e, abs_of_pos (by linarith : 0 < x - y + 2 * Real.pi)]
    by_cases h : -Real.pi < x - y
    · left
      refine ⟨by linarith, ?_⟩
      rw [if_pos (by linarith)]
    · right; right
      refine ⟨by linarith, ?_⟩
      rw [if_neg (by linarith)]

theorem angleDiff_abs_le (a b : ℝ) : |angleDiff a b| ≤ Real.pi := by
  have ha := normalize_mem a
  have hb := normalize_mem b
  rcases angleDiff_cases a b with ⟨h, e⟩ | ⟨h, e⟩ | ⟨h, e⟩
  · rw [e]; exact h.le
  · rw [e, abs_le]; constructor <;> linarith
  · rw [e, abs_le]; constructor <;> linarith

theorem normalize_int (z : ℝ) : ∃ k : ℤ, normalize z = z + 2 * Real.pi * k :=
  ⟨⌊(Real.pi - z) / (2 * Real.pi)⌋, by linarith [normalize_sub_self z]⟩

theorem angleDiff_int (a b : ℝ) : ∃ k : ℤ, angleDiff a b = a - b + 2 * Real.pi * k := by
  obtain ⟨ka, ha⟩ := normalize_int a
  obtain ⟨kb, hb⟩ := normalize_int b
  rcases angleDiff_cases a b with ⟨_, e⟩ | ⟨_, e⟩ | ⟨_, e⟩
  · exact ⟨ka - kb, by rw [e, ha, hb]; push_cast; ring⟩
  · exact ⟨ka - kb - 1, by rw [e, ha, hb]; push_cast; ring⟩
  · exact ⟨ka - kb + 1, by rw [e, ha, hb]; push_cast; ring⟩

theorem angleDiff_neg_swap (a b : ℝ) : angleDiff a b = -angleDiff b a := by
  have hpi := Real.pi_pos
  rcases angleDiff_cases a b with ⟨h, e⟩ | ⟨h, e⟩ | ⟨h, e⟩ <;>
    rcases angleDiff_cases b a with ⟨h', e'⟩ | ⟨h', e'⟩ | ⟨h', e'⟩ <;>
    rw [e, e'] <;> try rw [abs_lt] at h
  all_goals try rw [abs_lt] at h'
  all_goals linarith

/-! ## Facts about the sample loop and the bearing -/

theorem forEachSample_length (body : ℕ → PFSample → PFSample) (i : ℕ) (l : List PFSample) :
    (forEachSample body i l).length = l.length := by
  induction l generalizing i with
  | nil => rfl
  | cons s rest ih => simp [forEachSample, ih]

theorem forEachSample_getElem? (body : ℕ → PFSample → PFSample) (i k : ℕ)
    (l : List PFSample) :
    (forEachSample body i l)[k]? = (l[k]?).map (body (i + k)) := by
  induction l generalizing i k with
  | nil => simp [forEachSample]
  | cons s rest ih =>
    cases k with
    | zero => simp [forEachSample]
    | succ k =>
      simp only [forEachSample, List.getElem?_cons_succ]
      rw [ih, Nat.add_assoc, Nat.add_comm 1 k]

theorem forEachSample_mem (body : ℕ → PFSample → PFSample) (i : ℕ) (l : List PFSample)
    (s' : PFSample) (h : s' ∈ forEachSample body i l) :
    ∃ j, ∃ s ∈ l, s' = body j s := by
  induction l generalizing i with
  | nil => simp [forEachSample] at h
  | cons s rest ih =>
    simp only [forEachSample, List.mem_cons] at h
    rcases h with h | h
    · exact ⟨i, s, List.mem_cons_self _ _, h⟩
    · obtain ⟨j, t, ht, e⟩ := ih (i + 1) h
      exact ⟨j, t, List.mem_cons_of_mem _ ht, e⟩

theorem cos_add_two_pi_int (x : ℝ) (k : ℤ) : Real.cos (x + 2 * Real.pi * k) = Real.cos x := by
  rw [mul_comm]; exact Real.cos_add_int_mul_two_pi x k

theorem sin_add_two_pi_int (x : ℝ) (k : ℤ) : Real.sin (x + 2 * Real.pi * k) = Real.sin x := by
  rw [mul_comm]; exact Real.sin_add_int_mul_two_pi x k

theorem normalize_add_two_pi_int (x : ℝ) (k : ℤ) :
    normalize (x + 2 * Real.pi * k) = normalize x := by
  unfold normalize
  rw [cos_add_two_pi_int, sin_add_two_pi_int]

theorem angleDiff_normalize_right (a b : ℝ) : angleDiff a (normalize b) = angleDiff a b := by
  have h : normalize (normalize b) = normalize b :=
    normalize_of_mem (normalize_mem b).1 (normalize_mem b).2
  unfold angleDiff
  simp only [h]

theorem angleDiff_eq_zero_of_int (u v : ℝ) (k : ℤ) (h : u = v + 2 * Real.pi * k) :
    angleDiff u v = 0 := by
  have e : normalize u = normalize v := by rw [h, normalize_add_two_pi_int]
  have hpi := Real.pi_pos
  rcases angleDiff_cases u v with ⟨_, e'⟩ | ⟨h', _⟩ | ⟨h', _⟩
  · rw [e', e, sub_self]
  · rw [e, sub_self] at h'; linarith
  · rw [e, sub_self] at h'; linarith

theorem angleDiff_self_zero : angleDiff 0 0 = 0 :=
  angleDiff_eq_zero_of_int 0 0 0 (by simp)

theorem delta_trans_mul_cos_atan2 (dx dy : ℝ) :
    Real.sqrt (dx * dx + dy * dy) * Real.cos (atan2 dy dx) = dx := by
  unfold atan2
  by_cases hz : (⟨dx, dy⟩ : ℂ) = 0
  · have hx : dx = 0 := by simpa using congrArg Complex.re hz
    have hy : dy = 0 := by simpa using congrArg Complex.im hz
    simp [hx, hy]
  · rw [Complex.cos_arg hz]
    have habs : Complex.abs ⟨dx, dy⟩ = Real.sqrt (dx * dx + dy * dy) := by
      rw [Complex.abs_apply, Complex.normSq_mk]
    have hne : Complex.abs (⟨dx, dy⟩ : ℂ) ≠ 0 := by simpa using hz
    rw [← habs]
    field_simp

theorem delta_trans_mul_sin_atan2 (dx dy : ℝ) :
    Real.sqrt (dx * dx + dy * dy) * Real.sin (atan2 dy dx) = dy := by
  unfold atan2
  by_cases hz : (⟨dx, dy⟩ : ℂ) = 0
  · have hx : dx = 0 := by simpa using congrArg Complex.re hz
    have hy : dy = 0 := by simpa using congrArg Complex.im hz
    simp [hx, hy]
  · rw [Complex.sin_arg]
    have habs : Complex.abs ⟨dx, dy⟩ = Real.sqrt (dx * dx + dy * dy) := by
      rw [Complex.abs_apply, Complex.normSq_mk]
    have hne : Complex.abs (⟨dx, dy⟩ : ℂ) ≠ 0 := by simpa using hz
    rw [← habs]
    field_simp

theorem old_pose_yaw (ndata : OdomData) (p : PFVector)
    (hpose : ∃ k : ℤ, ndata.pose.v2 = p.v2 + ndata.delta.v2 + 2 * Real.pi * k) (x : ℝ) :
    angleDiff x (pfVectorSub ndata.pose ndata.delta).v2 = angleDiff x p.v2 := by
  obtain ⟨k, hk⟩ := hpose
  have e : ndata.pose.v2 - ndata.delta.v2 = p.v2 + 2 * Real.pi * k := by rw [hk]; ring
  simp only [pfVectorSub]
  rw [angleDiff_normalize_right, e]
  unfold angleDiff
  simp only [normalize_add_two_pi_int]

theorem cos_bearing (b y : ℝ) : Real.cos (angleDiff b y + y) = Real.cos b := by
  obtain ⟨k, hk⟩ := angleDiff_int b y
  rw [hk, show b - y + 2 * Real.pi * k + y = b + 2 * Real.pi * k by ring, cos_add_two_pi_int]

theorem sin_bearing (b y : ℝ) : Real.sin (angleDiff b y + y) = Real.sin b := by
  obtain ⟨k, hk⟩ := angleDiff_int b y
  rw [hk, show b - y + 2 * Real.pi * k + y = b + 2 * Real.pi * k by ring, sin_add_two_pi_int]

theorem cos_bearing_hat (b y : ℝ) :
    Real.cos (y + angleDiff (angleDiff b y) 0) = Real.cos b := by
  obtain ⟨k, hk⟩ := angleDiff_int b y
  obtain ⟨k', hk'⟩ := angleDiff_int (angleDiff b y) 0
  rw [hk', hk, show y + (b - y + 2 * Real.pi * k - 0 + 2 * Real.pi * k') =
    b + 2 * Real.pi * ((k + k' : ℤ) : ℝ) by push_cast; ring, cos_add_two_pi_int]

theorem sin_bearing_hat (b y : ℝ) :
    Real.sin (y + angleDiff (angleDiff b y) 0) = Real.sin b := by
  obtain ⟨k, hk⟩ := angleDiff_int b y
  obtain ⟨k', hk'⟩ := angleDiff_int (angleDiff b y) 0
  rw [hk', hk, show y + (b - y + 2 * Real.pi * k - 0 + 2 * Real.pi * k') =
    b + 2 * Real.pi * ((k + k' : ℤ) : ℝ) by push_cast; ring, sin_add_two_pi_int]

/-- The yaw increment of the diff variants without noise is the odometry yaw change up to a
whole number of turns. -/
theorem diff_yaw_increment (r1 dyaw y : ℝ) :
    angleDiff (y + (angleDiff r1 0 + angleDiff (angleDiff dyaw r1) 0)) (y + dyaw) = 0 := by
  obtain ⟨k1, h1⟩ := angleDiff_int r1 0
  obtain ⟨k2, h2⟩ := angleDiff_int dyaw r1
  obtain ⟨k3, h3⟩ := angleDiff_int (angleDiff dyaw r1) 0
  apply angleDiff_eq_zero_of_int _ _ (k1 + k2 + k3)
  rw [h1, h3, h2]
  push_cast
  ring

theorem normalize_zero : normalize 0 = 0 :=
  normalize_of_mem (by linarith [Real.pi_pos]) Real.pi_pos.le

theorem atan2_zero_one : atan2 0 1 = 0 := by
  unfold atan2
  have e : (⟨1, 0⟩ : ℂ) = 1 := by apply Complex.ext <;> simp
  rw [e, Complex.arg_one]

theorem angleDiff_zero_right (x : ℝ) :
    (|normalize x| < Real.pi ∧ angleDiff x 0 = normalize x) ∨
    (normalize x = Real.pi ∧ angleDiff x 0 = -Real.pi) := by
  have hx := normalize_mem x
  rcases angleDiff_cases x 0 with ⟨h, e⟩ | ⟨h, e⟩ | ⟨h, e⟩ <;>
    rw [normalize_zero, sub_zero] at h e
  · exact Or.inl ⟨h, e⟩
  · exact Or.inr ⟨le_antisymm hx.2 h, by rw [e]; linarith [le_antisymm hx.2 h]⟩
  · linarith

theorem angleDiff_zero_right_of_mem (x : ℝ) (h1 : -Real.pi < x) (h2 : x < Real.pi) :
    angleDiff x 0 = x := by
  have hn : normalize x = x := normalize_of_mem h1 h2.le
  rcases angleDiff_zero_right x with ⟨_, e⟩ | ⟨h, _⟩
  · rw [e, hn]
  · rw [hn] at h; linarith

theorem normalize_neg_pi : normalize (-Real.pi) = Real.pi := by
  have e : -Real.pi = Real.pi + 2 * Real.pi * ((-1 : ℤ) : ℝ) := by push_cast; ring
  rw [e, normalize_add_two_pi_int]
  exact normalize_of_mem (by linarith [Real.pi_pos]) le_rfl

theorem angleDiff_zero_idem (x : ℝ) : angleDiff (angleDiff x 0) 0 = angleDiff x 0 := by
  have hpi := Real.pi_pos
  rcases angleDiff_zero_right x with ⟨h, e⟩ | ⟨_, e⟩
  · rw [e]
    rw [abs_lt] at h
    exact angleDiff_zero_right_of_mem _ h.1 h.2
  · rw [e]
    rcases angleDiff_zero_right (-Real.pi) with ⟨h', _⟩ | ⟨_, e'⟩
    · rw [normalize_neg_pi, abs_of_pos hpi] at h'
      exact absurd h' (lt_irrefl _)
    · exact e'

/-! ## Claims about `angleDiff` -/

/-- C3: `angleDiff` is antisymmetric, `angleDiff a b = -angleDiff b a` for all real angles
`a` and `b`; the boundary cases (normalized difference `0`, `pi` or `-pi`) are included. -/
theorem angleDiff_antisymmetric (a b : ℝ) : angleDiff a b = -angleDiff b a :=
  angleDiff_neg_swap a b

/-- C4: `angleDiff a b` is the signed shortest angular difference: its absolute value is at
most `pi`, it differs from `a - b` by an integer multiple of `2 * pi`, and `normalize` takes
its values in `(-pi, pi]`. -/
theorem angleDiff_shortest (a b : ℝ) :
    |angleDiff a b| ≤ Real.pi ∧
    (∃ k : ℤ, angleDiff a b = a - b + 2 * Real.pi * k) ∧
    (-Real.pi < normalize a ∧ normalize a ≤ Real.pi) :=
  ⟨angleDiff_abs_le a b, angleDiff_int a b, normalize_mem a⟩

/-! ## Claims about the motion model -/

/-- C1 (amended): with `alpha1 .. alpha5 = 0` and a draw that returns `0` for the argument `0`,
`updateAction` applied to samples that are all at pose `p`, with an odometry pose whose yaw is
`p.yaw + dyaw` up to whole turns, keeps the number of samples and moves every sample to
`(p.x + dx, p.y + dy)` with a yaw equal to `p.yaw + dyaw` up to whole turns
(`angleDiff` of the two is `0`): exactly `p.yaw + dyaw` in the omni, omni-corrected and
gaussian variants, and `p.yaw + angleDiff delta_rot1 0 + angleDiff delta_rot2 0` in the diff
and diff-corrected variants, where the statement needs `sqrt (dx^2 + dy^2) >= 0.01`. -/
theorem updateAction_noise_free (o : Odom) (draw : Draw) (set : PFSampleSet)
    (ndata : OdomData) (p : PFVector)
    (halpha : o.alpha1_ = 0 ∧ o.alpha2_ = 0 ∧ o.alpha3_ = 0 ∧ o.alpha4_ = 0 ∧ o.alpha5_ = 0)
    (hdraw : ∀ n, draw n 0 = 0)
    (hset : ∀ s ∈ set.samples, s.pose = p)
    (hpose : ∃ k : ℤ, ndata.pose.v2 = p.v2 + ndata.delta.v2 + 2 * Real.pi * k)
    (hguard : o.model_type_ = .ODOM_MODEL_DIFF ∨ o.model_type_ = .ODOM_MODEL_DIFF_CORRECTED →
      0.01 ≤ Real.sqrt (ndata.delta.v1 * ndata.delta.v1 + ndata.delta.v0 * ndata.delta.v0)) :
    (updateAction o draw set ndata).samples.length = set.samples.length ∧
    ∀ s ∈ (updateAction o draw set ndata).samples,
      s.pose.v0 = p.v0 + ndata.delta.v0 ∧ s.pose.v1 = p.v1 + ndata.delta.v1 ∧
      angleDiff s.pose.v2 (p.v2 + ndata.delta.v2) = 0 ∧
      (o.model_type_ ≠ .ODOM_MODEL_DIFF → o.model_type_ ≠ .ODOM_MODEL_DIFF_CORRECTED →
        s.pose.v2 = p.v2 + ndata.delta.v2) ∧
      (o.model_type_ = .ODOM_MODEL_DIFF ∨ o.model_type_ = .ODOM_MODEL_DIFF_CORRECTED →
        s.pose.v2 = p.v2 +
          (angleDiff (angleDiff (atan2 ndata.delta.v1 ndata.delta.v0) p.v2) 0 +
           angleDiff (angleDiff ndata.delta.v2
             (angleDiff (atan2 ndata.delta.v1 ndata.delta.v0) p.v2)) 0)) := by
  obtain ⟨m, a1, a2, a3, a4, a5⟩ := o
  obtain ⟨h1, h2, h3, h4, h5⟩ := halpha
  simp only at h1 h2 h3 h4 h5 hguard
  subst h1 h2 h3 h4 h5
  have hold := old_pose_yaw ndata p hpose
  have hc := delta_trans_mul_cos_atan2 ndata.delta.v0 ndata.delta.v1
  have hs := delta_trans_mul_sin_atan2 ndata.delta.v0 ndata.delta.v1
  have hself : angleDiff (p.v2 + ndata.delta.v2) (p.v2 + ndata.delta.v2) = 0 :=
    angleDiff_eq_zero_of_int _ _ 0 (by simp)
  cases m
  · -- diff
    have hg := hguard (Or.inl rfl)
    have hnot : ¬ Real.sqrt (ndata.delta.v1 * ndata.delta.v1 + ndata.delta.v0 * ndata.delta.v0)
        < 0.01 := not_lt.mpr hg
    refine ⟨forEachSample_length _ _ _, fun s hs' => ?_⟩
    obtain ⟨j, s0, hs0, rfl⟩ := forEachSample_mem _ _ _ _ hs'
    have hp := hset s0 hs0
    simp only [diffLocals, diffDrawArgs, if_neg hnot, hold, hp, zero_mul, add_zero, hdraw,
      sub_zero, cos_bearing_hat, sin_bearing_hat, hc, hs, diff_yaw_increment]
    simp
  · -- omni
    refine ⟨forEachSample_length _ _ _, fun s hs' => ?_⟩
    obtain ⟨j, s0, hs0, rfl⟩ := forEachSample_mem _ _ _ _ hs'
    have hp := hset s0 hs0
    simp only [hold, hp, zero_mul, add_zero, zero_add, hdraw, cos_bearing, sin_bearing, hc, hs,
      hself, sub_zero]
    simp
  · -- diff-corrected
    have hg := hguard (Or.inr rfl)
    have hnot : ¬ Real.sqrt (ndata.delta.v1 * ndata.delta.v1 + ndata.delta.v0 * ndata.delta.v0)
        < 0.01 := not_lt.mpr hg
    refine ⟨forEachSample_length _ _ _, fun s hs' => ?_⟩
    obtain ⟨j, s0, hs0, rfl⟩ := forEachSample_mem _ _ _ _ hs'
    have hp := hset s0 hs0
    simp only [diffLocals, diffCorrectedDrawArgs, if_neg hnot, hold, hp, zero_mul, add_zero,
      Real.sqrt_zero, hdraw, sub_zero, cos_bearing_hat, sin_bearing_hat, hc, hs,
      diff_yaw_increment]
    simp
  · -- omni-corrected
    refine ⟨forEachSample_length _ _ _, fun s hs' => ?_⟩
    obtain ⟨j, s0, hs0, rfl⟩ := forEachSample_mem _ _ _ _ hs'
    have hp := hset s0 hs0
    simp only [hold, hp, zero_mul, add_zero, zero_add, Real.sqrt_zero, hdraw, cos_bearing,
      sin_bearing, hc, hs, hself, sub_zero]
    simp
  · -- gaussian
    refine ⟨forEachSample_length _ _ _, fun s hs' => ?_⟩
    obtain ⟨j, s0, hs0, rfl⟩ := forEachSample_mem _ _ _ _ hs'
    have hp := hset s0 hs0
    simp only [gaussianDrawArgs, hold, hp, zero_mul, add_zero, zero_add, Real.sqrt_zero, hdraw,
      cos_bearing, sin_bearing, hc, hs, hself, sub_zero]
    simp

/-- C1, witness: the diff model with all `alpha` zero moves 100 samples at `(0, 0, 0)` by the
delta `(1, 0, 0)` to `(1, 0, 0)`. -/
theorem updateAction_noise_free_witness :
    (updateAction ⟨.ODOM_MODEL_DIFF, 0, 0, 0, 0, 0⟩ (fun _ _ => 0) forwardSet
      forwardData).samples.length = 100 ∧
    ∀ s ∈ (updateAction ⟨.ODOM_MODEL_DIFF, 0, 0, 0, 0, 0⟩ (fun _ _ => 0) forwardSet
      forwardData).samples, s.pose.v0 = 1 ∧ s.pose.v1 = 0 ∧ s.pose.v2 = 0 := by
  have hsqrt : Real.sqrt ((0 : ℝ) * 0 + 1 * 1) = 1 := by norm_num
  have hnot : ¬ Real.sqrt ((0 : ℝ) * 0 + 1 * 1) < 0.01 := by rw [hsqrt]; norm_num
  have h := updateAction_noise_free ⟨.ODOM_MODEL_DIFF, 0, 0, 0, 0, 0⟩ (fun _ _ => 0) forwardSet
    forwardData ⟨0, 0, 0⟩ ⟨rfl, rfl, rfl, rfl, rfl⟩ (fun _ => rfl)
    (fun s hs => by rw [List.eq_of_mem_replicate hs])
    ⟨0, by simp [forwardData]⟩
    (fun _ => by simp only [forwardData]; rw [hsqrt]; norm_num)
  refine ⟨by rw [h.1]; simp [forwardSet], fun s hs => ?_⟩
  obtain ⟨hx, hy, -, -, -⟩ := h.2 s hs
  refine ⟨by rw [hx]; simp [forwardData], by rw [hy]; simp [forwardData], ?_⟩
  obtain ⟨j, s0, hs0, rfl⟩ := forEachSample_mem _ _ _ _ hs
  rw [List.eq_of_mem_replicate hs0]
  simp only [diffLocals, forwardData, pfVectorSub, if_neg hnot, sub_self, normalize_zero,
    atan2_zero_one, angleDiff_self_zero, add_zero]

/-- C1, counterexample: in the diff model with all `alpha` zero, a sample at `p = (0, 0, 0)`
and the delta `(0, 0.005, 0)` (odometry pose `p + delta`): the small-translation guard sets
`delta_rot1 = 0`, so the sample ends at `(0.005, 0, 0)` and not at `p + delta = (0, 0.005, 0)`. -/
theorem updateAction_noise_free_counterexample :
    ∃ s ∈ (updateAction ⟨.ODOM_MODEL_DIFF, 0, 0, 0, 0, 0⟩ (fun _ _ => 0)
        ⟨[⟨⟨0, 0, 0⟩, 1⟩], [], ⟨fun _ _ => 0⟩⟩
        ⟨⟨0, 0.005, 0⟩, ⟨0, 0.005, 0⟩, ⟨0, 0, 0⟩⟩).samples,
      s.pose.v0 = 0.005 ∧ s.pose.v1 = 0 ∧ s.pose.v2 = 0 ∧
      ¬ (s.pose.v0 = 0 + 0 ∧ s.pose.v1 = 0 + 0.005) := by
  have hsqrt : Real.sqrt ((0 : ℝ) * 0 + 0.005 * 0.005) = 0.005 := by
    rw [zero_mul, zero_add, Real.sqrt_mul_self (by norm_num)]
  have hsqrt' : Real.sqrt ((0.005 : ℝ) * 0.005 + 0 * 0) = 0.005 := by
    rw [mul_zero, add_zero, Real.sqrt_mul_self (by norm_num)]
  have hlt : Real.sqrt ((0.005 : ℝ) * 0.005 + 0 * 0) < 0.01 := by rw [hsqrt']; norm_num
  refine ⟨_, List.mem_singleton_self _, ?_⟩
  simp only [diffLocals, diffDrawArgs]
  rw [if_pos hlt, hsqrt]
  simp only [angleDiff_self_zero, add_zero, sub_zero,
    Real.cos_zero, Real.sin_zero, mul_one, mul_zero, zero_add]
  norm_num

theorem angleDiff_one_zero : angleDiff 1 0 = 1 :=
  angleDiff_zero_right_of_mem 1 (by linarith [Real.pi_pos]) (by linarith [Real.pi_gt_three])

theorem sqrt_guard_zero : Real.sqrt ((0 : ℝ) * 0 + 0 * 0) < 0.01 := by
  rw [mul_zero, add_zero, Real.sqrt_zero]; norm_num

/-- C2, counterexample: a sample with yaw `3` and an odometry yaw change of `1` (both in
`(-pi, pi]`), without noise: in each of the five variants the sample ends with yaw `4`, which
is greater than `pi`. -/
theorem updateAction_yaw_counterexample :
    (∃ s ∈ (turnResult .ODOM_MODEL_DIFF).samples, s.pose.v2 = 4 ∧ ¬ s.pose.v2 ≤ Real.pi) ∧
    (∃ s ∈ (turnResult .ODOM_MODEL_OMNI).samples, s.pose.v2 = 4 ∧ ¬ s.pose.v2 ≤ Real.pi) ∧
    (∃ s ∈ (turnResult .ODOM_MODEL_DIFF_CORRECTED).samples,
      s.pose.v2 = 4 ∧ ¬ s.pose.v2 ≤ Real.pi) ∧
    (∃ s ∈ (turnResult .ODOM_MODEL_OMNI_CORRECTED).samples,
      s.pose.v2 = 4 ∧ ¬ s.pose.v2 ≤ Real.pi) ∧
    (∃ s ∈ (turnResult .ODOM_MODEL_GAUSSIAN).samples,
      s.pose.v2 = 4 ∧ ¬ s.pose.v2 ≤ Real.pi) := by
  have h6 : ∀ y : ℝ, y = 4 → y = 4 ∧ ¬ y ≤ Real.pi := fun y hy =>
    ⟨hy, by rw [hy]; have := Real.pi_lt_d2; norm_num at this ⊢; linarith⟩
  refine ⟨⟨_, List.mem_singleton_self _, h6 _ ?_⟩, ⟨_, List.mem_singleton_self _, h6 _ ?_⟩,
    ⟨_, List.mem_singleton_self _, h6 _ ?_⟩, ⟨_, List.mem_singleton_self _, h6 _ ?_⟩,
    ⟨_, List.mem_singleton_self _, h6 _ ?_⟩⟩
  · simp only [diffLocals, turnData]
    rw [if_pos sqrt_guard_zero]
    simp only [angleDiff_self_zero, angleDiff_one_zero]
    norm_num
  · simp only [turnData]
    norm_num
  · simp only [diffLocals, turnData]
    rw [if_pos sqrt_guard_zero]
    simp only [angleDiff_self_zero, angleDiff_one_zero]
    norm_num
  · simp only [turnData]
    norm_num
  · simp only [turnData]
    norm_num

/-- C2 (amended): `updateAction` adds the rotation increment of the variant to the yaw of each
sample and does not re-normalize the sum.  For sample `i` the new yaw is the old yaw plus
`dyaw` plus one drawn value in the omni, omni-corrected and gaussian variants; in the diff and
diff-corrected variants it is the old yaw plus the sum of two `angleDiff` values, so it is
within `2 * pi` of the old yaw and lies in `(-3 * pi, 3 * pi]` when the old yaw is in
`(-pi, pi]`. -/
theorem updateAction_yaw_increment (o : Odom) (draw : Draw) (set : PFSampleSet)
    (ndata : OdomData) (i : ℕ) (s : PFSample) (hs : set.samples[i]? = some s) :
    ∃ s', (updateAction o draw set ndata).samples[i]? = some s' ∧
      (o.model_type_ = .ODOM_MODEL_OMNI ∨ o.model_type_ = .ODOM_MODEL_OMNI_CORRECTED →
        ∃ sigma, s'.pose.v2 = s.pose.v2 + (ndata.delta.v2 + draw (3 * i + 1) sigma)) ∧
      (o.model_type_ = .ODOM_MODEL_GAUSSIAN →
        ∃ sigma, s'.pose.v2 = s.pose.v2 + ndata.delta.v2 + draw (3 * i + 2) sigma) ∧
      (o.model_type_ = .ODOM_MODEL_DIFF ∨ o.model_type_ = .ODOM_MODEL_DIFF_CORRECTED →
        |s'.pose.v2 - s.pose.v2| ≤ 2 * Real.pi ∧
        (-Real.pi < s.pose.v2 ∧ s.pose.v2 ≤ Real.pi →
          -(3 * Real.pi) < s'.pose.v2 ∧ s'.pose.v2 ≤ 3 * Real.pi)) := by
  have hget : ∀ body, (forEachSample body 0 set.samples)[i]? = some (body i s) := by
    intro body
    rw [forEachSample_getElem?, hs, Nat.zero_add]
    rfl
  have hsum : ∀ y a b c d : ℝ, |y + (angleDiff a b + angleDiff c d) - y| ≤ 2 * Real.pi ∧
      (-Real.pi < y ∧ y ≤ Real.pi →
        -(3 * Real.pi) < y + (angleDiff a b + angleDiff c d) ∧
        y + (angleDiff a b + angleDiff c d) ≤ 3 * Real.pi) := by
    intro y a b c d
    have h1 := abs_le.mp (angleDiff_abs_le a b)
    have h2 := abs_le.mp (angleDiff_abs_le c d)
    refine ⟨?_, fun hy => ⟨by linarith [hy.1], by linarith [hy.2]⟩⟩
    rw [add_sub_cancel_left, abs_le]
    constructor <;> linarith
  obtain ⟨m, a1, a2, a3, a4, a5⟩ := o
  cases m
  · exact ⟨_, hget _, fun h => by simp at h, fun h => by simp at h, fun _ => hsum _ _ _ _ _⟩
  · exact ⟨_, hget _, fun _ => ⟨_, rfl⟩, fun h => by simp at h, fun h => by simp at h⟩
  · exact ⟨_, hget _, fun h => by simp at h, fun h => by simp at h, fun _ => hsum _ _ _ _ _⟩
  · exact ⟨_, hget _, fun _ => ⟨_, rfl⟩, fun h => by simp at h, fun h => by simp at h⟩
  · exact ⟨_, hget _, fun h => by simp at h, fun _ => ⟨_, rfl⟩, fun h => by simp at h⟩

/-- C2, witness: the yaw statement at the sample of the scenario "turn in place", diff model. -/
theorem updateAction_yaw_increment_witness :
    ∃ s', (turnResult .ODOM_MODEL_DIFF).samples[0]? = some s' ∧
      |s'.pose.v2 - 3| ≤ 2 * Real.pi ∧ -(3 * Real.pi) < s'.pose.v2 ∧
      s'.pose.v2 ≤ 3 * Real.pi := by
  obtain ⟨s', h1, -, -, h4⟩ := updateAction_yaw_increment ⟨.ODOM_MODEL_DIFF, 0, 0, 0, 0, 0⟩
    (fun _ _ => 0) turnSet turnData 0 ⟨⟨0, 0, 3⟩, 1⟩ rfl
  obtain ⟨h5, h6⟩ := h4 (Or.inl rfl)
  have hlo : -Real.pi < (3 : ℝ) := by linarith [Real.pi_pos]
  exact ⟨s', h1, h5, h6 ⟨hlo, Real.pi_gt_three.le⟩⟩

theorem diffLocals_small (ndata : OdomData) (old_pose : PFVector)
    (hsmall : Real.sqrt (ndata.delta.v0 * ndata.delta.v0 + ndata.delta.v1 * ndata.delta.v1)
      < 0.01) :
    diffLocals ndata old_pose =
      { delta_rot1 := 0
        delta_trans := Real.sqrt (ndata.delta.v0 * ndata.delta.v0 +
                                  ndata.delta.v1 * ndata.delta.v1)
        delta_rot2 := angleDiff ndata.delta.v2 0
        delta_rot1_noise := min |angleDiff 0 0| |angleDiff 0 Real.pi|
        delta_rot2_noise := min |angleDiff (angleDiff ndata.delta.v2 0) 0|
                                |angleDiff (angleDiff ndata.delta.v2 0) Real.pi| } := by
  have h : Real.sqrt (ndata.delta.v1 * ndata.delta.v1 + ndata.delta.v0 * ndata.delta.v0)
      < 0.01 := by rw [add_comm]; exact hsmall
  simp only [diffLocals]
  rw [if_pos h]

/-- C5: small-translation guard of the diff and diff-corrected variants.  For a delta with
`sqrt (dx^2 + dy^2) < 0.01`: `delta_rot1 = 0` and `delta_rot2 = angleDiff dyaw 0` for every old
pose; without noise (every drawn value is `0`, or `alpha1 = alpha2 = 0` with a draw that
returns `0` for the argument `0`) the yaw of each sample changes by exactly `delta_rot2`; and
the three draw arguments (of both variants) are the same for any other odometry input
with the same translation norm and the same `dyaw`, whatever its bearing and old pose. -/
theorem diff_small_translation_guard (o : Odom) (draw : Draw) (set : PFSampleSet)
    (ndata : OdomData)
    (hm : o.model_type_ = .ODOM_MODEL_DIFF ∨ o.model_type_ = .ODOM_MODEL_DIFF_CORRECTED)
    (hsmall : Real.sqrt (ndata.delta.v0 * ndata.delta.v0 + ndata.delta.v1 * ndata.delta.v1)
      < 0.01) :
    (∀ old_pose, (diffLocals ndata old_pose).delta_rot1 = 0 ∧
      (diffLocals ndata old_pose).delta_rot2 = angleDiff ndata.delta.v2 0) ∧
    ((∀ n x, draw n x = 0) → ∀ (i : ℕ) (s : PFSample), set.samples[i]? = some s →
      ∃ s', (updateAction o draw set ndata).samples[i]? = some s' ∧
        s'.pose.v2 = s.pose.v2 + angleDiff ndata.delta.v2 0) ∧
    (o.alpha1_ = 0 ∧ o.alpha2_ = 0 → (∀ n, draw n 0 = 0) →
      ∀ (i : ℕ) (s : PFSample), set.samples[i]? = some s →
      ∃ s', (updateAction o draw set ndata).samples[i]? = some s' ∧
        s'.pose.v2 = s.pose.v2 + angleDiff ndata.delta.v2 0) ∧
    (∀ (ndata' : OdomData) (old_pose old_pose' : PFVector),
      Real.sqrt (ndata'.delta.v0 * ndata'.delta.v0 + ndata'.delta.v1 * ndata'.delta.v1) =
        Real.sqrt (ndata.delta.v0 * ndata.delta.v0 + ndata.delta.v1 * ndata.delta.v1) →
      ndata'.delta.v2 = ndata.delta.v2 →
      diffDrawArgs o (diffLocals ndata' old_pose') = diffDrawArgs o (diffLocals ndata old_pose) ∧
      diffCorrectedDrawArgs o (diffLocals ndata' old_pose') =
        diffCorrectedDrawArgs o (diffLocals ndata old_pose)) := by
  refine ⟨fun old_pose => ?_, fun hdraw i s hs => ?_, fun halpha hdraw i s hs => ?_,
    fun ndata' old_pose old_pose' ht hy => ?_⟩
  · rw [diffLocals_small ndata old_pose hsmall]
    exact ⟨rfl, rfl⟩
  · have hget : ∀ body, (forEachSample body 0 set.samples)[i]? = some (body i s) := by
      intro body
      rw [forEachSample_getElem?, hs, Nat.zero_add]
      rfl
    obtain ⟨m, a1, a2, a3, a4, a5⟩ := o
    simp only at hm
    rcases hm with rfl | rfl
    · refine ⟨_, hget _, ?_⟩
      simp only [diffLocals_small ndata _ hsmall, hdraw, angleDiff_self_zero,
        angleDiff_zero_idem, zero_add]
    · refine ⟨_, hget _, ?_⟩
      simp only [diffLocals_small ndata _ hsmall, hdraw, angleDiff_self_zero,
        angleDiff_zero_idem, zero_add]
  · have hget : ∀ body, (forEachSample body 0 set.samples)[i]? = some (body i s) := by
      intro body
      rw [forEachSample_getElem?, hs, Nat.zero_add]
      rfl
    obtain ⟨m, a1, a2, a3, a4, a5⟩ := o
    obtain ⟨h1, h2⟩ := halpha
    simp only at hm h1 h2
    subst h1 h2
    rcases hm with rfl | rfl
    · refine ⟨_, hget _, ?_⟩
      simp only [diffLocals_small ndata _ hsmall, diffDrawArgs, zero_mul, add_zero, hdraw,
        angleDiff_self_zero, angleDiff_zero_idem, zero_add]
    · refine ⟨_, hget _, ?_⟩
      simp only [diffLocals_small ndata _ hsmall, diffCorrectedDrawArgs, zero_mul, add_zero,
        Real.sqrt_zero, hdraw, angleDiff_self_zero, angleDiff_zero_idem, zero_add]
  · have hsmall' : Real.sqrt (ndata'.delta.v0 * ndata'.delta.v0 +
        ndata'.delta.v1 * ndata'.delta.v1) < 0.01 := by rw [ht]; exact hsmall
    rw [diffLocals_small ndata old_pose hsmall, diffLocals_small ndata' old_pose' hsmall',
      ht, hy]
    exact ⟨rfl, rfl⟩

/-- C5, witness: a translation of norm `0.005` with `dyaw = 1.0` in the diff model gives
`delta_rot1 = 0` and, without noise, a yaw change of exactly `1.0` rad. -/
theorem diff_small_translation_guard_witness :
    (diffLocals smallData (pfVectorSub smallData.pose smallData.delta)).delta_rot1 = 0 ∧
    ∃ s', (updateAction ⟨.ODOM_MODEL_DIFF, 0.2, 0.2, 0.2, 0.2, 0.2⟩ (fun _ _ => 0) originSet
      smallData).samples[0]? = some s' ∧ s'.pose.v2 = 0 + 1 := by
  have hsmall : Real.sqrt (smallData.delta.v0 * smallData.delta.v0 +
      smallData.delta.v1 * smallData.delta.v1) < 0.01 := by
    rw [Real.sqrt_lt' (by norm_num)]
    simp only [smallData]
    norm_num
  have h := diff_small_translation_guard ⟨.ODOM_MODEL_DIFF, 0.2, 0.2, 0.2, 0.2, 0.2⟩
    (fun _ _ => 0) originSet smallData (Or.inl rfl) hsmall
  have h1 : angleDiff (1.0 : ℝ) 0 = 1 := by
    have e : (1.0 : ℝ) = 1 := by norm_num
    rw [e]
    exact angleDiff_zero_right_of_mem 1 (by linarith [Real.pi_pos])
      (by linarith [Real.pi_gt_three])
  refine ⟨(h.1 _).1, ?_⟩
  obtain ⟨s', hs', hyaw⟩ := h.2.1 (fun _ _ => rfl) 0 ⟨⟨0, 0, 0⟩, 1⟩ rfl
  refine ⟨s', hs', ?_⟩
  rw [hyaw]
  simp only [smallData, h1]

/-- C6: the corrected variants are the uncorrected ones with a square root on the argument of
every draw: for every draw function `g`, all `alpha` values, every odometry input and every
sample set, diff-corrected run with `g` gives the same sample set as diff run with
`x -> g (sqrt x)`, and omni-corrected run with `g` the same as omni run with
`x -> g (sqrt x)`. -/
theorem corrected_is_sqrt_of_uncorrected (o : Odom) (g : Draw) (set : PFSampleSet)
    (ndata : OdomData) :
    updateAction { o with model_type_ := .ODOM_MODEL_DIFF_CORRECTED } g set ndata =
      updateAction { o with model_type_ := .ODOM_MODEL_DIFF }
        (fun n x => g n (Real.sqrt x)) set ndata ∧
    updateAction { o with model_type_ := .ODOM_MODEL_OMNI_CORRECTED } g set ndata =
      updateAction { o with model_type_ := .ODOM_MODEL_OMNI }
        (fun n x => g n (Real.sqrt x)) set ndata :=
  ⟨rfl, rfl⟩

/-- C7: the gaussian variant.  The three draw arguments are
`sqrt (a3 t^2 + a4 r^2)` (translation), `sqrt (a4 r^2 + a5 s^2)` (strafe) and
`sqrt (a1 r^2 + a2 t^2)` (rotation) with `(t, s, r) = absolute_motion`, and do not change
when the odometry pose and delta are replaced; sample `i` receives the nominal motion
`(delta_trans cos b, delta_trans sin b, dyaw)`, `b = angleDiff (atan2 dy dx) old_yaw + yaw`,
plus the drawn translation and strafe noise along `heading = yaw + dyaw / 2` and its
perpendicular and the drawn rotation noise; with `absolute_motion = (0, 0, 0)` and a draw that
returns `0` for the argument `0` it receives exactly the nominal motion, for any `alpha`. -/
theorem gaussian_noise_from_absolute_motion (o : Odom) (draw : Draw) (set : PFSampleSet)
    (ndata : OdomData) (i : ℕ) (s : PFSample)
    (hm : o.model_type_ = .ODOM_MODEL_GAUSSIAN) (hs : set.samples[i]? = some s) :
    let t := ndata.absolute_motion.v0
    let st := ndata.absolute_motion.v1
    let r := ndata.absolute_motion.v2
    let delta_trans := Real.sqrt (ndata.delta.v0 * ndata.delta.v0 +
                                  ndata.delta.v1 * ndata.delta.v1)
    let b := angleDiff (atan2 ndata.delta.v1 ndata.delta.v0)
               (pfVectorSub ndata.pose ndata.delta).v2 + s.pose.v2
    let heading := s.pose.v2 + ndata.delta.v2 / 2
    let n_trans := draw (3 * i) (Real.sqrt (o.alpha3_ * (t * t) + o.alpha4_ * (r * r)))
    let n_strafe := draw (3 * i + 1) (Real.sqrt (o.alpha4_ * (r * r) + o.alpha5_ * (st * st)))
    let n_rot := draw (3 * i + 2) (Real.sqrt (o.alpha1_ * (r * r) + o.alpha2_ * (t * t)))
    gaussianDrawArgs o ndata =
      (Real.sqrt (o.alpha3_ * (t * t) + o.alpha4_ * (r * r)),
       Real.sqrt (o.alpha4_ * (r * r) + o.alpha5_ * (st * st)),
       Real.sqrt (o.alpha1_ * (r * r) + o.alpha2_ * (t * t))) ∧
    (∀ pose' delta' : PFVector,
      gaussianDrawArgs o { ndata with pose := pose', delta := delta' } =
        gaussianDrawArgs o ndata) ∧
    ∃ s', (updateAction o draw set ndata).samples[i]? = some s' ∧
      s'.pose.v0 = s.pose.v0 + delta_trans * Real.cos b +
        (n_trans * Real.cos heading + n_strafe * Real.sin heading) ∧
      s'.pose.v1 = s.pose.v1 + delta_trans * Real.sin b +
        (n_trans * Real.sin heading - n_strafe * Real.cos heading) ∧
      s'.pose.v2 = s.pose.v2 + ndata.delta.v2 + n_rot ∧
      (ndata.absolute_motion.v0 = 0 ∧ ndata.absolute_motion.v1 = 0 ∧
          ndata.absolute_motion.v2 = 0 → (∀ n, draw n 0 = 0) →
        s'.pose.v0 = s.pose.v0 + delta_trans * Real.cos b ∧
        s'.pose.v1 = s.pose.v1 + delta_trans * Real.sin b ∧
        s'.pose.v2 = s.pose.v2 + ndata.delta.v2) := by
  intro t st r delta_trans b heading n_trans n_strafe n_rot
  have hget : ∀ body, (forEachSample body 0 set.samples)[i]? = some (body i s) := by
    intro body
    rw [forEachSample_getElem?, hs, Nat.zero_add]
    rfl
  obtain ⟨m, a1, a2, a3, a4, a5⟩ := o
  simp only at hm
  subst hm
  refine ⟨rfl, fun _ _ => rfl, _, hget _, rfl, rfl, rfl, ?_⟩
  rintro ⟨h0, h1, h2⟩ hdraw
  simp only [gaussianDrawArgs, h0, h1, h2, mul_zero, add_zero, Real.sqrt_zero, hdraw, zero_mul,
    sub_zero, and_self]

/-- C7, witness: the gaussian model with all `alpha = 0.2`, a draw that returns its own
argument and `absolute_motion = (0, 0, 0)` moves a sample at the origin by the delta
`(1, 0, 0)` to yaw `0 + 0`, the nominal yaw. -/
theorem gaussian_noise_from_absolute_motion_witness :
    ∃ s', (updateAction ⟨.ODOM_MODEL_GAUSSIAN, 0.2, 0.2, 0.2, 0.2, 0.2⟩ (fun _ x => x)
      originSet forwardData).samples[0]? = some s' ∧ s'.pose.v2 = 0 + 0 := by
  obtain ⟨-, -, s', hs', -, -, -, h⟩ := gaussian_noise_from_absolute_motion
    ⟨.ODOM_MODEL_GAUSSIAN, 0.2, 0.2, 0.2, 0.2, 0.2⟩ (fun _ x => x) originSet forwardData 0
    ⟨⟨0, 0, 0⟩, 1⟩ rfl rfl
  exact ⟨s', hs', (h ⟨rfl, rfl, rfl⟩ (fun _ => rfl)).2.2⟩

/-! ## Facts about the hypothesis loop -/

theorem hypLoop_append (set : PFSampleSet) (l1 l2 : List ℕ) (acc : HypScan)
    (h : ∀ i ∈ l1, i < set.clusters.length) :
    hypLoop set (l1 ++ l2) acc = hypLoop set l2 (hypLoop set l1 acc) := by
  induction l1 generalizing acc with
  | nil => rfl
  | cons i rest ih =>
    have hi : i < set.clusters.length := h i (List.mem_cons_self _ _)
    have hrest : ∀ j ∈ rest, j < set.clusters.length :=
      fun j hj => h j (List.mem_cons_of_mem _ hj)
    have hget : get_cluster_stats set i = some set.clusters[i] := by
      simp [get_cluster_stats, List.getElem?_eq_getElem hi]
    simp only [List.cons_append, hypLoop, hget]
    split_ifs
    · exact ih _ hrest
    · exact ih _ hrest

theorem hypLoop_single (set : PFSampleSet) (n : ℕ) (c : PFCluster) (acc : HypScan)
    (hc : set.clusters[n]? = some c) :
    hypLoop set [n] acc =
      if c.weight > acc.max_weight then
        { max_weight := c.weight, max_weight_hyp := n, hyps := acc.hyps ++ [toHyp c] }
      else { acc with hyps := acc.hyps ++ [toHyp c] } := by
  have hget : get_cluster_stats set n = some c := hc
  simp only [hypLoop, hget, toHyp]

/-- Invariant of the hypothesis loop after the first `n` clusters. -/
theorem hypLoop_invariant (set : PFSampleSet) (n : ℕ) (hn : n ≤ set.clusters.length) :
    let acc := hypLoop set (List.range n) { max_weight := 0, max_weight_hyp := -1, hyps := [] }
    acc.hyps = (set.clusters.take n).map toHyp ∧
    0 ≤ acc.max_weight ∧
    (∀ j c, j < n → set.clusters[j]? = some c → c.weight ≤ acc.max_weight) ∧
    ((acc.max_weight_hyp = -1 ∧ acc.max_weight = 0) ∨
      ∃ k c, k < n ∧ acc.max_weight_hyp = (k : Int) ∧ set.clusters[k]? = some c ∧
        c.weight = acc.max_weight ∧ 0 < acc.max_weight ∧
        ∀ j c', j < k → set.clusters[j]? = some c' → c'.weight < acc.max_weight) := by
  induction n with
  | zero =>
    exact ⟨rfl, le_refl _, fun j c hj => absurd hj (Nat.not_lt_zero j), Or.inl ⟨rfl, rfl⟩⟩
  | succ n ih =>
    have hlt : n < set.clusters.length := hn
    obtain ⟨ih1, ih2, ih3, ih4⟩ := ih (Nat.le_of_lt hlt)
    have hc : set.clusters[n]? = some set.clusters[n] := List.getElem?_eq_getElem hlt
    have hrange : ∀ i ∈ List.range n, i < set.clusters.length :=
      fun i hi => lt_trans (List.mem_range.mp hi) hlt
    have htake : (set.clusters.take (n + 1)).map toHyp =
        (set.clusters.take n).map toHyp ++ [toHyp set.clusters[n]] := by
      rw [List.take_succ, hc]
      simp only [Option.toList, List.map_append, List.map_cons, List.map_nil]
    simp only [List.range_succ]
    rw [hypLoop_append set _ _ _ hrange, hypLoop_single set n _ _ hc]
    generalize hypLoop set (List.range n) { max_weight := 0, max_weight_hyp := -1, hyps := [] }
      = acc at ih1 ih2 ih3 ih4
    have hold : ∀ j c, j < n + 1 → set.clusters[j]? = some c →
        j < n ∨ (j = n ∧ c = set.clusters[n]) := by
      intro j c hj hjc
      rcases Nat.lt_succ_iff_lt_or_eq.mp hj with h | h
      · exact Or.inl h
      · subst h
        rw [hc] at hjc
        exact Or.inr ⟨rfl, (Option.some.inj hjc).symm⟩
    by_cases hgt : set.clusters[n].weight > acc.max_weight
    · rw [if_pos hgt]
      refine ⟨by rw [htake, ih1], le_trans ih2 hgt.le, ?_, Or.inr ?_⟩
      · intro j c hj hjc
        rcases hold j c hj hjc with h | ⟨_, h⟩
        · exact le_trans (ih3 j c h hjc) hgt.le
        · rw [h]
      · refine ⟨n, set.clusters[n], Nat.lt_succ_self n, rfl, hc, rfl, lt_of_le_of_lt ih2 hgt, ?_⟩
        intro j c' hj hjc
        exact lt_of_le_of_lt (ih3 j c' hj hjc) hgt
    · rw [if_neg hgt]
      have hle : set.clusters[n].weight ≤ acc.max_weight := not_lt.mp hgt
      refine ⟨by rw [htake, ih1], ih2, ?_, ?_⟩
      · intro j c hj hjc
        rcases hold j c hj hjc with h | ⟨_, h⟩
        · exact ih3 j c h hjc
        · rw [h]; exact hle
      · rcases ih4 with h | ⟨k, c, hk, h1, h2, h3, h4, h5⟩
        · exact Or.inl h
        · exact Or.inr ⟨k, c, Nat.lt_succ_of_lt hk, h1, h2, h3, h4, h5⟩

theorem readHypotheses_spec (set : PFSampleSet) :
    (readHypotheses set).hyps = set.clusters.map toHyp ∧
    0 ≤ (readHypotheses set).max_weight ∧
    (∀ c ∈ set.clusters, c.weight ≤ (readHypotheses set).max_weight) ∧
    (((readHypotheses set).max_weight_hyp = -1 ∧ (readHypotheses set).max_weight = 0) ∨
      ∃ (k : ℕ) (c : PFCluster), (readHypotheses set).max_weight_hyp = (k : Int) ∧
        set.clusters[k]? = some c ∧
        c.weight = (readHypotheses set).max_weight ∧ 0 < (readHypotheses set).max_weight ∧
        ∀ (j : ℕ) (c' : PFCluster), j < k → set.clusters[j]? = some c' →
          c'.weight < (readHypotheses set).max_weight) := by
  obtain ⟨h1, h2, h3, h4⟩ := hypLoop_invariant set set.clusters.length le_rfl
  refine ⟨?_, h2, ?_, ?_⟩
  · rw [List.take_length] at h1
    exact h1
  · intro c hc
    obtain ⟨j, hj, e⟩ := List.getElem_of_mem hc
    exact h3 j c hj (by rw [List.getElem?_eq_getElem hj, e])
  · rcases h4 with h | ⟨k, c, _, h5, h6, h7, h8, h9⟩
    · exact Or.inl h
    · exact Or.inr ⟨k, c, h5, h6, h7, h8, h9⟩

theorem publishStep_of_pos (st : PublishState) (set : PFSampleSet)
    (resampled force_publication : Bool) (base_to_odom : Option Transform)
    (h : (resampled || force_publication) = true) (hw : ∃ c ∈ set.clusters, 0 < c.weight) :
    ∃ (k : ℕ) (c : PFCluster), set.clusters[k]? = some c ∧ 0 < c.weight ∧
      (∀ c' ∈ set.clusters, c'.weight ≤ c.weight) ∧
      (∀ (j : ℕ) (c' : PFCluster), j < k → set.clusters[j]? = some c' → c'.weight < c.weight) ∧
      publishStep st set resampled force_publication base_to_odom =
        match base_to_odom with
        | none => ({ st with last_published_pose := some (poseMsgOf c set) },
            some (poseMsgOf c set))
        | some tr =>
          ({ latest_tf_ := odomToMap c.mean tr
             latest_tf_valid_ := true
             last_published_pose := some (poseMsgOf c set) }, some (poseMsgOf c set)) := by
  obtain ⟨h1, _, h3, h4⟩ := readHypotheses_spec set
  obtain ⟨c0, hc0, hpos0⟩ := hw
  have hpos : (readHypotheses set).max_weight > 0 := lt_of_lt_of_le hpos0 (h3 c0 hc0)
  rcases h4 with ⟨_, hz⟩ | ⟨k, c, hk, hc, hwc, _, hfirst⟩
  · rw [hz] at hpos
    exact absurd hpos (lt_irrefl _)
  · refine ⟨k, c, hc, by rw [hwc]; exact hpos, fun c' hc' => by rw [hwc]; exact h3 c' hc',
      fun j c' hj hjc => by rw [hwc]; exact hfirst j c' hj hjc, ?_⟩
    have hlook : (readHypotheses set).hyps[(readHypotheses set).max_weight_hyp.toNat]? =
        some (toHyp c) := by
      rw [hk, h1, Int.toNat_ofNat, List.getElem?_map, hc]
      rfl
    unfold publishStep
    rw [if_pos h]
    simp only
    rw [if_pos hpos]
    simp only [hlook]
    cases base_to_odom <;> rfl

theorem publishStep_of_nonpos (st : PublishState) (set : PFSampleSet)
    (resampled force_publication : Bool) (base_to_odom : Option Transform)
    (hw : ¬ ∃ c ∈ set.clusters, 0 < c.weight) :
    publishStep st set resampled force_publication base_to_odom = (st, none) := by
  obtain ⟨_, _, _, h4⟩ := readHypotheses_spec set
  have hnot : ¬ (readHypotheses set).max_weight > 0 := by
    rcases h4 with ⟨_, hz⟩ | ⟨k, c, _, hc, hwc, hpos, _⟩
    · rw [hz]; exact lt_irrefl _
    · exact absurd ⟨c, List.getElem?_mem hc, by rw [hwc]; exact hpos⟩ hw
  unfold publishStep
  by_cases h : (resampled || force_publication) = true
  · rw [if_pos h]
    simp only
    rw [if_neg hnot]
  · rw [if_neg h]

/-! ## Claims about the scan step -/

/-- C8: with 50 points in the cloud and `max_beams = 30` the step is `49 / 29 = 1`, so the
loop copies all 50 points, more than `max_beams`. -/
theorem samplePointCloud_exceeds_max_beams :
    lidarStep 50 30 = 1 ∧
    samplePointCloud (List.range 50) 30 = some (List.range 50) ∧
    ¬ (List.range 50).length ≤ 30 := by
  decide

theorem inverse_odomToMap_mul (M O : PFVector) :
    ((odomToMap M (poseToTransform O)).inverse).mul (poseToTransform O) = poseToTransform M := by
  have hO := Real.cos_sq_add_sin_sq O.v2
  have hM := Real.cos_sq_add_sin_sq M.v2
  simp only [odomToMap, poseToTransform, Transform.mul, Transform.inverse, Transform.mk.injEq]
  refine ⟨?_, ?_, ?_, ?_, ?_, ?_⟩
  · linear_combination Real.cos M.v2 * hO
  · linear_combination -Real.sin M.v2 * hO
  · linear_combination Real.sin M.v2 * hO
  · linear_combination Real.cos M.v2 * hO
  · linear_combination M.v0 * (Real.cos O.v2 ^ 2 + Real.sin O.v2 ^ 2) * hM + M.v0 * hO
  · linear_combination M.v1 * (Real.cos O.v2 ^ 2 + Real.sin O.v2 ^ 2) * hM + M.v1 * hO

/-- C9: map->odom correction over exact planar rigid transforms.  In a scan step that
publishes (it resampled or was forced, and some cluster has positive weight) and finds the
odometry pose `O` of the base for the scan stamp, the chosen cluster `c` has the greatest
weight, the step stores `latest_tf_ = O * M^-1` with `M` the transform of the mean of `c`, and
the transform `T = latest_tf_^-1` that `publishTransform` sends as map->odom satisfies
`T * O = M`. -/
theorem map_odom_correction (st : PublishState) (set : PFSampleSet)
    (resampled force_publication : Bool) (O : PFVector)
    (h : (resampled || force_publication) = true) (hw : ∃ c ∈ set.clusters, 0 < c.weight) :
    ∃ c ∈ set.clusters, (∀ c' ∈ set.clusters, c'.weight ≤ c.weight) ∧
      (publishStep st set resampled force_publication (some (poseToTransform O))).1.latest_tf_ =
        (poseToTransform O).mul (poseToTransform c.mean).inverse ∧
      (publishStep st set resampled force_publication
        (some (poseToTransform O))).1.latest_tf_valid_ = true ∧
      ∃ T, publishTransform true
          (publishStep st set resampled force_publication
            (some (poseToTransform O))).1.latest_tf_valid_ false
          (publishStep st set resampled force_publication
            (some (poseToTransform O))).1.latest_tf_ = some T ∧
        T = ((poseToTransform O).mul (poseToTransform c.mean).inverse).inverse ∧
        T.mul (poseToTransform O) = poseToTransform c.mean := by
  obtain ⟨k, c, hc, _, hmax, _, e⟩ :=
    publishStep_of_pos st set resampled force_publication (some (poseToTransform O)) h hw
  rw [e]
  refine ⟨c, List.getElem?_mem hc, hmax, rfl, rfl, _, rfl, rfl, ?_⟩
  exact inverse_odomToMap_mul c.mean O

/-- C9, witness: cluster mean `M = (1, 2, pi / 2)` and odometry pose `O = (0.1, 0.2, 0.0)`. -/
theorem map_odom_correction_witness :
    ∃ T, publishTransform true
        (publishStep noTfState mathSet true false
          (some (poseToTransform ⟨0.1, 0.2, 0.0⟩))).1.latest_tf_valid_ false
        (publishStep noTfState mathSet true false
          (some (poseToTransform ⟨0.1, 0.2, 0.0⟩))).1.latest_tf_ = some T ∧
      T.mul (poseToTransform ⟨0.1, 0.2, 0.0⟩) = poseToTransform ⟨1, 2, Real.pi / 2⟩ := by
  obtain ⟨c, hc, -, -, -, T, hT, -, hmul⟩ := map_odom_correction noTfState mathSet true false
    ⟨0.1, 0.2, 0.0⟩ rfl ⟨_, List.mem_singleton_self _, by norm_num⟩
  rw [List.mem_singleton.mp hc] at hmul
  exact ⟨T, hT, hmul⟩

/-- C10: when a scan step has resampled or is forced to publish, a pose is published iff some
cluster has a weight `> 0`; the published position and yaw are the mean of a cluster of
greatest weight, the one of lowest index among them; the covariance entries come from the
covariance of the whole set; and with zero clusters nothing is published and the state
(`latest_tf_` included) is left unchanged. -/
theorem publishStep_highest_weight_cluster (st : PublishState) (set : PFSampleSet)
    (resampled force_publication : Bool) (base_to_odom : Option Transform)
    (h : (resampled || force_publication) = true) :
    (((publishStep st set resampled force_publication base_to_odom).2).isSome = true ↔
      ∃ c ∈ set.clusters, 0 < c.weight) ∧
    (∀ p, (publishStep st set resampled force_publication base_to_odom).2 = some p →
      ∃ (k : ℕ) (c : PFCluster), set.clusters[k]? = some c ∧
        p.position_x = c.mean.v0 ∧ p.position_y = c.mean.v1 ∧ p.yaw = c.mean.v2 ∧
        (∀ c' ∈ set.clusters, c'.weight ≤ c.weight) ∧
        (∀ (j : ℕ) (c' : PFCluster), j < k → set.clusters[j]? = some c' →
          c'.weight < c.weight) ∧
        p.covariance = poseCovariance set.cov ∧
        p.covariance 0 = set.cov.m 0 0 ∧ p.covariance 1 = set.cov.m 0 1 ∧
        p.covariance 6 = set.cov.m 1 0 ∧ p.covariance 7 = set.cov.m 1 1 ∧
        p.covariance 35 = set.cov.m 2 2) ∧
    (set.clusters = [] →
      (publishStep st set resampled force_publication base_to_odom).2 = none ∧
      (publishStep st set resampled force_publication base_to_odom).1 = st) := by
  by_cases hw : ∃ c ∈ set.clusters, 0 < c.weight
  · obtain ⟨k, c, hc, _, hmax, hfirst, e⟩ :=
      publishStep_of_pos st set resampled force_publication base_to_odom h hw
    have hsnd : (publishStep st set resampled force_publication base_to_odom).2 =
        some (poseMsgOf c set) := by
      rw [e]; cases base_to_odom <;> rfl
    refine ⟨⟨fun _ => hw, fun _ => by rw [hsnd]; rfl⟩, fun p hp => ?_, fun hnil => ?_⟩
    · rw [hsnd] at hp
      have hp' : poseMsgOf c set = p := Option.some.inj hp
      subst hp'
      refine ⟨k, c, hc, rfl, rfl, rfl, hmax, hfirst, rfl, ?_, ?_, ?_, ?_, ?_⟩ <;>
        simp [poseMsgOf, poseCovariance, Function.update]
    · obtain ⟨c0, hc0, _⟩ := hw
      rw [hnil] at hc0
      exact absurd hc0 (List.not_mem_nil _)
  · have e := publishStep_of_nonpos st set resampled force_publication base_to_odom hw
    rw [e]
    refine ⟨⟨fun hsome => by simp at hsome, fun hex => absurd hex hw⟩, fun p hp => by simp at hp,
      fun _ => ⟨rfl, rfl⟩⟩

/-- C10, witness: a forced publication on the set of the scenario "map->odom math" publishes
the mean of its only cluster. -/
theorem publishStep_highest_weight_cluster_witness :
    ((publishStep noTfState mathSet false true none).2).isSome = true ∧
    ∀ p, (publishStep noTfState mathSet false true none).2 = some p →
      p.position_x = 1 ∧ p.position_y = 2 ∧ p.yaw = Real.pi / 2 := by
  have h := publishStep_highest_weight_cluster noTfState mathSet false true none rfl
  refine ⟨h.1.mpr ⟨_, List.mem_singleton_self _, by norm_num⟩, fun p hp => ?_⟩
  obtain ⟨k, c, hc, hx, hy, hyaw, -⟩ := h.2.1 p hp
  have hmem : c ∈ mathSet.clusters := List.getElem?_mem hc
  rw [List.mem_singleton.mp hmem] at hx hy hyaw
  exact ⟨hx, hy, hyaw⟩

/-! ## Facts about the scan step -/

/-- The three ways through `lidarReceived`: no map; a failed transform lookup after the reset
of the decay rates and the scanner lookup; or the rest of the step, `scanUpdate`. -/
theorem lidarReceived_inv (ext : External) (st : Node) (sc : ScanInput) :
    (st.map_ = false ∧ lidarReceived ext st sc = (st, ScanReport.drop)) ∨
    (st.map_ = true ∧
      lidarReceived ext st sc =
        ((lookupLidar (resetDecayRates st) sc.frame_id sc.lidar_pose_ok).1, ScanReport.drop)) ∨
    (∃ (lidar_index : ℕ) (pose : PFVector), st.map_ = true ∧
      (lookupLidar (resetDecayRates st) sc.frame_id sc.lidar_pose_ok).2 = some lidar_index ∧
      sc.odom_pose = some pose ∧
      lidarReceived ext st sc =
        scanUpdate ext (lookupLidar (resetDecayRates st) sc.frame_id sc.lidar_pose_ok).1 sc
          lidar_index pose) := by
  unfold lidarReceived
  by_cases hmap : st.map_ = true
  · right
    simp only [hmap, Bool.not_true, Bool.false_eq_true, if_false]
    rcases hl : lookupLidar (resetDecayRates st) sc.frame_id sc.lidar_pose_ok with
      ⟨st1, _ | lidar_index⟩
    · left
      exact ⟨trivial, rfl⟩
    · cases hp : sc.odom_pose with
      | none => left; exact ⟨trivial, rfl⟩
      | some pose => right; exact ⟨lidar_index, pose, trivial, rfl, rfl, rfl⟩
  · left
    have hf : st.map_ = false := by simpa using hmap
    exact ⟨hf, by simp [hf]⟩

theorem poseCovariance_entries (cov : PFMatrix) :
    poseCovariance cov 0 = cov.m 0 0 ∧ poseCovariance cov 1 = cov.m 0 1 ∧
    poseCovariance cov 6 = cov.m 1 0 ∧ poseCovariance cov 7 = cov.m 1 1 ∧
    poseCovariance cov 35 = cov.m 2 2 ∧
    ∀ k : Fin 36, k ≠ 0 → k ≠ 1 → k ≠ 6 → k ≠ 7 → k ≠ 35 → poseCovariance cov k = 0 := by
  refine ⟨?_, ?_, ?_, ?_, ?_, ?_⟩
  · simp [poseCovariance, Function.update]
  · simp [poseCovariance, Function.update]
  · simp [poseCovariance, Function.update]
  · simp [poseCovariance, Function.update]
  · simp [poseCovariance, Function.update]
  · intro k h0 h1 h6 h7 h35
    have e0 : (6 * 0 + 0 : Fin 36) = 0 := by decide
    have e1 : (6 * 0 + 1 : Fin 36) = 1 := by decide
    have e6 : (6 * 1 + 0 : Fin 36) = 6 := by decide
    have e7 : (6 * 1 + 1 : Fin 36) = 7 := by decide
    have e35 : (6 * 5 + 5 : Fin 36) = 35 := by decide
    simp only [poseCovariance, e0, e1, e6, e7, e35]
    rw [Function.update_noteq h35, Function.update_noteq h7, Function.update_noteq h6,
      Function.update_noteq h1, Function.update_noteq h0]

theorem publishStep_snd_covariance (st : PublishState) (set : PFSampleSet)
    (resampled force_publication : Bool) (base_to_odom : Option Transform) (p : PoseMsg)
    (h : (publishStep st set resampled force_publication base_to_odom).2 = some p) :
    p.covariance = poseCovariance set.cov := by
  by_cases hw : ∃ c ∈ set.clusters, 0 < c.weight
  · by_cases hr : (resampled || force_publication) = true
    · obtain ⟨k, c, _, _, _, _, e⟩ :=
        publishStep_of_pos st set resampled force_publication base_to_odom hr hw
      rw [e] at h
      cases base_to_odom <;>
        · simp only [Option.some.injEq] at h
          rw [← h]
          rfl
    · unfold publishStep at h
      rw [if_neg hr] at h
      exact absurd h (by simp)
  · rw [publishStep_of_nonpos st set resampled force_publication base_to_odom hw] at h
    exact absurd h (by simp)

theorem scanUpdate_published (ext : External) (st : Node) (sc : ScanInput) (lidar_index : ℕ)
    (pose : PFVector) (p : PoseMsg)
    (h : (scanUpdate ext st sc lidar_index pose).2.published = some p) :
    p.covariance = poseCovariance (scanUpdate ext st sc lidar_index pose).1.pf_.set.cov := by
  unfold scanUpdate at h ⊢
  simp only at h ⊢
  exact publishStep_snd_covariance _ _ _ _ _ p h

theorem lidarReceived_published (ext : External) (st : Node) (sc : ScanInput) (p : PoseMsg)
    (h : (lidarReceived ext st sc).2.published = some p) :
    p.covariance = poseCovariance (lidarReceived ext st sc).1.pf_.set.cov := by
  rcases lidarReceived_inv ext st sc with ⟨_, e⟩ | ⟨_, e⟩ | ⟨lidar_index, pose, _, _, _, e⟩
  · rw [e] at h; exact absurd h (by simp [ScanReport.drop])
  · rw [e] at h; exact absurd h (by simp [ScanReport.drop])
  · rw [e] at h ⊢
    exact scanUpdate_published ext _ sc lidar_index pose p h

theorem mapM_option_some {α β : Type} (f : α → Option β) (l : List α)
    (h : ∀ x ∈ l, ∃ y, f x = some y) : ∃ ys, l.mapM f = some ys := by
  induction l with
  | nil => exact ⟨[], rfl⟩
  | cons a rest ih =>
    obtain ⟨y, hy⟩ := h a (List.mem_cons_self _ _)
    obtain ⟨ys, hys⟩ := ih (fun x hx => h x (List.mem_cons_of_mem _ hx))
    exact ⟨y :: ys, by rw [List.mapM_cons, hy, hys]; rfl⟩

theorem sampleLoop_mem (data_count step : Int) (hstep : 0 ≤ step) (fuel : ℕ) (i : Int)
    (hi : 0 ≤ i) : ∀ j ∈ sampleLoop data_count step fuel i, 0 ≤ j ∧ j < data_count := by
  induction fuel generalizing i with
  | zero => intro j hj; simp [sampleLoop] at hj
  | succ fuel ih =>
    intro j hj
    simp only [sampleLoop] at hj
    split_ifs at hj with hlt
    · rcases List.mem_cons.mp hj with rfl | hj'
      · exact ⟨hi, hlt⟩
      · exact ih (i + step) (by omega) j hj'
    · simp at hj

theorem lidarStep_pos (data_count max_beams : Int) : 1 ≤ lidarStep data_count max_beams := by
  unfold lidarStep
  exact le_max_right _ _

/-- The reads `point_cloud->at(i)` of the sampling loop are all in range. -/
theorem samplePointCloud_some (point_cloud : List PointXYZ) (max_beams : Int) :
    ∃ points, samplePointCloud point_cloud max_beams = some points := by
  unfold samplePointCloud
  apply mapM_option_some
  intro i hi
  have hstep := lidarStep_pos (point_cloud.length : Int) max_beams
  obtain ⟨h0, h1⟩ := sampleLoop_mem _ _ (by omega) _ 0 le_rfl i hi
  have hlt : i.toNat < point_cloud.length := by omega
  exact ⟨point_cloud[i.toNat], List.getElem?_eq_getElem hlt⟩

theorem samplePointCloud_nil (max_beams : Int) :
    samplePointCloud ([] : List PointXYZ) max_beams = some [] := by
  simp [samplePointCloud, sampledIndices, sampleLoop]; rfl

theorem corr_lidarReceived :
    (lidarReceived plainExternal corrNode firstScan).2.published =
      (publishStep corrNode.pub corrSet false true none).2 ∧
    (lidarReceived plainExternal corrNode firstScan).1.pf_.set = corrSet := by
  have hs : samplePointCloud ([] : List PointXYZ) 256 = some [] := samplePointCloud_nil _
  have ht : Int.tmod 1 2 ≠ 0 := by decide
  simp [lidarReceived, scanUpdate, corrNode, firstScan, resetDecayRates, lookupLidar,
    decideUpdate, motionUpdate, sensorUpdate, plainExternal, hs, ht]

theorem corr_published :
    ∃ p, (lidarReceived plainExternal corrNode firstScan).2.published = some p ∧
      p.covariance = poseCovariance corrSet.cov := by
  have hw : ∃ c ∈ corrSet.clusters, 0 < c.weight :=
    ⟨_, List.mem_singleton_self _, by norm_num⟩
  obtain ⟨k, c, _, _, _, _, e⟩ := publishStep_of_pos corrNode.pub corrSet false true none rfl hw
  exact ⟨poseMsgOf c corrSet, by rw [corr_lidarReceived.1, e], rfl⟩

/-! ## Claims about the published covariance -/

/-- C11, counterexample: a sample set with `cov(x, y) = 0.5`: the pose published by the first
scan step has the covariance entry `0.5` at the flat index `1`, which is not one of
`0, 7, 35`. -/
theorem published_covariance_counterexample :
    ∃ p, (lidarReceived plainExternal corrNode firstScan).2.published = some p ∧
      p.covariance 1 = 0.5 ∧ p.covariance 1 ≠ 0 := by
  obtain ⟨p, hp, hcov⟩ := corr_published
  have h1 : p.covariance 1 = 0.5 := by
    rw [hcov, (poseCovariance_entries corrSet.cov).2.1]
    simp [corrSet]
  exact ⟨p, hp, h1, by rw [h1]; norm_num⟩

/-- C11 (amended): in every pose published by the scan step the covariance is zero outside the
flat indices `0, 1, 6, 7, 35`; the entries `0, 1, 6, 7` hold the x-y block
`m[0][0], m[0][1], m[1][0], m[1][1]` of the covariance of the sample set and the entry `35`
holds its yaw variance `m[2][2]`. -/
theorem published_covariance_entries (ext : External) (st : Node) (sc : ScanInput)
    (p : PoseMsg) (h : (lidarReceived ext st sc).2.published = some p) :
    p.covariance 0 = (lidarReceived ext st sc).1.pf_.set.cov.m 0 0 ∧
    p.covariance 1 = (lidarReceived ext st sc).1.pf_.set.cov.m 0 1 ∧
    p.covariance 6 = (lidarReceived ext st sc).1.pf_.set.cov.m 1 0 ∧
    p.covariance 7 = (lidarReceived ext st sc).1.pf_.set.cov.m 1 1 ∧
    p.covariance 35 = (lidarReceived ext st sc).1.pf_.set.cov.m 2 2 ∧
    ∀ k : Fin 36, k ≠ 0 → k ≠ 1 → k ≠ 6 → k ≠ 7 → k ≠ 35 → p.covariance k = 0 := by
  rw [lidarReceived_published ext st sc p h]
  exact poseCovariance_entries _

/-- C11, witness: the pose published in the scenario "correlated x and y" has the variances
`1, 1, 1` at the indices `0, 7, 35` and `0` at the index `2`. -/
theorem published_covariance_entries_witness :
    ∃ p, (lidarReceived plainExternal corrNode firstScan).2.published = some p ∧
      p.covariance 0 = 1 ∧ p.covariance 7 = 1 ∧ p.covariance 35 = 1 ∧ p.covariance 2 = 0 := by
  obtain ⟨p, hp, -⟩ := corr_published
  obtain ⟨h0, -, -, h7, h35, hz⟩ :=
    published_covariance_entries plainExternal corrNode firstScan p hp
  rw [corr_lidarReceived.2] at h0 h7 h35
  refine ⟨p, hp, ?_, ?_, ?_, hz 2 (by decide) (by decide) (by decide) (by decide) (by decide)⟩
  · rw [h0]; simp [corrSet]
  · rw [h7]; simp [corrSet]
  · rw [h35]; simp [corrSet]

/-! ## Claims about the configuration, the start-up pose and the eigen solver -/

/-- C16: evaluation of the two selections of the odometry model.  At reconfiguration with the
configured string `"diff"` the code ends with `ODOM_MODEL_GAUSSIAN` (as it does for every
string and every previous value), while the constructor selects by exact match with the
default diff. -/
theorem reconfigure_odom_model_type_always_gaussian :
    reconfigureOdomModelType .ODOM_MODEL_DIFF "diff" = .ODOM_MODEL_GAUSSIAN ∧
    constructorOdomModelType (some "diff") = .ODOM_MODEL_DIFF ∧
    (∀ (cur : OdomModelType) (s : String),
      reconfigureOdomModelType cur s = .ODOM_MODEL_GAUSSIAN) ∧
    (∀ s : String, constructorOdomModelType (some s) =
      if s = "diff" then .ODOM_MODEL_DIFF
      else if s = "omni" then .ODOM_MODEL_OMNI
      else if s = "diff-corrected" then .ODOM_MODEL_DIFF_CORRECTED
      else if s = "omni-corrected" then .ODOM_MODEL_OMNI_CORRECTED
      else if s = "gaussian" then .ODOM_MODEL_GAUSSIAN
      else .ODOM_MODEL_DIFF) :=
  ⟨rfl, by decide, fun _ _ => rfl, fun _ => rfl⟩

/-- C17: evaluation of the particle limits.  With the parameters `min_particles = 200` and
`max_particles = 100` the constructor stores `(200, 100)` and `initFromNewMap` creates the
filter with these limits, `min > max`; `reconfigureCB` turns the same values into `(200, 200)`
and always yields `min <= max`. -/
theorem constructor_particle_limits_not_clamped :
    constructorParticleLimits (some 200) (some 100) = (200, 100) ∧
    initFromNewMapLimits (constructorParticleLimits (some 200) (some 100)) = (200, 100) ∧
    ¬ (initFromNewMapLimits (constructorParticleLimits (some 200) (some 100))).1 ≤
      (initFromNewMapLimits (constructorParticleLimits (some 200) (some 100))).2 ∧
    reconfigureParticleLimits 200 100 = (200, 200) ∧
    (∀ cmin cmax : Int, (reconfigureParticleLimits cmin cmax).1 ≤
      (reconfigureParticleLimits cmin cmax).2) := by
  refine ⟨by decide, by decide, by decide, by decide, ?_⟩
  intro cmin cmax
  unfold reconfigureParticleLimits
  by_cases h : cmin > cmax
  · simp [h]
  · simp [h]; omega

theorem loadPose_file_part (quaternionYaw : Dbl → Dbl → Dbl) (file : Option SavedPose)
    (st' : InitPose) :
    (if (loadPoseFromFile quaternionYaw st' file).2 = true then
        (loadPoseFromFile quaternionYaw st' file).1 else defaultInitPose) =
      (match fileValues quaternionYaw file with
       | some p => p
       | none => defaultInitPose) := by
  rcases file with _ | ⟨x, y, z, w, xx, yy, aa⟩
  · rfl
  · simp only [loadPoseFromFile, isnan, fileValues, sixValues]
    rcases x with _ | x <;> rcases y with _ | y <;> rcases hq : quaternionYaw z w with _ | q <;>
      rcases xx with _ | xx <;> rcases yy with _ | yy <;> rcases aa with _ | aa <;> simp

theorem loadPose_of_server_fail (quaternionYaw : Dbl → Dbl → Dbl) (st : InitPose)
    (srv : ServerParams) (file : Option SavedPose)
    (h : (loadPoseFromServer st srv).2 = false) :
    loadPose quaternionYaw st srv file =
      (match fileValues quaternionYaw file with
       | some p => p
       | none => defaultInitPose) := by
  rw [← loadPose_file_part quaternionYaw file (loadPoseFromServer st srv).1]
  unfold loadPose
  rcases hs : loadPoseFromServer st srv with ⟨st1, ok⟩
  rw [hs] at h
  simp only at h
  subst h
  simp only [Bool.false_eq_true, if_false]
  rcases hf : loadPoseFromFile quaternionYaw st1 file with ⟨st2, ok2⟩
  cases ok2 <;> simp [defaultInitPose]

theorem loadPose_eq_spec (quaternionYaw : Dbl → Dbl → Dbl) (st : InitPose)
    (srv : ServerParams) (file : Option SavedPose) :
    loadPose quaternionYaw st srv file = loadPoseSpec quaternionYaw srv file := by
  obtain ⟨sx, sy, sa, sxx, syy, saa⟩ := srv
  rcases sx with _ | _ | x <;> rcases sy with _ | _ | y <;> rcases sa with _ | _ | a <;>
    rcases sxx with _ | _ | xx <;> rcases syy with _ | _ | yy <;> rcases saa with _ | _ | aa
  all_goals first
    | rfl
    | (refine Eq.trans (loadPose_of_server_fail quaternionYaw st _ file ?_) ?_ <;> rfl)

theorem sixValues_eq_none (x y a xx yy aa : Dbl)
    (h : x = none ∨ y = none ∨ a = none ∨ xx = none ∨ yy = none ∨ aa = none) :
    sixValues x y a xx yy aa = none := by
  rcases x with _ | x <;> rcases y with _ | y <;> rcases a with _ | a <;>
    rcases xx with _ | xx <;> rcases yy with _ | yy <;> rcases aa with _ | aa <;>
    first | rfl | simp at h

/-- C19: `loadPose` ends with the six values of one complete source, whatever the members held
before and whatever `loadPoseFromServer` overwrote: the server values when all six are present
and not NaN, otherwise the file values when the file parses and none of its six values
(`x, y`, the yaw of `(0, 0, z, w)`, `xx, yy, aa`) is NaN, otherwise the defaults
`(0, 0, 0)`, `(0.25, 0.25, (pi / 12)^2)`; and when the server load fails, a NaN among the six
values of the file (also a NaN `z` or `w`, if tf turns it into a NaN yaw) gives the
defaults. -/
theorem loadPose_one_complete_source (quaternionYaw : Dbl → Dbl → Dbl) (st : InitPose)
    (srv : ServerParams) (file : Option SavedPose) :
    loadPose quaternionYaw st srv file = loadPoseSpec quaternionYaw srv file ∧
    (serverValues srv = none → ∀ f, file = some f →
      (f.x = none ∨ f.y = none ∨ quaternionYaw f.z f.w = none ∨ f.xx = none ∨ f.yy = none ∨
        f.aa = none) →
      loadPose quaternionYaw st srv file = defaultInitPose) ∧
    ((∀ z w : Dbl, z = none ∨ w = none → quaternionYaw z w = none) →
      serverValues srv = none → ∀ f, file = some f → (f.z = none ∨ f.w = none) →
      loadPose quaternionYaw st srv file = defaultInitPose) ∧
    defaultInitPose.init_cov_0 = some 0.25 := by
  have key : serverValues srv = none → ∀ f, file = some f →
      (f.x = none ∨ f.y = none ∨ quaternionYaw f.z f.w = none ∨ f.xx = none ∨ f.yy = none ∨
        f.aa = none) →
      loadPose quaternionYaw st srv file = defaultInitPose := by
    intro hs f hf hnan
    rw [loadPose_eq_spec]
    simp only [loadPoseSpec, hs, hf, fileValues, sixValues_eq_none _ _ _ _ _ _ hnan]
  refine ⟨loadPose_eq_spec _ _ _ _, key, ?_, ?_⟩
  · intro hq hs f hf hzw
    exact key hs f hf (Or.inr (Or.inr (Or.inl (hq f.z f.w hzw))))
  · simp only [defaultInitPose]
    norm_num

/-- C19, witness: the server holds `initial_pose_x = 1` but no `initial_pose_y`, so
`loadPoseFromServer` overwrites `init_pose_[0]` with `1` and fails; the file is good, and
`loadPose` ends with the six file values (`init_pose_[0] = 2`), not a mixture; with a NaN `x`
in the file it ends with the defaults. -/
theorem loadPose_one_complete_source_witness :
    (loadPoseFromServer defaultInitPose partialServer).1.init_pose_0 = some 1 ∧
    loadPose (fun _ _ => some 0.5) defaultInitPose partialServer (some goodFile) =
      { init_pose_0 := some 2, init_pose_1 := some 3, init_pose_2 := some 0.5,
        init_cov_0 := some 4, init_cov_1 := some 5, init_cov_2 := some 6 } ∧
    loadPose (fun _ _ => some 0.5) defaultInitPose partialServer
      (some { goodFile with x := none }) = defaultInitPose := by
  refine ⟨rfl, ?_, ?_⟩
  · rw [(loadPose_one_complete_source (fun _ _ => some 0.5) defaultInitPose partialServer
      (some goodFile)).1]
    rfl
  · exact (loadPose_one_complete_source (fun _ _ => some 0.5) defaultInitPose partialServer
      (some { goodFile with x := none })).2.1 rfl _ rfl (Or.inl rfl)

/-- C20: evaluation of `eigenDecomposition` as the caller sees it.  For every `A`, `V`, `d`
the caller's `V` and `d` are the same after the call as before, whatever `tred2` and `tql2` do
to their copies; for `A` the identity (symmetric, positive-semidefinite) and a caller's `V`
and `d` filled with zeros, the entry `(0, 0)` of `V^T V - I` and of `V diag(d) V^T - A` is `-1`
after the call, so neither max-norm error is below `1e-9`. -/
theorem eigenDecomposition_leaves_caller_unchanged
    (tred2 tql2 : Mat3 → Vec3 → Vec3 → Mat3 × Vec3 × Vec3) :
    (∀ (A V : Mat3) (d : Vec3), eigenDecomposition tred2 tql2 A V d = (V, d)) ∧
    orthogonalityError
      (eigenDecomposition tred2 tql2 (fun i j => if i = j then 1 else 0) (fun _ _ => 0)
        (fun _ => 0)).1 0 0 = -1 ∧
    reconstructionError (fun i j => if i = j then 1 else 0)
      (eigenDecomposition tred2 tql2 (fun i j => if i = j then 1 else 0) (fun _ _ => 0)
        (fun _ => 0)).1
      (eigenDecomposition tred2 tql2 (fun i j => if i = j then 1 else 0) (fun _ _ => 0)
        (fun _ => 0)).2 0 0 = -1 ∧
    ¬ (∀ i j, |orthogonalityError
      (eigenDecomposition tred2 tql2 (fun i j => if i = j then 1 else 0) (fun _ _ => 0)
        (fun _ => 0)).1 i j| < 1e-9) := by
  have h1 : orthogonalityError
      (eigenDecomposition tred2 tql2 (fun i j => if i = j then 1 else 0) (fun _ _ => 0)
        (fun _ => 0)).1 0 0 = -1 := by
    simp [eigenDecomposition, orthogonalityError]
  refine ⟨fun _ _ _ => rfl, h1, ?_, ?_⟩
  · simp [eigenDecomposition, reconstructionError]
  · intro h
    have h' := h 0 0
    rw [h1] at h'
    norm_num at h'

/-! ## Facts about the stages of the scan step -/

theorem decideUpdate_of_init (st : Node) (pose : PFVector) (h : st.pf_init_ = true) :
    (decideUpdate st pose).2.2 = updateDecision st (poseDelta pose st.pf_odom_pose_) ∧
    (decideUpdate st pose).2.1 = poseDelta pose st.pf_odom_pose_ ∧
    (decideUpdate st pose).1 = { st with
      m_force_update := false
      lidars_update_ :=
        if updateDecision st (poseDelta pose st.pf_odom_pose_) = true then
          st.lidars_update_.map (fun _ => true)
        else st.lidars_update_ } := by
  unfold decideUpdate
  simp only [h, if_true]
  by_cases hu : updateDecision st (poseDelta pose st.pf_odom_pose_) = true
  · simp [hu]
  · simp [hu]

theorem decideUpdate_of_not_init (st : Node) (pose : PFVector) (h : st.pf_init_ = false) :
    decideUpdate st pose = (st, PFVector.zero, false) := by
  unfold decideUpdate
  simp [h]

theorem sensorUpdate_off (ext : External) (st : Node) (pose : PFVector) (lidar_index : ℕ)
    (point_cloud : List PointXYZ) (h : st.lidars_update_.getD lidar_index false = false) :
    sensorUpdate ext st pose lidar_index point_cloud = (st, false, false) := by
  unfold sensorUpdate
  rw [if_neg (by rw [h]; exact Bool.false_ne_true)]

/-- The sensor update when the flag of the scanner is set. -/
theorem sensorUpdate_on (ext : External) (st : Node) (pose : PFVector) (lidar_index : ℕ)
    (point_cloud : List PointXYZ) (h : st.lidars_update_.getD lidar_index false = true) :
    ∃ points pf, samplePointCloud point_cloud st.max_beams_ = some points ∧
      (sensorUpdate ext st pose lidar_index point_cloud).1 = { st with
        pf_ := pf
        lidars_update_ := st.lidars_update_.set lidar_index false
        pf_odom_pose_ := pose
        resample_count_ := st.resample_count_ + 1
        global_localization_active_ := st.global_localization_active_ &&
          !(decide (Int.tmod (st.resample_count_ + 1) st.resample_interval_ = 0) &&
            pf.converged) } ∧
      pf = (if Int.tmod (st.resample_count_ + 1) st.resample_interval_ = 0 then
          ext.update_resample (ext.UpdateSensor st.pf_ points)
        else ext.UpdateSensor st.pf_ points) ∧
      (sensorUpdate ext st pose lidar_index point_cloud).2.1 = true ∧
      (sensorUpdate ext st pose lidar_index point_cloud).2.2 =
        decide (Int.tmod (st.resample_count_ + 1) st.resample_interval_ = 0) := by
  obtain ⟨points, hp⟩ := samplePointCloud_some point_cloud st.max_beams_
  refine ⟨points, _, hp, ?_, rfl, ?_, ?_⟩
  all_goals
    unfold sensorUpdate
    simp only [h, hp, if_true]
    by_cases ht : Int.tmod (st.resample_count_ + 1) st.resample_interval_ = 0
    · simp only [ht, if_true]
      by_cases hc : ((ext.update_resample (ext.UpdateSensor st.pf_ points)).converged &&
          st.global_localization_active_) = true
      · have hc1 := hc
        simp only [Bool.and_eq_true] at hc1
        simp only [hc, if_true] <;> simp [hc1.1, hc1.2]
      · have hc1 := hc
        simp only [Bool.and_eq_true, not_and_or, Bool.not_eq_true] at hc1
        simp only [hc]
        rcases hc1 with hc1 | hc1 <;> simp [hc1]
    · simp [ht]


theorem resetDecayRates_shape (st : Node) :
    ∃ pf, resetDecayRates st = { st with pf_ := pf } ∧ pf.converged = st.pf_.converged ∧
      pf.set = st.pf_.set ∧
      (st.global_localization_active_ = false →
        pf.alpha_slow = st.alpha_slow_ ∧ pf.alpha_fast = st.alpha_fast_) ∧
      (st.global_localization_active_ = true → pf = st.pf_) := by
  unfold resetDecayRates
  by_cases hg : st.global_localization_active_ = true
  · rw [if_neg (by simp [hg])]
    exact ⟨st.pf_, rfl, rfl, rfl, fun h => absurd h (by simp [hg]), fun _ => rfl⟩
  · have hf : st.global_localization_active_ = false := by simpa using hg
    rw [if_pos (by simp [hf])]
    exact ⟨_, rfl, rfl, rfl, fun _ => ⟨rfl, rfl⟩, fun h => absurd h hg⟩

theorem lookupLidar_shape (st : Node) (frame_id : String) (lidar_pose_ok : Bool) :
    ∃ lu ftl, (lookupLidar st frame_id lidar_pose_ok).1 =
        { st with lidars_update_ := lu, frame_to_lidar_ := ftl } ∧
      (st.frame_to_lidar_.length ≤ st.lidars_update_.length → ftl.length ≤ lu.length) ∧
      (frame_id ∈ st.frame_to_lidar_ → lu = st.lidars_update_ ∧ ftl = st.frame_to_lidar_ ∧
        (lookupLidar st frame_id lidar_pose_ok).2 = some (st.frame_to_lidar_.indexOf frame_id)) ∧
      ∀ lidar_index, (lookupLidar st frame_id lidar_pose_ok).2 = some lidar_index →
        ftl.indexOf frame_id = lidar_index ∧ lidar_index < ftl.length ∧
        (st.frame_to_lidar_.length ≤ st.lidars_update_.length → lidar_index < lu.length) := by
  unfold lookupLidar
  by_cases hmem : frame_id ∈ st.frame_to_lidar_
  · rw [if_pos hmem]
    refine ⟨st.lidars_update_, st.frame_to_lidar_, rfl, id, fun _ => ⟨rfl, rfl, rfl⟩, ?_⟩
    intro lidar_index h
    simp only [Option.some.injEq] at h
    have hlt := List.indexOf_lt_length.mpr hmem
    exact ⟨h, h ▸ hlt, fun hle => h ▸ lt_of_lt_of_le hlt hle⟩
  · rw [if_neg hmem]
    cases lidar_pose_ok
    · refine ⟨st.lidars_update_ ++ [true], st.frame_to_lidar_, rfl, ?_,
        fun h => absurd h hmem, ?_⟩
      · intro h; simp only [List.length_append, List.length_singleton]; omega
      · intro lidar_index h
        exact absurd h (by simp)
    · refine ⟨st.lidars_update_ ++ [true], st.frame_to_lidar_ ++ [frame_id], rfl, ?_,
        fun h => absurd h hmem, ?_⟩
      · intro h; simp only [List.length_append, List.length_singleton]; omega
      · intro lidar_index h
        simp only [if_true, Option.some.injEq] at h
        subst h
        refine ⟨?_, ?_, ?_⟩
        · rw [List.indexOf_append_of_not_mem hmem]
          simp [List.indexOf_cons_self]
        · simp
        · intro hle; simp only [List.length_append, List.length_singleton]; omega

theorem motionUpdate_of_not_init (st : Node) (pose delta : PFVector) (lidar_index : ℕ)
    (draw : Draw) (h : st.pf_init_ = false) :
    motionUpdate st pose delta lidar_index draw =
      ({ st with
          pf_odom_pose_ := pose
          pf_init_ := true
          lidars_update_ := st.lidars_update_.map (fun _ => true)
          resample_count_ := 0
          odom_integrator_ready_ := false }, true, false) := by
  unfold motionUpdate
  simp [h]

theorem motionUpdate_of_init (st : Node) (pose delta : PFVector) (lidar_index : ℕ)
    (draw : Draw) (h : st.pf_init_ = true) :
    ∃ pf ab, (motionUpdate st pose delta lidar_index draw).1 =
        { st with pf_ := pf, odom_integrator_absolute_motion_ := ab } ∧
      pf.alpha_slow = st.pf_.alpha_slow ∧ pf.alpha_fast = st.pf_.alpha_fast ∧
      pf.converged = st.pf_.converged ∧
      (motionUpdate st pose delta lidar_index draw).2.1 = false ∧
      (motionUpdate st pose delta lidar_index draw).2.2 =
        st.lidars_update_.getD lidar_index false := by
  unfold motionUpdate
  rw [if_neg (by rw [h]; simp)]
  cases hf : st.lidars_update_.getD lidar_index false
  · rw [if_neg (by rw [h]; simp)]
    exact ⟨st.pf_, st.odom_integrator_absolute_motion_, rfl, rfl, rfl, rfl, rfl, rfl⟩
  · rw [if_pos (by rw [h]; simp)]
    exact ⟨_, _, rfl, rfl, rfl, rfl, rfl, rfl⟩

theorem scanUpdate_eq (ext : External) (st : Node) (sc : ScanInput) (lidar_index : ℕ)
    (pose : PFVector) :
    scanUpdate ext st sc lidar_index pose =
      (let d := decideUpdate st pose
       let m := motionUpdate d.1 pose d.2.1 lidar_index sc.draw
       let s := sensorUpdate ext m.1 pose lidar_index sc.point_cloud
       let p := publishStep s.1.pub s.1.pf_.set s.2.2 m.2.1 sc.base_to_odom
       ({ s.1 with pub := p.1 },
        { dropped := false, update := d.2.2, action_update := m.2.2, sensor_update := s.2.1,
          resampled := s.2.2, force_publication := m.2.1, published := p.2 })) :=
  rfl

theorem getD_true_lt (l : List Bool) (i : ℕ) (h : l.getD i false = true) : i < l.length := by
  by_contra hlt
  rw [List.getD_eq_default _ _ (not_lt.mp hlt)] at h
  exact absurd h (by decide)

/-- The state of the node before the scanner flag is read by the sensor update: the flag of
global localization, the configured decay rates and the decay rates of the filter are those at
the start of `scanUpdate`. -/
theorem motion_stage_fields (st : Node) (pose : PFVector) (lidar_index : ℕ) (draw : Draw) :
    (motionUpdate (decideUpdate st pose).1 pose (decideUpdate st pose).2.1 lidar_index
      draw).1.global_localization_active_ = st.global_localization_active_ ∧
    (motionUpdate (decideUpdate st pose).1 pose (decideUpdate st pose).2.1 lidar_index
      draw).1.alpha_slow_ = st.alpha_slow_ ∧
    (motionUpdate (decideUpdate st pose).1 pose (decideUpdate st pose).2.1 lidar_index
      draw).1.alpha_fast_ = st.alpha_fast_ ∧
    (motionUpdate (decideUpdate st pose).1 pose (decideUpdate st pose).2.1 lidar_index
      draw).1.map_ = st.map_ ∧
    (motionUpdate (decideUpdate st pose).1 pose (decideUpdate st pose).2.1 lidar_index
      draw).1.pf_.alpha_slow = st.pf_.alpha_slow ∧
    (motionUpdate (decideUpdate st pose).1 pose (decideUpdate st pose).2.1 lidar_index
      draw).1.pf_.alpha_fast = st.pf_.alpha_fast := by
  by_cases hinit : st.pf_init_ = true
  · obtain ⟨-, -, hst⟩ := decideUpdate_of_init st pose hinit
    have hinit1 : (decideUpdate st pose).1.pf_init_ = true := by rw [hst]; exact hinit
    obtain ⟨pf, ab, hm, ha, hb, -⟩ :=
      motionUpdate_of_init (decideUpdate st pose).1 pose (decideUpdate st pose).2.1 lidar_index
        draw hinit1
    have hpf : (decideUpdate st pose).1.pf_ = st.pf_ := by rw [hst]
    rw [hpf] at ha hb
    refine ⟨?_, ?_, ?_, ?_, ?_, ?_⟩
    · rw [hm, hst]
    · rw [hm, hst]
    · rw [hm, hst]
    · rw [hm, hst]
    · rw [hm]; exact ha
    · rw [hm]; exact hb
  · have hinit0 : st.pf_init_ = false := by simpa using hinit
    simp [decideUpdate_of_not_init st pose hinit0,
      motionUpdate_of_not_init st pose _ lidar_index draw hinit0]

/-- The flag of global localization and the decay rates after `scanUpdate`. -/
theorem scanUpdate_flag (ext : External) (st : Node) (sc : ScanInput) (lidar_index : ℕ)
    (pose : PFVector) :
    (scanUpdate ext st sc lidar_index pose).1.global_localization_active_ =
      (st.global_localization_active_ &&
        !((scanUpdate ext st sc lidar_index pose).2.resampled &&
          (scanUpdate ext st sc lidar_index pose).1.pf_.converged)) ∧
    (scanUpdate ext st sc lidar_index pose).1.alpha_slow_ = st.alpha_slow_ ∧
    (scanUpdate ext st sc lidar_index pose).1.alpha_fast_ = st.alpha_fast_ ∧
    (scanUpdate ext st sc lidar_index pose).1.map_ = st.map_ ∧
    ((∀ pf points, (ext.UpdateSensor pf points).alpha_slow = pf.alpha_slow ∧
        (ext.UpdateSensor pf points).alpha_fast = pf.alpha_fast) →
      (∀ pf, (ext.update_resample pf).alpha_slow = pf.alpha_slow ∧
        (ext.update_resample pf).alpha_fast = pf.alpha_fast) →
      (scanUpdate ext st sc lidar_index pose).1.pf_.alpha_slow = st.pf_.alpha_slow ∧
      (scanUpdate ext st sc lidar_index pose).1.pf_.alpha_fast = st.pf_.alpha_fast) := by
  obtain ⟨m1, m2, m3, m4, m5, m6⟩ := motion_stage_fields st pose lidar_index sc.draw
  rw [scanUpdate_eq]
  simp only []
  cases hflag : (motionUpdate (decideUpdate st pose).1 pose (decideUpdate st pose).2.1
      lidar_index sc.draw).1.lidars_update_.getD lidar_index false
  · have hs := sensorUpdate_off ext _ pose lidar_index sc.point_cloud hflag
    refine ⟨?_, ?_, ?_, ?_, fun _ _ => ⟨?_, ?_⟩⟩
    · rw [hs]; simp only []; rw [m1]; simp
    · rw [hs]; exact m2
    · rw [hs]; exact m3
    · rw [hs]; exact m4
    · rw [hs]; exact m5
    · rw [hs]; exact m6
  · obtain ⟨points, pf, -, e, hpf, -, h2⟩ :=
      sensorUpdate_on ext _ pose lidar_index sc.point_cloud hflag
    refine ⟨?_, ?_, ?_, ?_, fun hU hR => ?_⟩
    · rw [h2, e]; simp only []; rw [m1]
    · rw [e]; exact m2
    · rw [e]; exact m3
    · rw [e]; exact m4
    · rw [e]
      simp only []
      rw [hpf]
      split_ifs
      · exact ⟨((hR _).1.trans (hU _ _).1).trans m5, ((hR _).2.trans (hU _ _).2).trans m6⟩
      · exact ⟨(hU _ _).1.trans m5, (hU _ _).2.trans m6⟩

theorem prep_flag_fields (st : Node) (frame_id : String) (lidar_pose_ok : Bool) :
    (lookupLidar (resetDecayRates st) frame_id lidar_pose_ok).1.global_localization_active_ =
      st.global_localization_active_ ∧
    (lookupLidar (resetDecayRates st) frame_id lidar_pose_ok).1.alpha_slow_ = st.alpha_slow_ ∧
    (lookupLidar (resetDecayRates st) frame_id lidar_pose_ok).1.alpha_fast_ = st.alpha_fast_ ∧
    (lookupLidar (resetDecayRates st) frame_id lidar_pose_ok).1.map_ = st.map_ ∧
    (st.global_localization_active_ = true →
      (lookupLidar (resetDecayRates st) frame_id lidar_pose_ok).1.pf_ = st.pf_) ∧
    (st.global_localization_active_ = false →
      (lookupLidar (resetDecayRates st) frame_id lidar_pose_ok).1.pf_.alpha_slow =
        st.alpha_slow_ ∧
      (lookupLidar (resetDecayRates st) frame_id lidar_pose_ok).1.pf_.alpha_fast =
        st.alpha_fast_) := by
  obtain ⟨pf, e, -, -, hoff, hon⟩ := resetDecayRates_shape st
  obtain ⟨lu, ftl, e2, -⟩ := lookupLidar_shape (resetDecayRates st) frame_id lidar_pose_ok
  rw [e2, e]
  exact ⟨rfl, rfl, rfl, rfl, hon, hoff⟩

/-- The flag of global localization and the decay rates after a scan step. -/
theorem lidarReceived_flag (ext : External) (st : Node) (sc : ScanInput) :
    (lidarReceived ext st sc).1.global_localization_active_ =
      (st.global_localization_active_ &&
        !((lidarReceived ext st sc).2.resampled && (lidarReceived ext st sc).1.pf_.converged)) ∧
    (lidarReceived ext st sc).1.alpha_slow_ = st.alpha_slow_ ∧
    (lidarReceived ext st sc).1.alpha_fast_ = st.alpha_fast_ ∧
    (lidarReceived ext st sc).1.map_ = st.map_ ∧
    ((∀ pf points, (ext.UpdateSensor pf points).alpha_slow = pf.alpha_slow ∧
        (ext.UpdateSensor pf points).alpha_fast = pf.alpha_fast) →
      (∀ pf, (ext.update_resample pf).alpha_slow = pf.alpha_slow ∧
        (ext.update_resample pf).alpha_fast = pf.alpha_fast) →
      (st.global_localization_active_ = true →
        (lidarReceived ext st sc).1.pf_.alpha_slow = st.pf_.alpha_slow ∧
        (lidarReceived ext st sc).1.pf_.alpha_fast = st.pf_.alpha_fast) ∧
      (st.global_localization_active_ = false → st.map_ = true →
        (lidarReceived ext st sc).1.pf_.alpha_slow = st.alpha_slow_ ∧
        (lidarReceived ext st sc).1.pf_.alpha_fast = st.alpha_fast_)) := by
  obtain ⟨p1, p2, p3, p4, p5, p6⟩ := prep_flag_fields st sc.frame_id sc.lidar_pose_ok
  rcases lidarReceived_inv ext st sc with ⟨hm, e⟩ | ⟨_, e⟩ | ⟨lidar_index, pose, _, _, _, e⟩
  · rw [e]
    refine ⟨by simp [ScanReport.drop], rfl, rfl, rfl, fun _ _ => ⟨fun _ => ⟨rfl, rfl⟩, ?_⟩⟩
    intro _ h
    rw [hm] at h
    exact absurd h (by decide)
  · rw [e]
    refine ⟨?_, p2, p3, p4, fun _ _ => ⟨fun h => ?_, fun h _ => p6 h⟩⟩
    · simp only []
      rw [p1]
      simp [ScanReport.drop]
    · simp only []
      rw [p5 h]
      exact ⟨rfl, rfl⟩
  · obtain ⟨s1, s2, s3, s4, s5⟩ := scanUpdate_flag ext
      (lookupLidar (resetDecayRates st) sc.frame_id sc.lidar_pose_ok).1 sc lidar_index pose
    rw [e]
    refine ⟨?_, s2.trans p2, s3.trans p3, s4.trans p4, fun hU hR => ⟨fun h => ?_, fun h _ => ?_⟩⟩
    · rw [s1, p1]
    · obtain ⟨a, b⟩ := s5 hU hR
      rw [a, b, p5 h]
      exact ⟨rfl, rfl⟩
    · obtain ⟨a, b⟩ := s5 hU hR
      rw [a, b]
      exact p6 h

theorem initialPoseFrameAccepted_eq (tf : TfLib) (st : Node) (frame_id : String) :
    initialPoseFrameAccepted tf st frame_id =
      !(decide (frame_id ≠ "") &&
        decide (tf.resolve frame_id ≠ tf.resolve st.global_frame_id_) &&
        decide (tf.resolve frame_id ≠ tf.resolve st.global_alt_frame_id_)) := by
  unfold initialPoseFrameAccepted
  simp only []
  by_cases h1 : tf.resolve frame_id = tf.resolve st.global_alt_frame_id_
  · rw [if_pos h1]
    by_cases h2 : st.global_frame_id_ = "" <;> simp [h1, h2]
  · rw [if_neg h1]
    by_cases h2 : frame_id = ""
    · simp [h2]
    · by_cases h3 : tf.resolve frame_id = tf.resolve st.global_frame_id_ <;> simp [h1, h2, h3]

/-- The two ways through `handleInitialPoseMessage`: the message is dropped, or the hypothesis
is stored, `applyInitialPose` is called and the flag of global localization is cleared. -/
theorem handleInitialPoseMessage_cases (ext : External) (tf : TfLib) (st : Node)
    (msg : InitialPoseMsg) (tx_odom : Option Transform) :
    (initialPoseDropped tf st msg = true ∧
      handleInitialPoseMessage ext tf st msg tx_odom = st) ∨
    (initialPoseDropped tf st msg = false ∧
      handleInitialPoseMessage ext tf st msg tx_odom =
        { applyInitialPose ext { st with
            initial_pose_hyp_ := some
              ⟨0, initialPoseMean tf msg tx_odom, initialPoseCov msg⟩ } with
          global_localization_active_ := false }) := by
  have hd : initialPoseDropped tf st msg =
      ((isnan msg.position_x || isnan msg.position_y || isnan msg.position_z ||
        isnan msg.orientation_x || isnan msg.orientation_y || isnan msg.orientation_z ||
        isnan msg.orientation_w) || !initialPoseFrameAccepted tf st msg.frame_id) := by
    rw [initialPoseFrameAccepted_eq, Bool.not_not]
    rfl
  rw [hd]
  unfold handleInitialPoseMessage
  cases h1 : initialPoseFrameAccepted tf st msg.frame_id
  · left; simp
  · cases h2 : (isnan msg.position_x || isnan msg.position_y || isnan msg.position_z)
    · cases h3 : (isnan msg.orientation_x || isnan msg.orientation_y ||
          isnan msg.orientation_z || isnan msg.orientation_w)
      · right
        simp only [Bool.or_eq_false_iff] at h2 h3
        simp [h2.1.1, h2.1.2, h2.2, h3.1.1.1, h3.1.1.2, h3.1.2, h3.2]
      · left
        simp only [Bool.or_eq_true] at h3
        rcases h3 with ((h | h) | h) | h <;> simp [h]
    · left
      simp only [Bool.or_eq_true] at h2
      rcases h2 with (h | h) | h <;> simp [h]

theorem applyInitialPose_some (ext : External) (st : Node) (hyp : AmclHyp) :
    applyInitialPose ext { st with initial_pose_hyp_ := some hyp } =
      if st.map_ = true then
        { st with
          pf_ := ext.init st.pf_ hyp.pf_pose_mean hyp.pf_pose_cov
          pf_init_ := false
          initial_pose_hyp_ := none }
      else { st with initial_pose_hyp_ := some hyp } := by
  unfold applyInitialPose
  by_cases h : st.map_ = true
  · simp [h]
  · simp [h]

theorem glNode_fields :
    glNode.global_localization_active_ = true ∧ glNode.map_ = true ∧
    glNode.pf_.alpha_slow = 0.5 ∧ glNode.pf_.alpha_fast = 0.9 ∧
    glNode.alpha_slow_ = 0.001 ∧ glNode.alpha_fast_ = 0.1 := by
  simp [glNode, globalLocalizationCallback, corrNode, plainExternal,
    ParticleFilter.setDecayRates]

theorem glNode_scan :
    (lidarReceived plainExternal glNode firstScan).2.resampled = true ∧
    (lidarReceived plainExternal glNode firstScan).1.pf_.converged = true ∧
    (lidarReceived plainExternal glNode firstScan).1.global_localization_active_ = false ∧
    (lidarReceived plainExternal glNode firstScan).1.pf_.alpha_slow = 0.5 ∧
    (lidarReceived plainExternal glNode firstScan).1.pf_.alpha_fast = 0.9 ∧
    (lidarReceived plainExternal glNode firstScan).1.alpha_slow_ = 0.001 ∧
    (lidarReceived plainExternal glNode firstScan).1.alpha_fast_ = 0.1 := by
  have hs : samplePointCloud ([] : List PointXYZ) 256 = some [] := samplePointCloud_nil _
  have ht : Int.tmod 1 1 = 0 := by decide
  simp [lidarReceived, scanUpdate, glNode, globalLocalizationCallback, corrNode, firstScan,
    resetDecayRates, lookupLidar, decideUpdate, motionUpdate, sensorUpdate, plainExternal,
    ParticleFilter.setDecayRates, hs, ht]

theorem mapPoseMsg_accepted (st : Node) (h : st.global_frame_id_ = "map") :
    initialPoseDropped plainTf st mapPoseMsg = false := by
  simp [initialPoseDropped, plainTf, mapPoseMsg, isnan, h]

theorem mapPoseMsg_mean : initialPoseMean plainTf mapPoseMsg none = ⟨1, 2, 0⟩ := by
  simp [initialPoseMean, plainTf, mapPoseMsg, Transform.mul]

/-! ## Claims about global localization, the decay rates and initial pose messages -/

/-- C14, counterexample: global localization is active (the service has been called); a valid
initial pose message in the global frame arrives; `handleInitialPoseMessage` ends with
`global_localization_active_ = false`, without any scan step or resample. -/
theorem global_localization_counterexample :
    glNode.global_localization_active_ = true ∧
    initialPoseDropped plainTf glNode mapPoseMsg = false ∧
    (handleInitialPoseMessage plainExternal plainTf glNode mapPoseMsg
      none).global_localization_active_ = false := by
  have hacc : initialPoseDropped plainTf glNode mapPoseMsg = false :=
    mapPoseMsg_accepted glNode rfl
  refine ⟨glNode_fields.1, hacc, ?_⟩
  rcases handleInitialPoseMessage_cases plainExternal plainTf glNode mapPoseMsg none with
    ⟨h, _⟩ | ⟨_, e⟩
  · rw [hacc] at h; exact absurd h (by decide)
  · rw [e]

/-- C14 (amended): while `global_localization_active_` is set, a scan step clears it iff it
resampled and the filter is converged after the resample, and `handleInitialPoseMessage` clears
it iff it does not drop the message; a scan step never sets it, and the service
`global_localization` sets it whenever there is a map and leaves the node unchanged
otherwise. -/
theorem global_localization_flag (ext : External) (tf : TfLib) (st : Node) (sc : ScanInput)
    (msg : InitialPoseMsg) (tx_odom : Option Transform)
    (hactive : st.global_localization_active_ = true) :
    ((lidarReceived ext st sc).1.global_localization_active_ = false ↔
      (lidarReceived ext st sc).2.resampled = true ∧
        (lidarReceived ext st sc).1.pf_.converged = true) ∧
    ((handleInitialPoseMessage ext tf st msg tx_odom).global_localization_active_ = false ↔
      initialPoseDropped tf st msg = false) ∧
    (∀ st0 : Node, st0.global_localization_active_ = false →
      (lidarReceived ext st0 sc).1.global_localization_active_ = false) ∧
    (∀ st0 : Node, st0.map_ = true →
      (globalLocalizationCallback ext st0).global_localization_active_ = true) ∧
    (∀ st0 : Node, st0.map_ = false → globalLocalizationCallback ext st0 = st0) := by
  refine ⟨?_, ?_, ?_, ?_, ?_⟩
  · rw [(lidarReceived_flag ext st sc).1, hactive]
    simp
  · rcases handleInitialPoseMessage_cases ext tf st msg tx_odom with ⟨h, e⟩ | ⟨h, e⟩
    · rw [e, h, hactive]
    · rw [e, h]
  · intro st0 h0
    rw [(lidarReceived_flag ext st0 sc).1, h0]
    rfl
  · intro st0 h0
    simp [globalLocalizationCallback, h0]
  · intro st0 h0
    simp [globalLocalizationCallback, h0]

/-- C14, witness: in the scenario "global localization" the first scan step resamples and finds
the filter converged, and clears the flag; a valid initial pose message clears it too. -/
theorem global_localization_flag_witness :
    (lidarReceived plainExternal glNode firstScan).1.global_localization_active_ = false ∧
    (handleInitialPoseMessage plainExternal plainTf glNode mapPoseMsg
      none).global_localization_active_ = false := by
  obtain ⟨h1, h2, -⟩ := global_localization_flag plainExternal plainTf glNode firstScan
    mapPoseMsg none glNode_fields.1
  exact ⟨h1.mpr ⟨glNode_scan.1, glNode_scan.2.1⟩, h2.mpr (mapPoseMsg_accepted glNode rfl)⟩

/-- C15, counterexample: in the scenario "global localization" the first scan step resamples,
finds the filter converged and clears `global_localization_active_`, and at its end the decay
rates of the filter are still the global-localization rates `0.5`, `0.9`, not the normal rates
`0.001`, `0.1`. -/
theorem decay_rates_counterexample :
    glNode.global_localization_active_ = true ∧
    (lidarReceived plainExternal glNode firstScan).2.resampled = true ∧
    (lidarReceived plainExternal glNode firstScan).1.pf_.converged = true ∧
    (lidarReceived plainExternal glNode firstScan).1.global_localization_active_ = false ∧
    (lidarReceived plainExternal glNode firstScan).1.pf_.alpha_slow = 0.5 ∧
    (lidarReceived plainExternal glNode firstScan).1.pf_.alpha_fast = 0.9 ∧
    (lidarReceived plainExternal glNode firstScan).1.pf_.alpha_slow ≠
      (lidarReceived plainExternal glNode firstScan).1.alpha_slow_ ∧
    (lidarReceived plainExternal glNode firstScan).1.pf_.alpha_fast ≠
      (lidarReceived plainExternal glNode firstScan).1.alpha_fast_ := by
  obtain ⟨h1, h2, h3, h4, h5, h6, h7⟩ := glNode_scan
  refine ⟨glNode_fields.1, h1, h2, h3, h4, h5, ?_, ?_⟩
  · rw [h4, h6]; norm_num
  · rw [h5, h7]; norm_num

/-- C15 (amended): let the sensor update and the resampler leave the decay rates of the filter
alone.  In the scan step in which a resample finds the filter converged while global
localization is active, `global_localization_active_` is cleared and the decay rates of the
filter at the end of the step are those it had at the start of the step; the next call of
`lidarReceived` ends with the decay rates `alpha_slow_`, `alpha_fast_`
(`recovery_alpha_slow`, `recovery_alpha_fast`). -/
theorem decay_rates_restored_next_step (ext : External) (st : Node) (sc sc2 : ScanInput)
    (hU : ∀ pf points, (ext.UpdateSensor pf points).alpha_slow = pf.alpha_slow ∧
      (ext.UpdateSensor pf points).alpha_fast = pf.alpha_fast)
    (hR : ∀ pf, (ext.update_resample pf).alpha_slow = pf.alpha_slow ∧
      (ext.update_resample pf).alpha_fast = pf.alpha_fast)
    (hactive : st.global_localization_active_ = true)
    (hres : (lidarReceived ext st sc).2.resampled = true)
    (hconv : (lidarReceived ext st sc).1.pf_.converged = true) :
    (lidarReceived ext st sc).1.global_localization_active_ = false ∧
    (lidarReceived ext st sc).1.pf_.alpha_slow = st.pf_.alpha_slow ∧
    (lidarReceived ext st sc).1.pf_.alpha_fast = st.pf_.alpha_fast ∧
    (lidarReceived ext (lidarReceived ext st sc).1 sc2).1.pf_.alpha_slow = st.alpha_slow_ ∧
    (lidarReceived ext (lidarReceived ext st sc).1 sc2).1.pf_.alpha_fast = st.alpha_fast_ := by
  obtain ⟨f1, f2, f3, f4, f5⟩ := lidarReceived_flag ext st sc
  obtain ⟨g1, -⟩ := f5 hU hR
  have hcl : (lidarReceived ext st sc).1.global_localization_active_ = false := by
    rw [f1, hres, hconv]; simp
  have hmap : st.map_ = true := by
    rcases lidarReceived_inv ext st sc with ⟨_, e⟩ | ⟨h, _⟩ | ⟨_, _, h, _⟩
    · rw [e] at hres; exact absurd hres (by simp [ScanReport.drop])
    · exact h
    · exact h
  obtain ⟨-, -, -, -, n5⟩ := lidarReceived_flag ext (lidarReceived ext st sc).1 sc2
  obtain ⟨-, n2⟩ := n5 hU hR
  obtain ⟨a, b⟩ := n2 hcl (f4.trans hmap)
  exact ⟨hcl, (g1 hactive).1, (g1 hactive).2, a.trans f2, b.trans f3⟩

/-- C15, witness: in the scenario "global localization" the first scan step clears the flag
and leaves the rates `0.5`, `0.9`; after the next scan step the rates are `0.001`, `0.1`. -/
theorem decay_rates_restored_next_step_witness :
    (lidarReceived plainExternal glNode firstScan).1.global_localization_active_ = false ∧
    (lidarReceived plainExternal glNode firstScan).1.pf_.alpha_slow = 0.5 ∧
    (lidarReceived plainExternal (lidarReceived plainExternal glNode firstScan).1
      bottomScan).1.pf_.alpha_slow = 0.001 ∧
    (lidarReceived plainExternal (lidarReceived plainExternal glNode firstScan).1
      bottomScan).1.pf_.alpha_fast = 0.1 := by
  obtain ⟨h1, h2, -, h4, h5⟩ := decay_rates_restored_next_step plainExternal glNode firstScan
    bottomScan (fun _ _ => ⟨rfl, rfl⟩) (fun _ => ⟨rfl, rfl⟩) glNode_fields.1 glNode_scan.1
    glNode_scan.2.1
  refine ⟨h1, h2.trans glNode_fields.2.2.1, h4.trans glNode_fields.2.2.2.2.1,
    h5.trans glNode_fields.2.2.2.2.2⟩

/-- C18, counterexample: a node without a map gets a valid initial pose message in the global
frame: the message is not dropped, and the particle filter and `pf_init_` are left as they
were; the hypothesis stays pending. -/
theorem initial_pose_counterexample :
    initialPoseDropped plainTf noMapNode mapPoseMsg = false ∧
    (handleInitialPoseMessage plainExternal plainTf noMapNode mapPoseMsg none).pf_ =
      noMapNode.pf_ ∧
    (handleInitialPoseMessage plainExternal plainTf noMapNode mapPoseMsg none).pf_init_ =
      noMapNode.pf_init_ ∧
    (handleInitialPoseMessage plainExternal plainTf noMapNode mapPoseMsg
      none).initial_pose_hyp_.isSome = true ∧
    plainExternal.init noMapNode.pf_ (initialPoseMean plainTf mapPoseMsg none)
      (initialPoseCov mapPoseMsg) ≠ noMapNode.pf_ := by
  have hacc : initialPoseDropped plainTf noMapNode mapPoseMsg = false :=
    mapPoseMsg_accepted noMapNode rfl
  have hinit : plainExternal.init noMapNode.pf_ (initialPoseMean plainTf mapPoseMsg none)
      (initialPoseCov mapPoseMsg) ≠ noMapNode.pf_ := by
    intro h
    have h2 := congrArg (fun pf => pf.set.samples.length) h
    simp [plainExternal, noMapNode] at h2
  rcases handleInitialPoseMessage_cases plainExternal plainTf noMapNode mapPoseMsg none with
    ⟨h, _⟩ | ⟨_, e⟩
  · rw [hacc] at h; exact absurd h (by decide)
  · rw [e, applyInitialPose_some]
    exact ⟨hacc, rfl, rfl, rfl, hinit⟩

/-- C18 (amended): `handleInitialPoseMessage` drops, leaving the whole state of the node
unchanged, every message whose position or orientation has a NaN component and every message
whose non-empty frame id resolves to neither the global frame nor the alt-global frame.  Every
other message clears `global_localization_active_`; with a map it re-initialises the filter
(`pf_->init` with the mean and the covariance of the message, `pf_init_ = false`, no
hypothesis left pending); without a map it leaves the filter and `pf_init_` as they were and
keeps the hypothesis pending. -/
theorem initial_pose_message (ext : External) (tf : TfLib) (st : Node) (msg : InitialPoseMsg)
    (tx_odom : Option Transform) :
    (initialPoseDropped tf st msg = true →
      handleInitialPoseMessage ext tf st msg tx_odom = st) ∧
    (initialPoseDropped tf st msg = false → st.map_ = true →
      handleInitialPoseMessage ext tf st msg tx_odom =
        { st with
          pf_ := ext.init st.pf_ (initialPoseMean tf msg tx_odom) (initialPoseCov msg)
          pf_init_ := false
          initial_pose_hyp_ := none
          global_localization_active_ := false }) ∧
    (initialPoseDropped tf st msg = false → st.map_ = false →
      handleInitialPoseMessage ext tf st msg tx_odom =
        { st with
          initial_pose_hyp_ := some ⟨0, initialPoseMean tf msg tx_odom, initialPoseCov msg⟩
          global_localization_active_ := false }) := by
  rcases handleInitialPoseMessage_cases ext tf st msg tx_odom with ⟨h, e⟩ | ⟨h, e⟩
  · refine ⟨fun _ => e, fun h2 => ?_, fun h2 => ?_⟩
    · rw [h] at h2; exact absurd h2 (by decide)
    · rw [h] at h2; exact absurd h2 (by decide)
  · refine ⟨fun h2 => ?_, fun _ hmap => ?_, fun _ hmap => ?_⟩
    · rw [h] at h2; exact absurd h2 (by decide)
    · rw [e, applyInitialPose_some, if_pos hmap]
    · rw [e, applyInitialPose_some, if_neg (by simp [hmap])]

/-- C18, witness: the node of the scenario "robot at rest" (a map, an initialised filter) gets
the message at `(1, 2)` in the global frame: the filter is re-initialised at `(1, 2, 0)` and
`pf_init_` is cleared; the same message with a NaN `x` leaves the node unchanged. -/
theorem initial_pose_message_witness :
    (handleInitialPoseMessage plainExternal plainTf restNode mapPoseMsg none).pf_init_ = false ∧
    (handleInitialPoseMessage plainExternal plainTf restNode mapPoseMsg none).pf_.set.samples =
      [⟨⟨1, 2, 0⟩, 1⟩] ∧
    handleInitialPoseMessage plainExternal plainTf restNode
      { mapPoseMsg with position_x := none } none = restNode := by
  obtain ⟨-, h2, -⟩ := initial_pose_message plainExternal plainTf restNode mapPoseMsg none
  obtain ⟨h1, -⟩ := initial_pose_message plainExternal plainTf restNode
    { mapPoseMsg with position_x := none } none
  have e := h2 (mapPoseMsg_accepted restNode rfl) rfl
  refine ⟨by rw [e], ?_, h1 (by simp [initialPoseDropped, isnan])⟩
  rw [e]
  simp only [plainExternal, mapPoseMsg_mean]

/-! ## Claims about the rotation noise of the diff models -/

/-- Two angles that differ by a multiple of `2 * pi` and are both at most `pi` in absolute
value have the same absolute value. -/
theorem abs_eq_of_int_of_abs_le (x y : ℝ) (k : ℤ) (h : x = y + 2 * Real.pi * k)
    (hx : |x| ≤ Real.pi) (hy : |y| ≤ Real.pi) : |x| = |y| := by
  have hpi := Real.pi_pos
  have hx' := abs_le.mp hx
  have hy' := abs_le.mp hy
  have hk1 : (k : ℝ) < 2 := by
    by_contra hc
    have : (2 : ℝ) ≤ k := not_lt.mp hc
    nlinarith
  have hk2 : (-2 : ℝ) < k := by
    by_contra hc
    have : (k : ℝ) ≤ -2 := not_lt.mp hc
    nlinarith
  have hk1' : k < 2 := by exact_mod_cast hk1
  have hk2' : -2 < k := by exact_mod_cast hk2
  have hcases : k = -1 ∨ k = 0 ∨ k = 1 := by omega
  rcases hcases with rfl | rfl | rfl
  · have e : x = y - 2 * Real.pi := by rw [h]; push_cast; ring
    have hy1 : y = Real.pi := by linarith
    have hx1 : x = -Real.pi := by linarith
    rw [hx1, hy1, abs_neg]
  · have e : x = y := by rw [h]; push_cast; ring
    rw [e]
  · have e : x = y + 2 * Real.pi := by rw [h]; push_cast; ring
    have hy1 : y = -Real.pi := by linarith
    have hx1 : x = Real.pi := by linarith
    rw [hx1, hy1, abs_neg]

theorem abs_angleDiff_congr (a b c d : ℝ) (k : ℤ) (h : a - b = c - d + 2 * Real.pi * k) :
    |angleDiff a b| = |angleDiff c d| := by
  obtain ⟨k1, e1⟩ := angleDiff_int a b
  obtain ⟨k2, e2⟩ := angleDiff_int c d
  refine abs_eq_of_int_of_abs_le _ _ (k1 + k - k2) ?_ (angleDiff_abs_le a b)
    (angleDiff_abs_le c d)
  rw [e1, e2, h]
  push_cast
  ring

/-- The distance of `r` to the odd multiples of `pi` is `pi` minus its distance to the even
ones. -/
theorem abs_angleDiff_pi (r : ℝ) : |angleDiff r Real.pi| = Real.pi - |angleDiff r 0| := by
  have hpi := Real.pi_pos
  obtain ⟨k, e⟩ := angleDiff_int r 0
  obtain ⟨k2, e2⟩ := angleDiff_int r Real.pi
  have hx := abs_le.mp (angleDiff_abs_le r 0)
  by_cases h0 : 0 ≤ angleDiff r 0
  · have hy : |angleDiff r 0 - Real.pi| ≤ Real.pi := by
      rw [abs_le]; constructor <;> linarith
    rw [abs_eq_of_int_of_abs_le (angleDiff r Real.pi) (angleDiff r 0 - Real.pi) (k2 - k)
      (by rw [e2, e]; push_cast; ring) (angleDiff_abs_le r Real.pi) hy,
      abs_of_nonpos (by linarith), abs_of_nonneg h0]
    ring
  · have h0' : angleDiff r 0 < 0 := not_le.mp h0
    have hy : |angleDiff r 0 + Real.pi| ≤ Real.pi := by
      rw [abs_le]; constructor <;> linarith
    rw [abs_eq_of_int_of_abs_le (angleDiff r Real.pi) (angleDiff r 0 + Real.pi) (k2 - k - 1)
      (by rw [e2, e]; push_cast; ring) (angleDiff_abs_le r Real.pi) hy,
      abs_of_nonneg (by linarith), abs_of_neg h0']
    ring

theorem rotNoise_eq (r : ℝ) : rotNoise r = min |angleDiff r 0| (Real.pi - |angleDiff r 0|) := by
  unfold rotNoise
  rw [abs_angleDiff_pi]

/-- C26: the rotation noise magnitude `min(|angleDiff(r, 0)|, |angleDiff(r, pi)|)` of the diff
models (it is the value of `delta_rot1_noise` and of `delta_rot2_noise`) treats forward and
backward motion alike: for every real `r`, `noise(r + pi) = noise(r)`, `noise(-r) = noise(r)`
and `0 <= noise(r) <= pi / 2`. -/
theorem rotNoise_symmetric (r : ℝ) :
    rotNoise (r + Real.pi) = rotNoise r ∧ rotNoise (-r) = rotNoise r ∧
    0 ≤ rotNoise r ∧ rotNoise r ≤ Real.pi / 2 ∧
    (∀ (ndata : OdomData) (old_pose : PFVector),
      (diffLocals ndata old_pose).delta_rot1_noise =
        rotNoise (diffLocals ndata old_pose).delta_rot1 ∧
      (diffLocals ndata old_pose).delta_rot2_noise =
        rotNoise (diffLocals ndata old_pose).delta_rot2) := by
  have hx := angleDiff_abs_le r 0
  have h0 := abs_nonneg (angleDiff r 0)
  refine ⟨?_, ?_, ?_, ?_, fun _ _ => ⟨rfl, rfl⟩⟩
  · have e1 : |angleDiff (r + Real.pi) 0| = |angleDiff r Real.pi| :=
      abs_angleDiff_congr _ _ _ _ 1 (by push_cast; ring)
    rw [rotNoise_eq (r + Real.pi), rotNoise_eq r, e1, abs_angleDiff_pi, min_comm]
    congr 1
    ring
  · have e1 : |angleDiff (-r) 0| = |angleDiff r 0| := by
      obtain ⟨k1, e1⟩ := angleDiff_int (-r) 0
      obtain ⟨k2, e2⟩ := angleDiff_int r 0
      rw [← abs_neg (angleDiff r 0)]
      refine abs_eq_of_int_of_abs_le _ _ (k1 + k2) ?_ (angleDiff_abs_le _ _)
        (by rw [abs_neg]; exact hx)
      rw [e1, e2]
      push_cast
      ring
    rw [rotNoise_eq (-r), rotNoise_eq r, e1]
  · rw [rotNoise_eq]
    exact le_min h0 (by linarith)
  · rw [rotNoise_eq]
    rcases le_total |angleDiff r 0| (Real.pi / 2) with h | h
    · exact le_trans (min_le_left _ _) h
    · exact le_trans (min_le_right _ _) (by linarith)

/-! ## Claims about the uniform pose generator -/

/-- C24, counterexample: the uniform draw `0` gives the yaw `-pi`, which is not greater than
`-pi`. -/
theorem randomFreeSpacePose_counterexample :
    ∃ p, randomFreeSpacePose [(0, 0)] (fun _ => (0, 0)) 0 0 = some p ∧
      p.v2 = -Real.pi ∧ ¬ (-Real.pi < p.v2) := by
  refine ⟨⟨0, 0, 0 * 2 * Real.pi - Real.pi⟩, ?_, by ring, ?_⟩
  · simp [randomFreeSpacePose]
  · simp

/-- C24 (amended): for every values `u1`, `u2` in `[0, 1)` of the two uniform draws and every
non-empty free-space index, `randomFreeSpacePose` returns a pose at the world coordinates of
the cell number `floor(u1 * size)` of the index, with the yaw `u2 * 2 * pi - pi`, which lies in
`[-pi, pi)` and is `-pi` exactly when `u2 = 0`; when the free-space index is empty the returned
pose is the zero pose. -/
theorem randomFreeSpacePose_yaw (free_space_indices_ : List (Int × Int))
    (convertMapToWorld : Int × Int → ℝ × ℝ) (u1 u2 : ℝ)
    (h1 : 0 ≤ u1 ∧ u1 < 1) (h2 : 0 ≤ u2 ∧ u2 < 1) :
    (free_space_indices_ = [] →
      randomFreeSpacePose free_space_indices_ convertMapToWorld u1 u2 = some PFVector.zero) ∧
    (free_space_indices_ ≠ [] →
      ∃ free_point p,
        free_space_indices_[⌊u1 * free_space_indices_.length⌋₊]? = some free_point ∧
        randomFreeSpacePose free_space_indices_ convertMapToWorld u1 u2 = some p ∧
        p.v0 = (convertMapToWorld free_point).1 ∧ p.v1 = (convertMapToWorld free_point).2 ∧
        p.v2 = u2 * 2 * Real.pi - Real.pi ∧
        -Real.pi ≤ p.v2 ∧ p.v2 < Real.pi ∧ (p.v2 = -Real.pi ↔ u2 = 0)) := by
  have hpi := Real.pi_pos
  refine ⟨fun h => by simp [randomFreeSpacePose, h], fun h => ?_⟩
  have hlen : 0 < free_space_indices_.length := List.length_pos.mpr h
  have hlenR : (0 : ℝ) < free_space_indices_.length := by exact_mod_cast hlen
  have hidx : ⌊u1 * free_space_indices_.length⌋₊ < free_space_indices_.length := by
    rw [Nat.floor_lt (mul_nonneg h1.1 hlenR.le)]
    nlinarith [h1.2]
  refine ⟨free_space_indices_[⌊u1 * free_space_indices_.length⌋₊],
    ⟨(convertMapToWorld free_space_indices_[⌊u1 * free_space_indices_.length⌋₊]).1,
      (convertMapToWorld free_space_indices_[⌊u1 * free_space_indices_.length⌋₊]).2,
      u2 * 2 * Real.pi - Real.pi⟩,
    List.getElem?_eq_getElem hidx, ?_, rfl, rfl, rfl, ?_, ?_, ?_⟩
  · unfold randomFreeSpacePose
    rw [if_neg (by omega)]
    simp only [List.getElem?_eq_getElem hidx]
  · simp only []
    nlinarith [h2.1]
  · simp only []
    nlinarith [h2.2]
  · simp only []
    constructor
    · intro he
      have : u2 * (2 * Real.pi) = 0 := by linarith
      rcases mul_eq_zero.mp this with h0 | h0
      · exact h0
      · linarith
    · intro he
      rw [he]
      ring

/-- C24, witness: a free-space index of two cells, the draws `0.5` and `0.75`: the pose is at
the second cell with the yaw `pi / 2`. -/
theorem randomFreeSpacePose_yaw_witness :
    ∃ p, randomFreeSpacePose [(0, 0), (3, 4)] (fun c => (c.1, c.2)) 0.5 0.75 = some p ∧
      p.v0 = 3 ∧ p.v1 = 4 ∧ -Real.pi ≤ p.v2 ∧ p.v2 < Real.pi := by
  obtain ⟨-, h⟩ := randomFreeSpacePose_yaw [(0, 0), (3, 4)] (fun c => (c.1, c.2)) 0.5 0.75
    ⟨by norm_num, by norm_num⟩ ⟨by norm_num, by norm_num⟩
  obtain ⟨free_point, p, hf, hp, hx, hy, -, hlo, hhi, -⟩ := h (by simp)
  have hfl : ⌊(0.5 : ℝ) * (([(0, 0), (3, 4)] : List (Int × Int)).length : ℝ)⌋₊ = 1 := by
    norm_num
  rw [hfl] at hf
  simp only [List.getElem?_cons_succ, List.getElem?_cons_zero, Option.some.injEq] at hf
  subst hf
  refine ⟨p, hp, ?_, ?_, hlo, hhi⟩
  · rw [hx]; norm_num
  · rw [hy]; norm_num

/-! ## Claims about the odometry integrator -/

theorem integrateOdom_not_ready (st : Node) (pose : PFVector)
    (h : st.odom_integrator_ready_ = false) :
    integrateOdom st pose = { st with
      odom_integrator_absolute_motion_ := PFVector.zero
      odom_integrator_ready_ := true
      odom_integrator_last_pose_ := pose } := by
  unfold integrateOdom
  rw [if_pos (by rw [h]; rfl)]
  rfl

theorem integrateOdom_ready (st : Node) (pose : PFVector)
    (h : st.odom_integrator_ready_ = true) :
    integrateOdom st pose = { st with
      odom_integrator_absolute_motion_ :=
        { v0 := st.odom_integrator_absolute_motion_.v0 +
            |(integratorLocals pose st.odom_integrator_last_pose_).delta_trans *
              Real.cos (integratorLocals pose st.odom_integrator_last_pose_).delta_bearing|
          v1 := st.odom_integrator_absolute_motion_.v1 +
            |(integratorLocals pose st.odom_integrator_last_pose_).delta_trans *
              Real.sin (integratorLocals pose st.odom_integrator_last_pose_).delta_bearing|
          v2 := st.odom_integrator_absolute_motion_.v2 +
            |(integratorLocals pose st.odom_integrator_last_pose_).delta_rot| }
      odom_integrator_last_pose_ := pose } := by
  unfold integrateOdom
  rw [if_neg (by rw [h]; simp)]

/-- After the first message the integrator is ready and its accumulator is non-negative, and
stays so. -/
theorem integrateAll_nonneg (poses : List PFVector) :
    ∀ st : Node,
      (st.odom_integrator_ready_ = false ∨
        (0 ≤ st.odom_integrator_absolute_motion_.v0 ∧
          0 ≤ st.odom_integrator_absolute_motion_.v1 ∧
          0 ≤ st.odom_integrator_absolute_motion_.v2)) →
      poses ≠ [] →
      (integrateAll st poses).odom_integrator_ready_ = true ∧
      0 ≤ (integrateAll st poses).odom_integrator_absolute_motion_.v0 ∧
      0 ≤ (integrateAll st poses).odom_integrator_absolute_motion_.v1 ∧
      0 ≤ (integrateAll st poses).odom_integrator_absolute_motion_.v2 := by
  induction poses with
  | nil => intro st _ h; exact absurd rfl h
  | cons p rest ih =>
    intro st hst _
    have hstep : (integrateOdom st p).odom_integrator_ready_ = true ∧
        0 ≤ (integrateOdom st p).odom_integrator_absolute_motion_.v0 ∧
        0 ≤ (integrateOdom st p).odom_integrator_absolute_motion_.v1 ∧
        0 ≤ (integrateOdom st p).odom_integrator_absolute_motion_.v2 := by
      by_cases hr : st.odom_integrator_ready_ = true
      · rcases hst with h | ⟨h0, h1, h2⟩
        · rw [hr] at h; exact absurd h (by decide)
        · rw [integrateOdom_ready st p hr]
          exact ⟨hr, add_nonneg h0 (abs_nonneg _), add_nonneg h1 (abs_nonneg _),
            add_nonneg h2 (abs_nonneg _)⟩
      · rw [integrateOdom_not_ready st p (by simpa using hr)]
        exact ⟨rfl, le_refl _, le_refl _, le_refl _⟩
    cases rest with
    | nil => exact hstep
    | cons q rest' =>
      exact ih (integrateOdom st p) (Or.inr hstep.2) (by simp)

/-- C28: the first odometry message after `initOdomIntegrator` only zeroes the accumulator and
records the pose; each later message with the pose `P` adds `(|t * cos b|, |t * sin b|, |dyaw|)`
to the accumulator and records the pose, where `(dx, dy, dyaw)` is `P` minus the last pose with
the yaw through `angleDiff`, `t = sqrt(dx^2 + dy^2)` and
`b = angleDiff(atan2(dy, dx), last yaw + dyaw / 2)` (`b = 0` when `t < 1e-6`).  The squares of
the forward and strafe increments sum to `t^2`, no component of the accumulator decreases, and
in a run of messages after `initOdomIntegrator` every component is `>= 0` after every
message. -/
theorem integrateOdom_accumulates (st : Node) (pose : PFVector) (poses : List PFVector) :
    (integrateOdom (initOdomIntegrator st) pose).odom_integrator_absolute_motion_ =
      PFVector.zero ∧
    (integrateOdom (initOdomIntegrator st) pose).odom_integrator_last_pose_ = pose ∧
    (integrateOdom (initOdomIntegrator st) pose).odom_integrator_ready_ = true ∧
    (st.odom_integrator_ready_ = true →
      ∃ t b dyaw : ℝ,
        t = Real.sqrt ((pose.v0 - st.odom_integrator_last_pose_.v0) *
              (pose.v0 - st.odom_integrator_last_pose_.v0) +
            (pose.v1 - st.odom_integrator_last_pose_.v1) *
              (pose.v1 - st.odom_integrator_last_pose_.v1)) ∧
        dyaw = angleDiff pose.v2 st.odom_integrator_last_pose_.v2 ∧
        b = (if t < 0.000001 then 0
          else angleDiff (atan2 (pose.v1 - st.odom_integrator_last_pose_.v1)
              (pose.v0 - st.odom_integrator_last_pose_.v0))
            (st.odom_integrator_last_pose_.v2 + dyaw / 2)) ∧
        (integrateOdom st pose).odom_integrator_absolute_motion_ =
          { v0 := st.odom_integrator_absolute_motion_.v0 + |t * Real.cos b|
            v1 := st.odom_integrator_absolute_motion_.v1 + |t * Real.sin b|
            v2 := st.odom_integrator_absolute_motion_.v2 + |dyaw| } ∧
        (integrateOdom st pose).odom_integrator_last_pose_ = pose ∧
        (integrateOdom st pose).odom_integrator_ready_ = true ∧
        |t * Real.cos b| * |t * Real.cos b| + |t * Real.sin b| * |t * Real.sin b| = t * t ∧
        st.odom_integrator_absolute_motion_.v0 ≤
          (integrateOdom st pose).odom_integrator_absolute_motion_.v0 ∧
        st.odom_integrator_absolute_motion_.v1 ≤
          (integrateOdom st pose).odom_integrator_absolute_motion_.v1 ∧
        st.odom_integrator_absolute_motion_.v2 ≤
          (integrateOdom st pose).odom_integrator_absolute_motion_.v2) ∧
    (poses ≠ [] →
      0 ≤ (integrateAll (initOdomIntegrator st) poses).odom_integrator_absolute_motion_.v0 ∧
      0 ≤ (integrateAll (initOdomIntegrator st) poses).odom_integrator_absolute_motion_.v1 ∧
      0 ≤ (integrateAll (initOdomIntegrator st) poses).odom_integrator_absolute_motion_.v2) := by
  have hinit := integrateOdom_not_ready (initOdomIntegrator st) pose rfl
  refine ⟨by rw [hinit], by rw [hinit], by rw [hinit], fun hr => ?_, fun hp => ?_⟩
  · refine ⟨_, _, _, rfl, rfl, rfl, ?_⟩
    rw [integrateOdom_ready st pose hr]
    refine ⟨rfl, rfl, hr, ?_, ?_, ?_, ?_⟩
    · rw [abs_mul_abs_self, abs_mul_abs_self]
      have := Real.cos_sq_add_sin_sq
        (integratorLocals pose st.odom_integrator_last_pose_).delta_bearing
      simp only [integratorLocals] at this ⊢
      nlinarith [this]
    · exact le_add_of_nonneg_right (abs_nonneg _)
    · exact le_add_of_nonneg_right (abs_nonneg _)
    · exact le_add_of_nonneg_right (abs_nonneg _)
  · exact (integrateAll_nonneg poses (initOdomIntegrator st) (Or.inl rfl) hp).2

theorem atan2_zero_two : atan2 (0 - 0) (2 - 0) = 0 := by
  unfold atan2
  have h : (⟨2 - 0, 0 - 0⟩ : ℂ) = ((2 : ℝ) : ℂ) := by
    apply Complex.ext <;> simp
  rw [h]
  exact Complex.arg_ofReal_of_nonneg (by norm_num)

/-- C28, witness: the integrator is running with the last pose `(0, 0, 0)` and an accumulator
of zeros; a message with the pose `(2, 0, 0)` makes the accumulator `(2, 0, 0)`; and after
`initOdomIntegrator` and two messages every component of the accumulator is `>= 0`. -/
theorem integrateOdom_accumulates_witness :
    (integrateOdom runningNode ⟨2, 0, 0⟩).odom_integrator_absolute_motion_ = ⟨2, 0, 0⟩ ∧
    0 ≤ (integrateAll (initOdomIntegrator runningNode)
      [⟨0, 0, 0⟩, ⟨2, 0, 0⟩]).odom_integrator_absolute_motion_.v0 := by
  obtain ⟨-, -, -, h4, h5⟩ := integrateOdom_accumulates runningNode ⟨2, 0, 0⟩
    [⟨0, 0, 0⟩, ⟨2, 0, 0⟩]
  refine ⟨?_, (h5 (by simp)).1⟩
  obtain ⟨t, b, dyaw, ht, hd, hb, hacc, -⟩ := h4 rfl
  have ht2 : t = 2 := by
    rw [ht]
    simp only [runningNode, PFVector.zero, sub_zero, mul_zero, add_zero]
    exact Real.sqrt_mul_self (by norm_num)
  have hd0 : dyaw = 0 := by
    rw [hd]
    exact angleDiff_self_zero
  have hb0 : b = 0 := by
    rw [hb, ht2, hd0, if_neg (by norm_num)]
    simp only [runningNode, PFVector.zero, zero_div, add_zero]
    rw [atan2_zero_two]
    exact angleDiff_self_zero
  rw [hacc, ht2, hb0, hd0]
  simp [runningNode, PFVector.zero]

/-! ## Claims about the subsampling step -/

theorem swap_lt_three (i k x : ℕ) (hi : i < 3) (hk : k < 3) (hx : x < 3) :
    Equiv.swap i k x < 3 := by
  rw [Equiv.swap_apply_def]
  split_ifs <;> assumption

theorem swap_ge_three (i k x : ℕ) (hi : i < 3) (hk : k < 3) (hx : 3 ≤ x) :
    Equiv.swap i k x = x := by
  rw [Equiv.swap_apply_def]
  split_ifs <;> omega

/-- The exchange `d[k] = d[i]; d[i] = p` with `p = d[k]`. -/
theorem update_exchange (d : DVec) (i k x : ℕ) :
    Function.update (Function.update d k (d i)) i (d k) x = d (Equiv.swap i k x) := by
  rw [Equiv.swap_apply_def]
  by_cases h1 : x = i
  · subst h1
    simp
  · by_cases h2 : x = k
    · subst h2
      simp [h1]
    · simp [h1, h2]

/-- The exchange `p = V[j][i]; V[j][i] = V[j][k]; V[j][k] = p` in the row `r = V[j]`. -/
theorem row_exchange (r : DVec) (i k x : ℕ) :
    Function.update (Function.update r i (r k)) k (r i) x = r (Equiv.swap i k x) := by
  rw [Equiv.swap_apply_def]
  by_cases h1 : x = i
  · subst h1
    by_cases h2 : x = k
    · subst h2; simp
    · simp [h2]
  · by_cases h2 : x = k
    · subst h2
      simp [h1]
    · simp [h1, h2]

/-- The exchange of the columns `i` and `k` in the rows `0, 1, 2`. -/
theorem columns_exchange (V : DMat) (i k : ℕ) :
    (∀ j x, j < 3 →
      forUp 0 EIG3_N (fun j (V : DMat) => (V.set j i (V j k)).set j k (V j i)) V j x =
        V j (Equiv.swap i k x)) ∧
    (∀ j, 3 ≤ j →
      forUp 0 EIG3_N (fun j (V : DMat) => (V.set j i (V j k)).set j k (V j i)) V j = V j) := by
  constructor
  · intro j x hj
    rw [← row_exchange (V j) i k x]
    interval_cases j <;> simp [forUp, forUpFrom, EIG3_N, DMat.set]
  · intro j hj
    have h0 : j ≠ 0 := by omega
    have h1 : j ≠ 1 := by omega
    have h2 : j ≠ 2 := by omega
    simp [forUp, forUpFrom, EIG3_N, DMat.set, Function.update, h0, h1, h2]

/-- The result of `sortPass` when the inner loop ends with the index `k` and `p = d[k]`. -/
theorem sortPass_exchange (i k : ℕ) (V : DMat) (d : DVec)
    (h : forUp (i + 1) EIG3_N (fun j (kp : ℕ × ℝ) =>
      if d j < kp.2 then (j, d j) else kp) (i, d i) = (k, d k)) :
    (∀ x, (sortPass i (V, d)).2 x = d (Equiv.swap i k x)) ∧
    (∀ j x, j < 3 → (sortPass i (V, d)).1 j x = V j (Equiv.swap i k x)) ∧
    (∀ j, 3 ≤ j → (sortPass i (V, d)).1 j = V j) := by
  unfold sortPass
  simp only [h]
  by_cases hk : k = i
  · subst hk
    simp
  · rw [if_pos hk]
    obtain ⟨c1, c2⟩ := columns_exchange V i k
    exact ⟨fun x => update_exchange d i k x, c1, c2⟩

/-- One round of the sorting loop: the smallest of `d[i], ..., d[2]` is brought to the index
`i` by the exchange of two entries of `d` and of the two columns of `V`. -/
theorem sortPass_spec (i : ℕ) (hi : i = 0 ∨ i = 1) (V : DMat) (d : DVec) :
    ∃ k, i ≤ k ∧ k < 3 ∧
      (∀ x, (sortPass i (V, d)).2 x = d (Equiv.swap i k x)) ∧
      (∀ j x, j < 3 → (sortPass i (V, d)).1 j x = V j (Equiv.swap i k x)) ∧
      (∀ j, 3 ≤ j → (sortPass i (V, d)).1 j = V j) ∧
      (∀ j, i ≤ j → j < 3 → d k ≤ d j) := by
  rcases hi with rfl | rfl
  · by_cases h1 : d 1 < d 0
    · by_cases h2 : d 2 < d 1
      · obtain ⟨a, b, c⟩ := sortPass_exchange 0 2 V d
          (by simp [forUp, forUpFrom, EIG3_N, h1, h2])
        exact ⟨2, by omega, by omega, a, b, c,
          fun j _ hj => by interval_cases j <;> linarith⟩
      · obtain ⟨a, b, c⟩ := sortPass_exchange 0 1 V d
          (by simp [forUp, forUpFrom, EIG3_N, h1, h2])
        exact ⟨1, by omega, by omega, a, b, c,
          fun j _ hj => by interval_cases j <;> linarith⟩
    · by_cases h2 : d 2 < d 0
      · obtain ⟨a, b, c⟩ := sortPass_exchange 0 2 V d
          (by simp [forUp, forUpFrom, EIG3_N, h1, h2])
        exact ⟨2, by omega, by omega, a, b, c,
          fun j _ hj => by interval_cases j <;> linarith⟩
      · obtain ⟨a, b, c⟩ := sortPass_exchange 0 0 V d
          (by simp [forUp, forUpFrom, EIG3_N, h1, h2])
        exact ⟨0, by omega, by omega, a, b, c,
          fun j _ hj => by interval_cases j <;> linarith⟩
  · by_cases h2 : d 2 < d 1
    · obtain ⟨a, b, c⟩ := sortPass_exchange 1 2 V d
        (by simp [forUp, forUpFrom, EIG3_N, h2])
      exact ⟨2, by omega, by omega, a, b, c,
        fun j hj1 hj => by interval_cases j <;> linarith⟩
    · obtain ⟨a, b, c⟩ := sortPass_exchange 1 1 V d
        (by simp [forUp, forUpFrom, EIG3_N, h2])
      exact ⟨1, by omega, by omega, a, b, c,
        fun j hj1 hj => by interval_cases j <;> linarith⟩

/-- The sorting pass of `tql2`: two rounds, each an exchange chosen by a linear search. -/
theorem sortEigen_spec (V : DMat) (d : DVec) :
    ∃ k0 k1, k0 < 3 ∧ 1 ≤ k1 ∧ k1 < 3 ∧
      (∀ x, (sortEigen V d).2 x = d (Equiv.swap 0 k0 (Equiv.swap 1 k1 x))) ∧
      (∀ j x, j < 3 → (sortEigen V d).1 j x = V j (Equiv.swap 0 k0 (Equiv.swap 1 k1 x))) ∧
      (∀ j, 3 ≤ j → (sortEigen V d).1 j = V j) ∧
      (sortEigen V d).2 0 ≤ (sortEigen V d).2 1 ∧ (sortEigen V d).2 1 ≤ (sortEigen V d).2 2 := by
  have hse : sortEigen V d = sortPass 1 (sortPass 0 (V, d)) := by
    simp [sortEigen, forUp, forUpFrom, EIG3_N]
  obtain ⟨k0, -, hk0, hd0, hV0, hR0, hmin0⟩ := sortPass_spec 0 (Or.inl rfl) V d
  obtain ⟨k1, hk1, hk1', hd1, hV1, hR1, hmin1⟩ :=
    sortPass_spec 1 (Or.inr rfl) (sortPass 0 (V, d)).1 (sortPass 0 (V, d)).2
  have hd : ∀ x, (sortEigen V d).2 x = d (Equiv.swap 0 k0 (Equiv.swap 1 k1 x)) := by
    intro x
    rw [hse, hd1, hd0]
  refine ⟨k0, k1, hk0, hk1, hk1', hd, ?_, ?_, ?_, ?_⟩
  · intro j x hj
    rw [hse, hV1 j x hj, hV0 j _ hj]
  · intro j hj
    rw [hse, hR1 j hj, hR0 j hj]
  · rw [hse, hd1 0, hd1 1, Equiv.swap_apply_left]
    have h0 : Equiv.swap 1 k1 0 = 0 :=
      Equiv.swap_apply_of_ne_of_ne (by omega) (by omega)
    rw [h0, hd0 0, hd0 k1, Equiv.swap_apply_left]
    exact hmin0 _ (Nat.zero_le _) (swap_lt_three 0 k0 k1 (by omega) hk0 hk1')
  · rw [hse, hd1 1, hd1 2, Equiv.swap_apply_left]
    have h2 : 1 ≤ Equiv.swap 1 k1 2 := by
      rcases Nat.lt_or_ge k1 2 with h | h
      · have hk : k1 = 1 := by omega
        subst hk
        simp
      · have hk : k1 = 2 := by omega
        subst hk
        simp
    exact hmin1 _ h2 (swap_lt_three 1 k1 2 (by omega) hk1' (by omega))

/-- C21: the sorting pass at the end of `tql2` (eig3.cpp, lines 243-263) leaves the
eigenvalues in ascending order, `d[0] <= d[1] <= d[2]`; the new `d` is the old one composed
with a permutation of the indices `0, 1, 2`, and the columns of `V` are permuted by the same
permutation in every row `0, 1, 2` (the entries are real numbers: no NaN). -/
theorem sortEigen_sorted_permutation (V : DMat) (d : DVec) :
    ∃ σ : Equiv.Perm ℕ,
      (∀ x, x < 3 → σ x < 3) ∧ (∀ x, 3 ≤ x → σ x = x) ∧
      (sortEigen V d).2 0 ≤ (sortEigen V d).2 1 ∧
      (sortEigen V d).2 1 ≤ (sortEigen V d).2 2 ∧
      (∀ x, (sortEigen V d).2 x = d (σ x)) ∧
      (∀ j x, j < 3 → (sortEigen V d).1 j x = V j (σ x)) := by
  obtain ⟨k0, k1, hk0, hk1, hk1', hd, hV, -, h01, h12⟩ := sortEigen_spec V d
  refine ⟨(Equiv.swap 1 k1).trans (Equiv.swap 0 k0), ?_, ?_, h01, h12, hd, hV⟩
  · intro x hx
    exact swap_lt_three 0 k0 _ (by omega) hk0 (swap_lt_three 1 k1 x (by omega) hk1' hx)
  · intro x hx
    show Equiv.swap 0 k0 (Equiv.swap 1 k1 x) = x
    rw [swap_ge_three 1 k1 x (by omega) hk1' hx, swap_ge_three 0 k0 x (by omega) hk0 hx]

/-! ## Facts about `tql2` and `tred2` -/

theorem EIG3_eps_pos : 0 < EIG3_eps := by
  unfold EIG3_eps
  positivity

theorem findSmall_ge (e : DVec) (t : ℝ) (count m : ℕ) : m ≤ findSmall e t count m := by
  induction count generalizing m with
  | zero => simp [findSmall]
  | succ n ih =>
    unfold findSmall
    split_ifs
    · exact le_refl _
    · exact le_trans (Nat.le_succ m) (ih (m + 1))
    · exact le_refl _

theorem findSmall_le (e : DVec) (t : ℝ) (count m k : ℕ) (h1 : m ≤ k) (hk : k < EIG3_N)
    (hc : k < m + count) (hs : |e k| ≤ EIG3_eps * t) : findSmall e t count m ≤ k := by
  induction count generalizing m with
  | zero => omega
  | succ n ih =>
    unfold findSmall
    split_ifs with ha hb
    · exact h1
    · rcases Nat.eq_or_lt_of_le h1 with h | h
      · subst h
        exact absurd hs hb
      · exact ih (m + 1) h (by omega)
    · omega

/-- A round of the loop over `l` with `|e[l]| <= eps*tst1`: the search stops at `m = l` and
the do-while loop is not entered. -/
theorem tql2Step_of_small (fuel l : ℕ) (st : Tql2State) (hl : l < EIG3_N)
    (hs : |st.e l| ≤ EIG3_eps * max (|st.d l| + |st.e l|) st.tst1) :
    tql2Step fuel l st =
      .ok { st with tst1 := max (|st.d l| + |st.e l|) st.tst1,
                    d := Function.update st.d l (st.d l + st.f),
                    e := Function.update st.e l 0 } := by
  have hm : findSmall st.e (max (|st.d l| + |st.e l|) st.tst1) (EIG3_N - l) l = l := by
    apply le_antisymm _ (findSmall_ge _ _ _ _)
    exact findSmall_le _ _ _ _ _ (le_refl l) hl (by omega) hs
  unfold tql2Step
  simp only [hm, gt_iff_lt, lt_self_iff_false, if_false]

theorem tql2Step_of_zero (fuel l : ℕ) (st : Tql2State) (hl : l < EIG3_N) (hs : st.e l = 0) :
    tql2Step fuel l st =
      .ok { st with tst1 := max (|st.d l| + |st.e l|) st.tst1,
                    d := Function.update st.d l (st.d l + st.f),
                    e := Function.update st.e l 0 } := by
  apply tql2Step_of_small fuel l st hl
  rw [hs, abs_zero]
  exact mul_nonneg EIG3_eps_pos.le (le_max_of_le_left (by positivity))

/-- With `e[1] = e[2] = 0` on entry, `tql2` performs no round of the do-while loop: the
result is the sorting pass on the given `V` and `d`. -/
theorem tql2_of_e_zero (fuel : ℕ) (V : DMat) (d e : DVec) (h1 : e 1 = 0) (h2 : e 2 = 0) :
    ∃ e', tql2 fuel V d e = .ok ((sortEigen V d).1, (sortEigen V d).2, e', 0) := by
  have hE : ∀ E : DVec, E 0 = 0 → E 1 = 0 → E 2 = 0 →
      tql2Steps fuel EIG3_N 0 { V := V, d := d, e := E, f := 0, tst1 := 0, ql_iterations := 0 } =
        .ok { V := V, d := d, e := E,
              f := 0, tst1 := max (|d 2| + 0) (max (|d 1| + 0) (max (|d 0| + 0) 0)),
              ql_iterations := 0 } := by
    intro E h0 h1 h2
    have hu : ∀ (f : DVec) (i : ℕ), Function.update f i (f i + 0) = f := by
      intro f i
      rw [add_zero, Function.update_eq_self]
    have hz : ∀ i : ℕ, E i = 0 → Function.update E i 0 = E := by
      intro i hi
      rw [← hi, Function.update_eq_self]
    simp only [tql2Steps, EIG3_N]
    rw [tql2Step_of_zero fuel 0 _ (by decide) h0]
    simp only [hu, hz 0 h0, h0, abs_zero]
    rw [tql2Step_of_zero fuel 1 _ (by decide) h1]
    simp only [hu, hz 1 h1, h1, abs_zero]
    rw [tql2Step_of_zero fuel 2 _ (by decide) h2]
    simp only [hu, hz 2 h2, h2, abs_zero]
  have hp := hE (Function.update (forUp 1 EIG3_N
      (fun i (e : DVec) => Function.update e (i - 1) (e i)) e) (EIG3_N - 1) 0)
    (by simp [forUp, forUpFrom, EIG3_N, h1]) (by simp [forUp, forUpFrom, EIG3_N, h2])
    (by simp [EIG3_N])
  unfold tql2
  simp only [hp]
  exact ⟨_, rfl⟩

/-- The Householder reduction of a diagonal matrix: both rounds take the branch
`scale == 0.0`, nothing is accumulated, and the copies end as `V` = identity,
`d = (a, b, c)`, `e = (0, 0, 0)`. -/
theorem tred2_diag3 (a b c : ℝ) (d e : DVec) :
    (∀ i j, (tred2 (diag3 a b c) d e).1 i j = diag3 1 1 1 i j) ∧
    (tred2 (diag3 a b c) d e).2.1 0 = a ∧
    (tred2 (diag3 a b c) d e).2.1 1 = b ∧
    (tred2 (diag3 a b c) d e).2.1 2 = c ∧
    (tred2 (diag3 a b c) d e).2.2 0 = 0 ∧
    (tred2 (diag3 a b c) d e).2.2 1 = 0 ∧
    (tred2 (diag3 a b c) d e).2.2 2 = 0 := by
  refine ⟨?_, ?_, ?_, ?_, ?_, ?_, ?_⟩
  · intro i j
    have hi : i = 0 ∨ i = 1 ∨ i = 2 ∨ 3 ≤ i := by omega
    have hj : j = 0 ∨ j = 1 ∨ j = 2 ∨ 3 ≤ j := by omega
    rcases hi with rfl | rfl | rfl | hi <;> rcases hj with rfl | rfl | rfl | hj <;>
      simp [tred2, forUp, forUpFrom, forDown, forDownFrom, EIG3_N, tred2Reduce,
        tred2Accumulate, diag3, DMat.set, Function.update] <;>
      (try split_ifs) <;> (try omega) <;> (try rfl) <;> (try simp_all [diag3])
  all_goals
    simp [tred2, forUp, forUpFrom, forDown, forDownFrom, EIG3_N, tred2Reduce, tred2Accumulate,
      diag3, DMat.set, Function.update]

/-! ## Claims about diagonal matrices in the eigen solver -/

/-- The sorting pass on eigenvalues that are in ascending order changes nothing. -/
theorem sortEigen_of_sorted (V : DMat) (d : DVec) (h01 : d 0 ≤ d 1) (h12 : d 1 ≤ d 2) :
    sortEigen V d = (V, d) := by
  have h1 : ¬ d 1 < d 0 := not_lt.mpr h01
  have h2 : ¬ d 2 < d 1 := not_lt.mpr h12
  have h3 : ¬ d 2 < d 0 := not_lt.mpr (le_trans h01 h12)
  simp [sortEigen, sortPass, forUp, forUpFrom, EIG3_N, h1, h2, h3]

/-- The call `eigenDecomposition(A, V, d)`: `tql2` gets the copy of `A`, the caller's `d` and
`e = 0`, so it only sorts; the caller's `V` and `d` stay. -/
theorem eigenDecompositionCall_eq (fuel : ℕ) (A V : DMat) (d : DVec) :
    ∃ e', eigenDecompositionCall fuel A V d =
      .ok (((sortEigen (forUp 0 EIG3_N (fun i (W : DMat) =>
              forUp 0 EIG3_N (fun j (W : DMat) => W.set i j (A i j)) W) V) d).1,
            (sortEigen (forUp 0 EIG3_N (fun i (W : DMat) =>
              forUp 0 EIG3_N (fun j (W : DMat) => W.set i j (A i j)) W) V) d).2, e', 0),
           (V, d)) := by
  obtain ⟨e', he'⟩ := tql2_of_e_zero fuel
    (forUp 0 EIG3_N (fun i (W : DMat) =>
      forUp 0 EIG3_N (fun j (W : DMat) => W.set i j (A i j)) W) V) d (fun _ => 0) rfl rfl
  refine ⟨e', ?_⟩
  unfold eigenDecompositionCall
  simp only [he']

/-- C22: for every diagonal matrix `diag(a, b, c)`, `tql2` run on what `tred2` ends with
performs no round of the do-while loop and ends with `d` = `a, b, c` in ascending order and
with `V` the permutation matrix whose column `x` is the unit vector of the axis `σ x` that
carries `d[x]`; for the zero matrix this is `d = (0, 0, 0)` and `V` = identity.  In
`eigenDecomposition`, however, the results of `tred2` do not reach `tql2` and those of `tql2`
do not reach the caller (all parameters are passed by value): `tql2` sorts the caller's `d`,
and after the call the caller's `V` and `d` are what they were; for the zero matrix and the
caller's `d = (1, 1, 1)` the eigenvalues in both places are `(1, 1, 1)`, not `(0, 0, 0)`. -/
theorem diagonal_chain_and_by_value_call (a b c : ℝ) (V : DMat) (d e : DVec) (fuel : ℕ) :
    (∃ σ : Equiv.Perm ℕ, ∃ r : DMat × DVec × DVec × ℕ,
      tql2 fuel (tred2 (diag3 a b c) d e).1 (tred2 (diag3 a b c) d e).2.1
        (tred2 (diag3 a b c) d e).2.2 = .ok r ∧
      r.2.2.2 = 0 ∧ (∀ x, x < 3 → σ x < 3) ∧
      r.2.1 0 ≤ r.2.1 1 ∧ r.2.1 1 ≤ r.2.1 2 ∧
      (∀ x, x < 3 → r.2.1 x = diag3 a b c (σ x) (σ x)) ∧
      (∀ j x, j < 3 → x < 3 → r.1 j x = if j = σ x then 1 else 0)) ∧
    (∃ r : DMat × DVec × DVec × ℕ,
      tql2 fuel (tred2 (diag3 0 0 0) d e).1 (tred2 (diag3 0 0 0) d e).2.1
        (tred2 (diag3 0 0 0) d e).2.2 = .ok r ∧
      r.2.2.2 = 0 ∧ (∀ x, x < 3 → r.2.1 x = 0) ∧
      (∀ j x, j < 3 → x < 3 → r.1 j x = if j = x then 1 else 0)) ∧
    (∃ r : DMat × DVec × DVec × ℕ,
      eigenDecompositionCall fuel (diag3 a b c) V d = .ok (r, (V, d)) ∧ r.2.2.2 = 0 ∧
      ∃ σ : Equiv.Perm ℕ, ∀ x, r.2.1 x = d (σ x)) ∧
    (∃ r : DMat × DVec × DVec × ℕ,
      eigenDecompositionCall fuel (diag3 0 0 0) V (fun _ => 1) = .ok (r, (V, fun _ => 1)) ∧
      r.2.1 0 = 1 ∧ r.2.1 1 = 1 ∧ r.2.1 2 = 1) := by
  refine ⟨?_, ?_, ?_, ?_⟩
  · obtain ⟨hV, h0, h1, h2, -, he1, he2⟩ := tred2_diag3 a b c d e
    obtain ⟨e', he'⟩ := tql2_of_e_zero fuel (tred2 (diag3 a b c) d e).1
      (tred2 (diag3 a b c) d e).2.1 (tred2 (diag3 a b c) d e).2.2 he1 he2
    obtain ⟨k0, k1, hk0, hk1, hk1', hd, hVs, -, h01, h12⟩ :=
      sortEigen_spec (tred2 (diag3 a b c) d e).1 (tred2 (diag3 a b c) d e).2.1
    have hσ : ∀ x, x < 3 → Equiv.swap 0 k0 (Equiv.swap 1 k1 x) < 3 := fun x hx =>
      swap_lt_three 0 k0 _ (by omega) hk0 (swap_lt_three 1 k1 x (by omega) hk1' hx)
    refine ⟨(Equiv.swap 1 k1).trans (Equiv.swap 0 k0), _, he', rfl, hσ, h01, h12, ?_, ?_⟩
    · intro x hx
      show (sortEigen _ _).2 x = _
      rw [hd x]
      have := hσ x hx
      simp only [Equiv.trans_apply]
      generalize Equiv.swap 0 k0 (Equiv.swap 1 k1 x) = y at this ⊢
      interval_cases y
      · rw [h0]; simp [diag3]
      · rw [h1]; simp [diag3]
      · rw [h2]; simp [diag3]
    · intro j x hj hx
      show (sortEigen _ _).1 j x = _
      rw [hVs j x hj, hV]
      have hI : ∀ j y : ℕ, j < 3 → y < 3 → diag3 1 1 1 j y = if j = y then 1 else 0 := by
        intro j y hj hy
        interval_cases y <;> interval_cases j <;> simp [diag3]
      exact hI j _ hj (hσ x hx)
  · obtain ⟨hV, h0, h1, h2, -, he1, he2⟩ := tred2_diag3 0 0 0 d e
    obtain ⟨e', he'⟩ := tql2_of_e_zero fuel (tred2 (diag3 0 0 0) d e).1
      (tred2 (diag3 0 0 0) d e).2.1 (tred2 (diag3 0 0 0) d e).2.2 he1 he2
    rw [sortEigen_of_sorted _ _ (by rw [h0, h1]) (by rw [h1, h2])] at he'
    refine ⟨_, he', rfl, ?_, ?_⟩
    · intro x hx
      interval_cases x
      · exact h0
      · exact h1
      · exact h2
    · intro j x hj hx
      show (tred2 (diag3 0 0 0) d e).1 j x = _
      rw [hV]
      interval_cases j <;> interval_cases x <;> simp [diag3]
  · obtain ⟨e', he'⟩ := eigenDecompositionCall_eq fuel (diag3 a b c) V d
    obtain ⟨k0, k1, -, -, -, hd, -⟩ := sortEigen_spec
      (forUp 0 EIG3_N (fun i (W : DMat) =>
        forUp 0 EIG3_N (fun j (W : DMat) => W.set i j (diag3 a b c i j)) W) V) d
    exact ⟨_, he', rfl, (Equiv.swap 1 k1).trans (Equiv.swap 0 k0), hd⟩
  · obtain ⟨e', he'⟩ := eigenDecompositionCall_eq fuel (diag3 0 0 0) V (fun _ => 1)
    rw [sortEigen_of_sorted _ _ (le_refl _) (le_refl _)] at he'
    exact ⟨_, he', rfl, rfl, rfl⟩

end Amcl
